import Mathlib

/-!
Study Mood Tracer: the analytics route.

A shallow embedding of `GET /analytics` from `backend/routes/studyLogs.js`
together with the part of `backend/models/StudyLog.js` it reads.

Modelling conventions.

* A `Date` is its epoch value: an integer number of milliseconds since
  1970-01-01T00:00:00Z.
* `$dateToString` with format `%Y-%m-%d` (no `timezone` option, hence UTC) and
  `toISOString().slice(0, 10)` both yield the UTC calendar date.  That date is
  represented by its day number `t / 86400000` (floor division); for the years
  0000 to 9999, where the text has its fixed width, equality and ordering of the
  `YYYY-MM-DD` texts coincide with equality and ordering of the day numbers.
  `isoDate` renders a day number as the text, for the concrete examples.
  Outside those years `$dateToString` fails and with it the `aggregate` call:
  the pipelines below give the rows of a call that succeeds, and the queries of
  the route (`weeklyTrendQuery`, `streakQuery`) say when it does.
* Scores are JavaScript numbers; they are modelled as exact rationals, so the
  representation error of binary floating point is outside the model.
* MongoDB leaves the order of `$group` output unspecified; the model emits groups
  in order of first appearance.  Every pipeline that is read positionally sorts
  by its complete group key afterwards.
* All reads of the clock during one request are taken to return the same `now`.
-/

namespace StudyMoodTracer

/-! ## Data model (`backend/models/StudyLog.js`) -/

/-- One element of the `emotions` array of a study log. -/
structure EmotionReading where
  emotion : String
  score : ℚ
deriving DecidableEq

/-- A stored study log, restricted to the fields the analytics route reads. -/
structure StudyLog where
  user_id : Nat
  subject : String
  emotions : List EmotionReading
  study_time : Int
deriving DecidableEq

/-! ## Dates -/

/-- The constant `dayMs = 24 * 60 * 60 * 1000` of the streak loop. -/
def dayMs : Int := 24 * 60 * 60 * 1000

/-- Milliseconds in one hour. -/
def hourMs : Int := 60 * 60 * 1000

/-- UTC calendar date of an instant, as a day number: the value of
`$dateToString` with `%Y-%m-%d` and of `toISOString().slice(0, 10)`. -/
def utcDate (t : Int) : Int := t / dayMs

/-- The aggregation operator `$hour`: hour of the day, in UTC. -/
def utcHour (t : Int) : Int := (t % dayMs) / hourMs

/-- Proleptic Gregorian year, month and day of a day number (days since
1970-01-01), by the usual era decomposition. -/
def civilFromDays (days : Int) : Int × Int × Int :=
  let z := days + 719468
  let era := z / 146097
  let doe := z % 146097
  let yoe := (doe - doe / 1460 + doe / 36524 - doe / 146096) / 365
  let doy := doe - (365 * yoe + yoe / 4 - yoe / 100)
  let mp := (5 * doy + 2) / 153
  let d := doy - (153 * mp + 2) / 5 + 1
  let m := if mp < 10 then mp + 3 else mp - 9
  let y := yoe + era * 400 + (if m ≤ 2 then 1 else 0)
  (y, m, d)

/-- Decimal text of `n`, left-padded with zeros to `width` digits. -/
def zeroPad (width : Nat) (n : Int) : String :=
  let s := toString n.toNat
  String.mk (List.replicate (width - s.length) '0') ++ s

/-- The `YYYY-MM-DD` text of a day number. -/
def isoDate (day : Int) : String :=
  let c := civilFromDays day
  zeroPad 4 c.1 ++ "-" ++ zeroPad 2 c.2.1 ++ "-" ++ zeroPad 2 c.2.2

/-! ## Aggregation stages -/

/-- The stage `$match: { user_id }`. -/
def matchUser (docs : List StudyLog) (userId : Nat) : List StudyLog :=
  docs.filter (fun l => l.user_id = userId)

/-- The stage `$unwind: '$emotions'`: one document per array element, none for an
empty array. -/
def unwindEmotions (docs : List StudyLog) : List (StudyLog × EmotionReading) :=
  docs.flatMap (fun l => l.emotions.map (fun e => (l, e)))

/-- Adds one document to the group with key `k`, opening the group if needed. -/
def groupInsert {K D : Type} [DecidableEq K] (k : K) (d : D) :
    List (K × List D) → List (K × List D)
  | [] => [(k, [d])]
  | g :: gs => if g.1 = k then (g.1, g.2 ++ [d]) :: gs else g :: groupInsert k d gs

/-- The stage `$group` with `_id := key`: the documents of each distinct key. -/
def groupStage {K D : Type} [DecidableEq K] (key : D → K) (docs : List D) :
    List (K × List D) :=
  docs.foldl (fun acc d => groupInsert (key d) d acc) []

/-- What the fold of `groupStage` maintains: `acc` holds the groups of the
documents `seen` so far. -/
structure GroupInv {K D : Type} [DecidableEq K] (key : D → K) (acc : List (K × List D)) (seen : List D) : Prop where
  nodup : (acc.map Prod.fst).Nodup
  docs : ∀ g ∈ acc, g.2 = seen.filter (fun d => key d = g.1) ∧ g.2 ≠ []
  keys : ∀ d ∈ seen, key d ∈ acc.map Prod.fst
  total : (acc.map (fun g => g.2.length)).sum = seen.length

/-- The accumulator `$sum: '$emotions.score'` over the documents of a group. -/
def sumScores (g : List (StudyLog × EmotionReading)) : ℚ :=
  (g.map (fun d => d.2.score)).sum

/-- The accumulator `$avg: '$emotions.score'` over the documents of a group. -/
def avgScores (g : List (StudyLog × EmotionReading)) : ℚ :=
  sumScores g / (g.length : ℚ)

/-- Nearest integer, a tie going to the even neighbour: the rounding mode of the
operator `$round`. -/
def roundHalfEven (x : ℚ) : Int :=
  let f := ⌊x⌋
  let r := x - (f : ℚ)
  if r < 1 / 2 then f else if 1 / 2 < r then f + 1 else if f % 2 = 0 then f else f + 1

/-- The expression `$round: [x, 1]`. -/
def round1 (x : ℚ) : ℚ := (roundHalfEven (x * 10) : ℚ) / 10

/-- Half-up rounding to one decimal place, as the specification words it: a
value exactly at .05 goes up. -/
def roundHalfUp1 (x : ℚ) : ℚ := (⌊x * 10 + 1 / 2⌋ : ℚ) / 10

/-- The value `y` is `x` rounded to one decimal place: a multiple of one tenth
nearest to `x`, and at a tie the one whose number of tenths is even. -/
def IsNearestTenthTiesEven (x y : ℚ) : Prop :=
  ∃ n : ℤ, y = (n : ℚ) / 10 ∧ |x - y| ≤ 1 / 20 ∧ (|x - y| = 1 / 20 → Even n)

/-- The order of a two-field ascending `$sort`: first field, then second. -/
def lexLe {α β : Type} [LinearOrder α] [LinearOrder β] (a b : α × β) : Prop :=
  a.1 < b.1 ∨ (a.1 = b.1 ∧ a.2 ≤ b.2)

instance lexLe_decidable {α β : Type} [LinearOrder α] [LinearOrder β] (a b : α × β) :
    Decidable (lexLe a b) := by
  unfold lexLe
  exact inferInstance

/-- Strict version of `lexLe`. -/
def lexLt {α β : Type} [LinearOrder α] [LinearOrder β] (a b : α × β) : Prop :=
  a.1 < b.1 ∨ (a.1 = b.1 ∧ a.2 < b.2)

instance lexLt_decidable {α β : Type} [LinearOrder α] [LinearOrder β] (a b : α × β) :
    Decidable (lexLt a b) := by
  unfold lexLt
  exact inferInstance

/-! ## The three summaries -/

/-- A row of `subjectEmotions`. -/
structure SubjectEmotionStat where
  subject : String
  emotion : String
  avgScore : ℚ
  count : Nat
  totalScore : ℚ
deriving DecidableEq

/-- A row of `weeklyTrend`; `date` is the day number of the `YYYY-MM-DD` text. -/
structure DailyTrendStat where
  date : Int
  emotion : String
  avgScore : ℚ
  count : Nat
deriving DecidableEq

/-- A row of `timeAnalysis`. -/
structure TimeSlotEmotionStat where
  hour : Int
  emotion : String
  avgScore : ℚ
  count : Nat
deriving DecidableEq

/-- Sort key of a `subjectEmotions` row. -/
def SubjectEmotionStat.key (r : SubjectEmotionStat) : String × String := (r.subject, r.emotion)

/-- Sort key of a `weeklyTrend` row. -/
def DailyTrendStat.key (r : DailyTrendStat) : Int × String := (r.date, r.emotion)

/-- Sort key of a `timeAnalysis` row. -/
def TimeSlotEmotionStat.key (r : TimeSlotEmotionStat) : Int × String := (r.hour, r.emotion)

/-- The accumulators of `$group` and the `$project` stage of `subjectEmotions`,
for one group: `$avg` rounded by `$round`, `$sum: 1`, `$sum` of the scores. -/
def SubjectEmotionStat.ofGroup (g : (String × String) × List (StudyLog × EmotionReading)) :
    SubjectEmotionStat :=
  { subject := g.1.1
    emotion := g.1.2
    avgScore := round1 (avgScores g.2)
    count := g.2.length
    totalScore := sumScores g.2 }

/-- The accumulators of `$group` and the `$project` stage of `weeklyTrend`, for
one group. -/
def DailyTrendStat.ofGroup (g : (Int × String) × List (StudyLog × EmotionReading)) :
    DailyTrendStat :=
  { date := g.1.1
    emotion := g.1.2
    avgScore := round1 (avgScores g.2)
    count := g.2.length }

/-- The accumulators of `$group` and the `$project` stage of `timeAnalysis`, for
one group. -/
def TimeSlotEmotionStat.ofGroup (g : (Int × String) × List (StudyLog × EmotionReading)) :
    TimeSlotEmotionStat :=
  { hour := g.1.1
    emotion := g.1.2
    avgScore := round1 (avgScores g.2)
    count := g.2.length }

/-- The pipeline `subjectEmotionsAggregation`: match, unwind, group by
(subject, emotion), project with `$round`, sort by subject then emotion. -/
def subjectEmotionsAggregation (docs : List StudyLog) (userId : Nat) :
    List SubjectEmotionStat :=
  List.insertionSort (fun a b => lexLe a.key b.key)
    ((groupStage (fun d => (d.1.subject, d.2.emotion))
        (unwindEmotions (matchUser docs userId))).map SubjectEmotionStat.ofGroup)

/-- The time zone of the server process: the offset of local time from UTC, in
milliseconds, at an instant, and the offset `Date` uses to turn a local
wall-clock reading back into an instant (for a reading that a change of offset
skips or repeats, the offset from before the change). -/
structure TimeZone where
  offsetAtInstant : Int → Int
  offsetAtLocal : Int → Int

/-- The zone UTC. -/
def utcZone : TimeZone :=
  { offsetAtInstant := fun _ => 0, offsetAtLocal := fun _ => 0 }

/-- The value of `sevenDaysAgo` on a server in the given zone: `new Date()`, then
`setDate(getDate() - 7)`, which moves the local calendar date back by seven days
and keeps the local time of day. -/
def sevenDaysAgoIn (zone : TimeZone) (now : Int) : Int :=
  let localTime := now + zone.offsetAtInstant now
  let moved := localTime - 7 * dayMs
  moved - zone.offsetAtLocal moved

/-- The value of `sevenDaysAgo` on a server in UTC, or in any zone whose offset
is constant: there `setDate(getDate() - 7)` moves the instant back by
7 * 24 hours. -/
def sevenDaysAgo (now : Int) : Int := now - 7 * dayMs

/-- The pipeline `weeklyTrendAggregation` on a server in UTC: match the user and
`study_time >= sevenDaysAgo`, unwind, group by (date, emotion), project with
`$round`, sort by date then emotion. -/
def weeklyTrendAggregation (docs : List StudyLog) (userId : Nat) (now : Int) :
    List DailyTrendStat :=
  List.insertionSort (fun a b => lexLe a.key b.key)
    ((groupStage (fun d => (utcDate d.1.study_time, d.2.emotion))
        (unwindEmotions
          ((matchUser docs userId).filter (fun l => sevenDaysAgo now ≤ l.study_time)))).map
      DailyTrendStat.ofGroup)

/-- The pipeline `weeklyTrendAggregation` on a server in the given zone; the zone
enters through `sevenDaysAgo` only, the dates of the rows are UTC dates. -/
def weeklyTrendAggregationIn (zone : TimeZone) (docs : List StudyLog) (userId : Nat)
    (now : Int) : List DailyTrendStat :=
  List.insertionSort (fun a b => lexLe a.key b.key)
    ((groupStage (fun d => (utcDate d.1.study_time, d.2.emotion))
        (unwindEmotions
          ((matchUser docs userId).filter
            (fun l => sevenDaysAgoIn zone now ≤ l.study_time)))).map
      DailyTrendStat.ofGroup)

/-- The pipeline `timeAnalysisAggregation`: match, unwind, group by
(hour, emotion), project with `$round`, sort by hour then emotion. -/
def timeAnalysisAggregation (docs : List StudyLog) (userId : Nat) :
    List TimeSlotEmotionStat :=
  List.insertionSort (fun a b => lexLe a.key b.key)
    ((groupStage (fun d => (utcHour d.1.study_time, d.2.emotion))
        (unwindEmotions (matchUser docs userId))).map TimeSlotEmotionStat.ofGroup)

/-! ## The readings behind a row -/

/-- The (log, reading) pairs of the user with the given subject and emotion. -/
def subjectReadings (docs : List StudyLog) (userId : Nat) (subject emotion : String) :
    List (StudyLog × EmotionReading) :=
  (unwindEmotions (matchUser docs userId)).filter
    (fun d => d.1.subject = subject ∧ d.2.emotion = emotion)

/-- The (log, reading) pairs of the user with `study_time` at or after `since`, on
the given UTC date and with the given emotion. -/
def trendReadings (docs : List StudyLog) (userId : Nat) (since : Int) (date : Int)
    (emotion : String) : List (StudyLog × EmotionReading) :=
  (unwindEmotions (matchUser docs userId)).filter
    (fun d => since ≤ d.1.study_time ∧ utcDate d.1.study_time = date ∧ d.2.emotion = emotion)

/-- The (log, reading) pairs of the user at the given UTC hour of day and with the
given emotion. -/
def hourReadings (docs : List StudyLog) (userId : Nat) (hour : Int) (emotion : String) :
    List (StudyLog × EmotionReading) :=
  (unwindEmotions (matchUser docs userId)).filter
    (fun d => utcHour d.1.study_time = hour ∧ d.2.emotion = emotion)

/-! ## Streak -/

/-- The pipeline `streakResult` followed by `.map(r => r._id)`: the distinct log
dates of the user, sorted descending. -/
def uniqueDates (docs : List StudyLog) (userId : Nat) : List Int :=
  List.insertionSort (fun a b => b ≤ a)
    ((groupStage (fun l => utcDate l.study_time) (matchUser docs userId)).map (fun g => g.1))

/-- The `for` loop of the streak: `dates` is what is left of `uniqueDates` from
index `i` on, so its head is `uniqueDates[i]`; `expected` is the date of
`Date.now() - i * dayMs`. -/
def streakLoop (now : Int) : List Int → Nat → Nat → Nat
  | [], _, streak => streak
  | d :: rest, i, streak =>
    let expected := utcDate (now - (i : Int) * dayMs)
    if d = expected then streakLoop now rest (i + 1) (streak + 1) else streak

/-- The streak of the analytics route. -/
def streak (docs : List StudyLog) (userId : Nat) (now : Int) : Nat :=
  streakLoop now (uniqueDates docs userId) 0 0

/-! ## The route -/

/-- The body of a successful analytics response. -/
structure AnalyticsReport where
  totalSessions : Nat
  subjectEmotions : List SubjectEmotionStat
  weeklyTrend : List DailyTrendStat
  timeAnalysis : List TimeSlotEmotionStat
  streak : Nat
deriving DecidableEq

/-- The collection of study logs; a query against an unreachable store throws. -/
structure StudyLogStore where
  documents : List StudyLog
  reachable : Bool

/-- Runs one query (`countDocuments`, `aggregate`) against the store. -/
def StudyLogStore.run {α : Type} (db : StudyLogStore) (q : List StudyLog → α) :
    Except String α :=
  if db.reachable then Except.ok (q db.documents) else Except.error "store unreachable"

/-- What the handler sends: `res.json(body)` or `res.status(code).json({ error })`. -/
inductive Response where
  | json (status : Nat) (body : AnalyticsReport)
  | error (status : Nat) (message : String)
deriving DecidableEq

/-- The query `countDocuments({ user_id })`. -/
def countDocuments (docs : List StudyLog) (userId : Nat) : Nat :=
  (matchUser docs userId).length

/-- Whether `$dateToString` with `%Y` is defined at an instant: MongoDB writes the
years 0 to 9999 and fails with error 18537 on a date outside them. -/
def dateToStringDefined (t : Int) : Bool :=
  let year := (civilFromDays (utcDate t)).1
  decide (0 ≤ year ∧ year ≤ 9999)

/-- The call `aggregate` of `weeklyTrendAggregation`: `$group` evaluates
`$dateToString` on every document that `$match` and `$unwind` let through, and
the call fails when one of the evaluations does. -/
def weeklyTrendQuery (docs : List StudyLog) (userId : Nat) (now : Int) :
    Except String (List DailyTrendStat) :=
  if (unwindEmotions
      ((matchUser docs userId).filter (fun l => sevenDaysAgo now ≤ l.study_time))).all
      (fun d => dateToStringDefined d.1.study_time) then
    Except.ok (weeklyTrendAggregation docs userId now)
  else Except.error "date component was outside the supported range of 0-9999"

/-- The call `aggregate` of `streakResult` with `.map(r => r._id)`: `$group`
evaluates `$dateToString` on every log of the user. -/
def streakQuery (docs : List StudyLog) (userId : Nat) : Except String (List Int) :=
  if (matchUser docs userId).all (fun l => dateToStringDefined l.study_time) then
    Except.ok (uniqueDates docs userId)
  else Except.error "date component was outside the supported range of 0-9999"

/-- Runs one query that can fail on a document against the store. -/
def StudyLogStore.runChecked {α : Type} (db : StudyLogStore)
    (q : List StudyLog → Except String α) : Except String α :=
  if db.reachable then q db.documents else Except.error "store unreachable"

/-- The `try` block of the handler, given what its five awaited store queries
yield, then the streak loop; a query that throws ends the block. -/
def analyticsTry (totalSessions : Except String Nat)
    (subjectEmotionsAggregation : Except String (List SubjectEmotionStat))
    (weeklyTrendAggregation : Except String (List DailyTrendStat))
    (timeAnalysisAggregation : Except String (List TimeSlotEmotionStat))
    (streakResult : Except String (List Int)) (now : Int) :
    Except String AnalyticsReport := do
  let totalSessions ← totalSessions
  let subjectEmotions ← subjectEmotionsAggregation
  let weeklyTrend ← weeklyTrendAggregation
  let timeAnalysis ← timeAnalysisAggregation
  let dates ← streakResult
  let streak := streakLoop now dates 0 0
  pure
    { totalSessions := totalSessions
      subjectEmotions := subjectEmotions
      weeklyTrend := weeklyTrend
      timeAnalysis := timeAnalysis
      streak := streak }

/-- The `try` block of the handler against a store: five store queries, then the
streak loop. -/
def analyticsBody (db : StudyLogStore) (userId : Nat) (now : Int) :
    Except String AnalyticsReport :=
  analyticsTry
    (db.run (fun docs => countDocuments docs userId))
    (db.run (fun docs => subjectEmotionsAggregation docs userId))
    (db.runChecked (fun docs => weeklyTrendQuery docs userId now))
    (db.run (fun docs => timeAnalysisAggregation docs userId))
    (db.runChecked (fun docs => streakQuery docs userId))
    now

/-- The end of the handler: `res.json` of the report, or the `catch`, which
writes the error to the console and answers with a fixed body. -/
def analyticsResponse (outcome : Except String AnalyticsReport) : Response :=
  match outcome with
  | Except.ok report => Response.json 200 report
  | Except.error _ => Response.error 500 "Internal server error"

/-- The handler of `GET /analytics` for an authenticated user: the report with
status 200, or status 500 when anything in the `try` block throws. -/
def getAnalytics (db : StudyLogStore) (userId : Nat) (now : Int) : Response :=
  analyticsResponse (analyticsBody db userId now)

/-! ## The suggestion generator (`frontend/src/components/SmartSuggestions.js`)

The component receives the body of `GET /analytics` and the array of
`GET /study-logs`, either of which may be missing (`null` before the fetch).  A
missing field of the analytics object behaves like an empty array (or 0 for
`totalSessions`) in every guard of the component, so the report is taken with
its fields present.  `getHours` is the hour of an instant in the time zone of
the browser.  Numbers are exact rationals; `toFixed1` is `toFixed(1)` for
magnitudes below 10^21.

A rule that divides is written once, as a run that yields the suggestions
together with the divisor of every division it executes, in program order: the
guards around a division are the guards of the rule. -/

/-- An element of `suggestionsList`. -/
structure Suggestion where
  type : String
  message : String
deriving DecidableEq

/-- The method `toFixed(1)` on a non-negative number: the number of tenths
nearest to `x`, the larger one at a tie, written with one fractional digit. -/
def toFixed1Abs (x : ℚ) : String :=
  let n := ⌊x * 10 + 1 / 2⌋.toNat
  toString (n / 10) ++ "." ++ toString (n % 10)

/-- The method `toFixed(1)`: a negative number is written as `-` followed by the
text of its absolute value. -/
def toFixed1 (x : ℚ) : String :=
  if x < 0 then "-" ++ toFixed1Abs (-x) else toFixed1Abs x

/-- A JavaScript number as far as the stress rule can produce one. -/
inductive JsNumber where
  | finite (q : ℚ)
  | posInf
  | nan
deriving DecidableEq

/-- The comparison `x > bound`; false for `NaN`. -/
def JsNumber.exceeds : JsNumber → ℚ → Bool
  | JsNumber.finite q, bound => decide (bound < q)
  | JsNumber.posInf, _ => true
  | JsNumber.nan, _ => false

/-- The method `toFixed(1)` on a `JsNumber`. -/
def JsNumber.toFixed1 : JsNumber → String
  | JsNumber.finite q => StudyMoodTracer.toFixed1 q
  | JsNumber.posInf => "Infinity"
  | JsNumber.nan => "NaN"

/-- A value read from a property of the tally objects `subjectTotals` and
`subjectStressed`: `undefined` for an absent property, a count, `NaN`, or
`other`: a function or object inherited from `Object.prototype`, or the string
that `+=` makes of one. -/
inductive JsValue where
  | undefined
  | number (n : Nat)
  | nan
  | other
deriving DecidableEq

/-- The own enumerable properties of an object created by `{}`, in creation
order. -/
abbrev JsObject := List (String × JsValue)

/-- The property names every object created by `{}` inherits from
`Object.prototype`. -/
def objectPrototypeKeys : List String :=
  ["constructor", "__defineGetter__", "__defineSetter__", "hasOwnProperty",
   "__lookupGetter__", "__lookupSetter__", "isPrototypeOf", "propertyIsEnumerable",
   "toString", "valueOf", "__proto__", "toLocaleString"]

/-- The read `obj[key]`: the own property, else the inherited one, else
`undefined`. -/
def getProp (obj : JsObject) (key : String) : JsValue :=
  match obj.lookup key with
  | some v => v
  | none => if key ∈ objectPrototypeKeys then JsValue.other else JsValue.undefined

/-- Replaces the value of the own property `key`, or appends the property. -/
def putOwn (key : String) (v : JsValue) : JsObject → JsObject
  | [] => [(key, v)]
  | p :: ps => if p.1 = key then (key, v) :: ps else p :: putOwn key v ps

/-- The write `obj[key] = v` of a value that is not an object: writing to
`__proto__` runs the inherited setter, which ignores such a value. -/
def setProp (obj : JsObject) (key : String) (v : JsValue) : JsObject :=
  if key = "__proto__" then obj else putOwn key v obj

/-- The test `!v`. -/
def JsValue.falsy : JsValue → Bool
  | JsValue.undefined => true
  | JsValue.number n => decide (n = 0)
  | JsValue.nan => true
  | JsValue.other => false

/-- The value of `v + count` as computed by `v += count`. -/
def JsValue.plus : JsValue → Nat → JsValue
  | JsValue.undefined, _ => JsValue.nan
  | JsValue.number n, count => JsValue.number (n + count)
  | JsValue.nan, _ => JsValue.nan
  | JsValue.other, _ => JsValue.other

/-- Decimal value of a non-empty string of digits. -/
def parseDigits (s : String) : Option Nat :=
  if s.data ≠ [] ∧ s.data.all Char.isDigit = true then
    some (s.data.foldl (fun n c => 10 * n + (c.toNat - 48)) 0)
  else none

/-- Whether a property name is an array index: the canonical decimal text of an
integer below 2^32 - 1. -/
def isArrayIndex (s : String) : Bool :=
  match parseDigits s with
  | some n => decide (toString n = s ∧ n < 4294967295)
  | none => false

/-- The function `Object.keys`: array indices in ascending numeric order, then
the other names in creation order. -/
def objectKeys (obj : JsObject) : List String :=
  List.insertionSort (fun a b => (parseDigits a).getD 0 ≤ (parseDigits b).getD 0)
      ((obj.map Prod.fst).filter isArrayIndex) ++
    (obj.map Prod.fst).filter (fun k => !isArrayIndex k)

/-- One round of the `forEach` over `subjectEmotions` in the stress rule; the
state is the pair (`subjectTotals`, `subjectStressed`). -/
def tallyStep (st : JsObject × JsObject) (item : SubjectEmotionStat) : JsObject × JsObject :=
  let init : JsObject × JsObject :=
    if (getProp st.1 item.subject).falsy then
      (setProp st.1 item.subject (JsValue.number 0),
       setProp st.2 item.subject (JsValue.number 0))
    else st
  let subjectTotals :=
    setProp init.1 item.subject ((getProp init.1 item.subject).plus item.count)
  let subjectStressed :=
    if item.emotion = "Stressed" then
      setProp init.2 item.subject ((getProp init.2 item.subject).plus item.count)
    else init.2
  (subjectTotals, subjectStressed)

/-- The expression `(subjectStressed[subject] / subjectTotals[subject]) * 100`. -/
def stressedPercentage (stressed total : JsValue) : JsNumber :=
  match stressed, total with
  | JsValue.number a, JsValue.number b =>
    if b = 0 then (if a = 0 then JsNumber.nan else JsNumber.posInf)
    else JsNumber.finite ((a : ℚ) / (b : ℚ) * 100)
  | _, _ => JsNumber.nan

/-- The conversion `ToNumber` that `/` applies to a value read from a tally
object. -/
def JsValue.toNumber : JsValue → JsNumber
  | JsValue.undefined => JsNumber.nan
  | JsValue.number n => JsNumber.finite (n : ℚ)
  | JsValue.nan => JsNumber.nan
  | JsValue.other => JsNumber.nan

/-- The suggestion of the no-data rule. -/
def noDataSuggestion : Suggestion :=
  { type := "info"
    message := "Start logging your study sessions to get personalized suggestions!" }

/-- The warning of the stress rule. -/
def stressWarning (subject : String) (stressedPercentage : JsNumber) : Suggestion :=
  { type := "warning"
    message := "You seem stressed while studying " ++ subject ++ " (" ++
      stressedPercentage.toFixed1 ++
      "% of sessions). Consider shorter sessions or taking more breaks." }

/-- The suggestion of the morning-focus rule. -/
def morningFocusSuggestion : Suggestion :=
  { type := "success"
    message := "You are most focused in the morning! Try scheduling difficult subjects earlier in the day." }

/-- The warning of the late-night rule. -/
def lateNightWarning : Suggestion :=
  { type := "warning"
    message := "Late-night study sessions may reduce focus. Consider studying earlier in the day for better productivity." }

/-- The success suggestion of the emotional-balance rule. -/
def balanceSuccess (positiveAvg : ℚ) : Suggestion :=
  { type := "success"
    message := "Great emotional balance! Your average positive emotion score is " ++
      toFixed1 positiveAvg ++ "/10. Keep up the good work!" }

/-- The warning of the emotional-balance rule. -/
def balanceWarning (negativeAvg : ℚ) : Suggestion :=
  { type := "warning"
    message := "Your average negative emotion score is " ++ toFixed1 negativeAvg ++
      "/10. Consider stress management techniques and regular breaks." }

/-- The suggestion of the boredom rule. -/
def boredomSuggestion (boredSubjects : List String) : Suggestion :=
  { type := "info"
    message := "You seem bored with " ++ String.intercalate ", " boredSubjects ++
      ". Try new study methods or break down topics into smaller, engaging tasks." }

/-- The default suggestion. -/
def fallbackSuggestion : Suggestion :=
  { type := "info"
    message := "Keep tracking your study sessions to discover patterns and improve your study habits!" }

/-- Suggestion 1, high stress levels: the block pushes onto `suggestionsList`;
each round of the second `forEach` divides by `subjectTotals[subject]`. -/
def stressRun (analytics : AnalyticsReport) (suggestionsList : List Suggestion) :
    List Suggestion × List JsNumber :=
  if 0 < analytics.subjectEmotions.length then
    let tallies := analytics.subjectEmotions.foldl tallyStep ([], [])
    (objectKeys tallies.1).foldl
      (fun run subject =>
        let pct := stressedPercentage (getProp tallies.2 subject) (getProp tallies.1 subject)
        (if pct.exceeds 60 then run.1 ++ [stressWarning subject pct] else run.1,
         run.2 ++ [(getProp tallies.1 subject).toNumber]))
      (suggestionsList, [])
  else (suggestionsList, [])

/-- The suggestions of suggestion 1. -/
def stressBlock (analytics : AnalyticsReport) (suggestionsList : List Suggestion) :
    List Suggestion :=
  (stressRun analytics suggestionsList).1

/-- The reducer `(sum, item) => sum + item.avgScore * item.count` from 0, over
`timeAnalysis` rows. -/
def focusScore (items : List TimeSlotEmotionStat) : ℚ :=
  items.foldl (fun sum item => sum + item.avgScore * (item.count : ℚ)) 0

/-- Suggestion 2, focus in the morning; the division is by `totalScore`. -/
def morningFocusRun (analytics : AnalyticsReport) (suggestionsList : List Suggestion) :
    List Suggestion × List JsNumber :=
  if 0 < analytics.timeAnalysis.length then
    let morningFocused := analytics.timeAnalysis.filter
      (fun item => 6 ≤ item.hour ∧ item.hour < 12 ∧ item.emotion = "Focused")
    let afternoonFocused := analytics.timeAnalysis.filter
      (fun item => 12 ≤ item.hour ∧ item.hour < 18 ∧ item.emotion = "Focused")
    let eveningFocused := analytics.timeAnalysis.filter
      (fun item => 18 ≤ item.hour ∧ item.emotion = "Focused")
    let morningScore := focusScore morningFocused
    let afternoonScore := focusScore afternoonFocused
    let eveningScore := focusScore eveningFocused
    let totalScore := morningScore + afternoonScore + eveningScore
    if 0 < totalScore then
      let morningPercentage := morningScore / totalScore * 100
      (if 50 < morningPercentage then suggestionsList ++ [morningFocusSuggestion]
        else suggestionsList,
       [JsNumber.finite totalScore])
    else (suggestionsList, [])
  else (suggestionsList, [])

/-- The suggestions of suggestion 2. -/
def morningFocusBlock (analytics : AnalyticsReport) (suggestionsList : List Suggestion) :
    List Suggestion :=
  (morningFocusRun analytics suggestionsList).1

/-- Suggestion 3, late-night sessions (11 PM to 2 AM); the division is by
`lateNightSessions.length`. -/
def lateNightRun (getHours : Int → Int) (logs : List StudyLog)
    (suggestionsList : List Suggestion) : List Suggestion × List JsNumber :=
  if 0 < logs.length then
    let lateNightSessions := logs.filter
      (fun log => 23 ≤ getHours log.study_time ∨ getHours log.study_time < 2)
    if 0 < lateNightSessions.length then
      let lateNightTiredSessions := lateNightSessions.filter
        (fun log => log.emotions.any (fun emotion => emotion.emotion = "Tired" ∧ 5 < emotion.score))
      let lateNightTiredPercentage : ℚ :=
        (lateNightTiredSessions.length : ℚ) / (lateNightSessions.length : ℚ) * 100
      (if 50 < lateNightTiredPercentage then suggestionsList ++ [lateNightWarning]
        else suggestionsList,
       [JsNumber.finite (lateNightSessions.length : ℚ)])
    else (suggestionsList, [])
  else (suggestionsList, [])

/-- The suggestions of suggestion 3. -/
def lateNightBlock (getHours : Int → Int) (logs : List StudyLog)
    (suggestionsList : List Suggestion) : List Suggestion :=
  (lateNightRun getHours logs suggestionsList).1

/-- The array `positiveEmotions`. -/
def positiveEmotions : List String := ["Happy", "Excited", "Confident", "Calm", "Focused"]

/-- The array `negativeEmotions`. -/
def negativeEmotions : List String := ["Stressed", "Anxious", "Frustrated"]

/-- The reducer `(sum, item) => sum + item.avgScore * item.count` from 0, over
`subjectEmotions` rows. -/
def weightedTotal (items : List SubjectEmotionStat) : ℚ :=
  items.foldl (fun sum item => sum + item.avgScore * (item.count : ℚ)) 0

/-- Suggestion 4, overall emotional balance; both averages divide by
`totalSessions`. -/
def balanceRun (analytics : AnalyticsReport) (suggestionsList : List Suggestion) :
    List Suggestion × List JsNumber :=
  if 0 < analytics.subjectEmotions.length then
    let totalPositive := weightedTotal
      (analytics.subjectEmotions.filter (fun item => positiveEmotions.contains item.emotion))
    let totalNegative := weightedTotal
      (analytics.subjectEmotions.filter (fun item => negativeEmotions.contains item.emotion))
    let totalSessions := analytics.totalSessions
    if 0 < totalSessions then
      let positiveAvg := totalPositive / (totalSessions : ℚ)
      let negativeAvg := totalNegative / (totalSessions : ℚ)
      (if 6 < positiveAvg then suggestionsList ++ [balanceSuccess positiveAvg]
        else if 5 < negativeAvg then suggestionsList ++ [balanceWarning negativeAvg]
        else suggestionsList,
       [JsNumber.finite (totalSessions : ℚ), JsNumber.finite (totalSessions : ℚ)])
    else (suggestionsList, [])
  else (suggestionsList, [])

/-- The suggestions of suggestion 4. -/
def balanceBlock (analytics : AnalyticsReport) (suggestionsList : List Suggestion) :
    List Suggestion :=
  (balanceRun analytics suggestionsList).1

/-- Suggestion 5, boredom patterns. -/
def boredomBlock (analytics : AnalyticsReport) (suggestionsList : List Suggestion) :
    List Suggestion :=
  if 0 < analytics.subjectEmotions.length then
    let boredSubjects :=
      (analytics.subjectEmotions.filter
        (fun item => item.emotion = "Bored" ∧ 5 < item.avgScore)).map (fun item => item.subject)
    if 0 < boredSubjects.length then suggestionsList ++ [boredomSuggestion boredSubjects]
    else suggestionsList
  else suggestionsList

/-- The function passed to `useMemo`: the suggestions shown for the given
analytics and logs, and the divisors of the divisions executed on the way. -/
def generateSuggestionsRun (getHours : Int → Int) (analytics : Option AnalyticsReport)
    (logs : Option (List StudyLog)) : List Suggestion × List JsNumber :=
  match analytics, logs with
  | some analytics, some logs =>
    if logs.length = 0 then ([noDataSuggestion], [])
    else
      let suggestionsList : List Suggestion := []
      let stress := stressRun analytics suggestionsList
      let morningFocus := morningFocusRun analytics stress.1
      let lateNight := lateNightRun getHours logs morningFocus.1
      let balance := balanceRun analytics lateNight.1
      let suggestionsList := boredomBlock analytics balance.1
      (if suggestionsList.length = 0 ∧ 0 < logs.length then
          suggestionsList ++ [fallbackSuggestion]
        else suggestionsList,
       stress.2 ++ morningFocus.2 ++ lateNight.2 ++ balance.2)
  | _, _ => ([noDataSuggestion], [])

/-- The suggestions shown for the given analytics and logs. -/
def generateSuggestions (getHours : Int → Int) (analytics : Option AnalyticsReport)
    (logs : Option (List StudyLog)) : List Suggestion :=
  (generateSuggestionsRun getHours analytics logs).1

/-- The divisors of all divisions a run of the generator executes. -/
def divisorsReached (getHours : Int → Int) (analytics : Option AnalyticsReport)
    (logs : Option (List StudyLog)) : List JsNumber :=
  (generateSuggestionsRun getHours analytics logs).2

/-- The query of `GET /`: the logs of the user, latest `study_time` first; they
are the `logs` the pages pass to the component. -/
def listStudyLogs (docs : List StudyLog) (userId : Nat) : List StudyLog :=
  List.insertionSort (fun a b => b.study_time ≤ a.study_time) (matchUser docs userId)

/-- The `analytics` state of a page after the fetch: the body of a successful
response, `null` otherwise. -/
def fetchedAnalytics (r : Response) : Option AnalyticsReport :=
  match r with
  | Response.json _ body => some body
  | Response.error _ _ => none

/-- The suggestions a page shows for the stored logs of a user, the browser
running in UTC. -/
def suggestionsFor (docs : List StudyLog) (userId : Nat) (now : Int) : List Suggestion :=
  generateSuggestions utcHour
    (fetchedAnalytics (getAnalytics { documents := docs, reachable := true } userId now))
    (some (listStudyLogs docs userId))

/-! ## The rules in the words of the specification -/

/-- The sum of `count` over the rows of a subject. -/
def totalCount (subjectEmotions : List SubjectEmotionStat) (subject : String) : Nat :=
  ((subjectEmotions.filter (fun r => r.subject = subject)).map (fun r => r.count)).sum

/-- The sum of `count` over the `Stressed` rows of a subject. -/
def stressedCount (subjectEmotions : List SubjectEmotionStat) (subject : String) : Nat :=
  ((subjectEmotions.filter
    (fun r => r.subject = subject ∧ r.emotion = "Stressed")).map (fun r => r.count)).sum

/-- What the `forEach` of the stress rule maintains while no subject is a name
inherited from `Object.prototype`: both tally objects hold, for the subjects of
the rows `seen` so far, the two sums of counts. -/
structure TallyInv (seen : List SubjectEmotionStat) (st : JsObject × JsObject) : Prop where
  nodup : (st.1.map Prod.fst).Nodup
  keys : ∀ k, k ∈ st.1.map Prod.fst ↔ ∃ r ∈ seen, r.subject = k
  totals : ∀ k ∈ st.1.map Prod.fst, st.1.lookup k = some (JsValue.number (totalCount seen k))
  stressed : ∀ k ∈ st.1.map Prod.fst,
    st.2.lookup k = some (JsValue.number (stressedCount seen k))

/-- The weighted score (sum of `avgScore * count`) of the `Focused` rows of
`timeAnalysis` whose hour lies in a bucket. -/
def focusedWeight (timeAnalysis : List TimeSlotEmotionStat) (inBucket : Int → Bool) : ℚ :=
  ((timeAnalysis.filter (fun r => r.emotion = "Focused" ∧ inBucket r.hour = true)).map
    (fun r => r.avgScore * (r.count : ℚ))).sum

/-- Weighted Focused score of the morning bucket, hours 6 to 11. -/
def morningWeight (timeAnalysis : List TimeSlotEmotionStat) : ℚ :=
  focusedWeight timeAnalysis (fun h => 6 ≤ h ∧ h ≤ 11)

/-- Weighted Focused score of the afternoon bucket, hours 12 to 17. -/
def afternoonWeight (timeAnalysis : List TimeSlotEmotionStat) : ℚ :=
  focusedWeight timeAnalysis (fun h => 12 ≤ h ∧ h ≤ 17)

/-- Weighted Focused score of the evening bucket, hours from 18 on. -/
def eveningWeight (timeAnalysis : List TimeSlotEmotionStat) : ℚ :=
  focusedWeight timeAnalysis (fun h => 18 ≤ h)

/-- Whether a `timeAnalysis` row is a `Focused` row with its hour in 0 to 5. -/
def isEarlyFocused (r : TimeSlotEmotionStat) : Bool :=
  decide (r.emotion = "Focused" ∧ 0 ≤ r.hour ∧ r.hour ≤ 5)

/-- The logs whose hour of `study_time` is at least 23 or below 2. -/
def lateNightLogs (getHours : Int → Int) (logs : List StudyLog) : List StudyLog :=
  logs.filter (fun l => 23 ≤ getHours l.study_time ∨ getHours l.study_time < 2)

/-- Whether a log contains a `Tired` reading with score above 5. -/
def hasTiredReading (l : StudyLog) : Prop :=
  ∃ e ∈ l.emotions, e.emotion = "Tired" ∧ 5 < e.score

instance hasTiredReading_decidable (l : StudyLog) : Decidable (hasTiredReading l) := by
  unfold hasTiredReading
  exact inferInstance

/-- The sum of `avgScore * count` over the `subjectEmotions` rows whose emotion is
in the given set, divided by `totalSessions`. -/
def emotionAverage (report : AnalyticsReport) (emotions : List String) : ℚ :=
  ((report.subjectEmotions.filter (fun r => r.emotion ∈ emotions)).map
    (fun r => r.avgScore * (r.count : ℚ))).sum / (report.totalSessions : ℚ)

/-- The positive-average of the emotional-balance rule. -/
def positiveAverage (report : AnalyticsReport) : ℚ :=
  emotionAverage report ["Happy", "Excited", "Confident", "Calm", "Focused"]

/-- The negative-average of the emotional-balance rule. -/
def negativeAverage (report : AnalyticsReport) : ℚ :=
  emotionAverage report ["Stressed", "Anxious", "Frustrated"]

/-- The subjects of the `Bored` rows with `avgScore` above 5, in row order. -/
def boredSubjects (subjectEmotions : List SubjectEmotionStat) : List String :=
  (subjectEmotions.filter (fun r => r.emotion = "Bored" ∧ 5 < r.avgScore)).map
    (fun r => r.subject)

/-! ## Ingestion (`POST /` of `backend/routes/studyLogs.js`)

The body of a request is JSON of any shape.  The conversions of JavaScript and
the casts of mongoose that the route and the schema apply to a value are code
outside the sources; they are taken as parameters (`Conversions`).  Numbers are
exact rationals.  Only the stored fields the analytics reads are kept in the
stored document. -/

/-- White space and line terminators, the characters `trim` strips. -/
def jsWhitespace (c : Char) : Bool :=
  c.val.toNat ∈ [9, 10, 11, 12, 13, 32, 160, 5760, 8192, 8193, 8194, 8195, 8196, 8197, 8198,
    8199, 8200, 8201, 8202, 8232, 8233, 8239, 8287, 12288, 65279]

/-- The method `trim` of a string. -/
def jsTrim (s : String) : String :=
  String.mk ((s.data.dropWhile jsWhitespace).reverse.dropWhile jsWhitespace).reverse

/-- The property `length` of a string: its number of UTF-16 code units. -/
def utf16Length (s : String) : Nat :=
  s.data.foldl (fun n c => n + (if 65535 < c.val.toNat then 2 else 1)) 0

/-- A JSON value of a request body; `undefined` stands for a property that is
absent. -/
inductive JsonValue where
  | undefined
  | null
  | bool (b : Bool)
  | number (q : ℚ)
  | string (s : String)
  | array (items : List JsonValue)
  | object (properties : List (String × JsonValue))

/-- The test `!!value`: false for an absent value, `null`, `false`, 0 and the
empty string. -/
def JsonValue.truthy : JsonValue → Bool
  | JsonValue.undefined => false
  | JsonValue.null => false
  | JsonValue.bool b => b
  | JsonValue.number q => decide (q ≠ 0)
  | JsonValue.string s => decide (s ≠ "")
  | JsonValue.array _ => true
  | JsonValue.object _ => true

/-- The function `Array.isArray`. -/
def JsonValue.isArray : JsonValue → Bool
  | JsonValue.array _ => true
  | _ => false

/-- The elements of an array; no elements for any other value. -/
def JsonValue.items : JsonValue → List JsonValue
  | JsonValue.array items => items
  | _ => []

/-- The read `value.name` for the names `emotion` and `score`, which no
prototype defines: the own property of an object, `undefined` on a boolean, a
number, a string or an array, and `none` on `null` and `undefined`, where the
read throws a `TypeError`. -/
def JsonValue.read (value : JsonValue) (name : String) : Option JsonValue :=
  match value with
  | JsonValue.undefined => none
  | JsonValue.null => none
  | JsonValue.object properties => some ((properties.lookup name).getD JsonValue.undefined)
  | _ => some JsonValue.undefined

/-- What the conversions of JavaScript and the casts of mongoose make of a
value.  `toText` is `String(value)` for a number, an array or an object, `none`
when it throws.  `newDate` is `new Date(value)` for a truthy value, `none` for
an invalid date.  `castString` and `castNumber` are the casts of mongoose to
`String` and `Number` for a truthy value that is no string and no number, `none`
for a `CastError` and `some none` for a cast to `null`.  `castReading` tells
whether mongoose casts an element of `emotions` whose emotion and score passed
the tests of the route to a subdocument. -/
structure Conversions where
  toText : JsonValue → Option String
  newDate : JsonValue → Option Int
  castString : JsonValue → Option String
  castNumber : JsonValue → Option (Option ℚ)
  castReading : JsonValue → Bool

/-- The text a template literal makes of a value; `none` when the conversion
throws. -/
def templateText (lib : Conversions) : JsonValue → Option String
  | JsonValue.undefined => some "undefined"
  | JsonValue.null => some "null"
  | JsonValue.bool b => some (if b then "true" else "false")
  | JsonValue.string s => some s
  | v => lib.toText v

/-- The cast of mongoose to `String`. -/
def castToString (lib : Conversions) : JsonValue → Option String
  | JsonValue.string s => some s
  | v => lib.castString v

/-- The cast of mongoose to `Number`. -/
def castToNumber (lib : Conversions) : JsonValue → Option (Option ℚ)
  | JsonValue.number q => some (some q)
  | v => lib.castNumber v

/-- What `POST /` answers: 201 with the stored log, 400 with an error text, or
500 from the `catch`. -/
inductive PostResponse where
  | created (log : StudyLog)
  | badRequest (error : String)
  | serverError
deriving DecidableEq

/-- The array `validEmotions` of the route, also the `enum` of the schema. -/
def validEmotions : List String :=
  ["Happy", "Tired", "Stressed", "Excited", "Anxious", "Focused", "Bored", "Confident",
   "Frustrated", "Calm"]

/-- The call `validEmotions.includes(value)`: only a string can be equal to an
element. -/
def includes (xs : List String) : JsonValue → Bool
  | JsonValue.string s => xs.contains s
  | _ => false

/-- How the `for` loop over `emotions` ends: it runs through, it returns with
status 400, or it throws. -/
inductive Validation where
  | passed
  | rejected (error : String)
  | thrown
deriving DecidableEq

/-- The `for` loop over `emotions`. -/
def validateReadings (lib : Conversions) : List JsonValue → Validation
  | [] => Validation.passed
  | emotionData :: rest =>
    match emotionData.read "emotion" with
    | none => Validation.thrown
    | some emotion =>
      if emotion.truthy = false ∨ includes validEmotions emotion = false then
        match templateText lib emotion with
        | some text =>
          Validation.rejected ("Invalid emotion: " ++ text ++ ". Must be one of: " ++
            String.intercalate ", " validEmotions)
        | none => Validation.thrown
      else
        match emotionData.read "score" with
        | none => Validation.thrown
        | some (JsonValue.number score) =>
          if score < 0 ∨ 10 < score then
            Validation.rejected ("Invalid score for " ++ (templateText lib emotion).getD "" ++
              ". Must be between 0 and 10")
          else validateReadings lib rest
        | some _ =>
          Validation.rejected ("Invalid score for " ++ (templateText lib emotion).getD "" ++
            ". Must be between 0 and 10")

/-- The body of `POST /`, destructured: each property as sent, `undefined` when
absent. -/
structure LogRequest where
  subject : JsonValue
  emotions : JsonValue
  study_time : JsonValue
  duration : JsonValue
  notes : JsonValue
  tags : JsonValue

/-- A reading as stored, for an element that passed `validateReadings`. -/
def storedReading (emotionData : JsonValue) : EmotionReading :=
  { emotion := match emotionData.read "emotion" with
      | some (JsonValue.string s) => s
      | _ => ""
    score := match emotionData.read "score" with
      | some (JsonValue.number q) => q
      | _ => 0 }

/-- The call `tags.filter(t => t && String(t).trim())`: the tags kept, `none`
when `String(t)` throws. -/
def filterTags (lib : Conversions) : List JsonValue → Option (List JsonValue)
  | [] => some []
  | t :: rest =>
    if t.truthy then
      match templateText lib t with
      | none => none
      | some text =>
        (filterTags lib rest).map (fun kept => if jsTrim text = "" then kept else t :: kept)
    else filterTags lib rest

/-- The statements `new StudyLog({ ... })` and `studyLog.save()`: the document is
cast and validated against the schema (subject required after trimming, a valid
date, `duration` at least 1, `notes` of at most 500 code units after trimming,
tags that are strings) and inserted; a failed cast or validation and an
unreachable store throw. -/
def saveStudyLog (lib : Conversions) (db : StudyLogStore) (userId : Nat) (now : Int)
    (body : LogRequest) : Except String (StudyLog × StudyLogStore) :=
  let study_time : Option Int :=
    if body.study_time.truthy then lib.newDate body.study_time else some now
  let duration : Option (Option ℚ) :=
    if body.duration.truthy then castToNumber lib body.duration else some none
  let notes : Option (Option String) :=
    if body.notes.truthy then (castToString lib body.notes).map some else some none
  let tags : Option (List JsonValue) :=
    if body.tags.isArray then filterTags lib body.tags.items else some []
  match tags with
  | none => Except.error "TypeError"
  | some tags =>
    match castToString lib body.subject, study_time, duration, notes with
    | some subject, some study_time, some duration, some notes =>
      if jsTrim subject = "" then Except.error "ValidationError"
      else if (match duration with | some d => decide (d < 1) | none => false) = true then
        Except.error "ValidationError"
      else if (match notes with
          | some n => decide (500 < utf16Length (jsTrim n))
          | none => false) = true then
        Except.error "ValidationError"
      else if tags.all (fun t => (castToString lib t).isSome) = false then
        Except.error "ValidationError"
      else if body.emotions.items.all lib.castReading = false then
        Except.error "ValidationError"
      else if db.reachable = false then Except.error "store unreachable"
      else
        let log : StudyLog :=
          { user_id := userId
            subject := jsTrim subject
            emotions := body.emotions.items.map storedReading
            study_time := study_time }
        Except.ok (log, { db with documents := db.documents ++ [log] })
    | _, _, _, _ => Except.error "ValidationError"

/-- The handler of `POST /` for an authenticated user: the response and the
store afterwards. -/
def postStudyLog (lib : Conversions) (db : StudyLogStore) (userId : Nat) (now : Int)
    (body : LogRequest) : PostResponse × StudyLogStore :=
  if body.subject.truthy = false ∨ body.emotions.truthy = false ∨
      body.emotions.isArray = false ∨ body.emotions.items.length = 0 then
    (PostResponse.badRequest "Subject and at least one emotion are required", db)
  else
    match validateReadings lib body.emotions.items with
    | Validation.rejected error => (PostResponse.badRequest error, db)
    | Validation.thrown => (PostResponse.serverError, db)
    | Validation.passed =>
      match saveStudyLog lib db userId now body with
      | Except.ok (log, db') => (PostResponse.created log, db')
      | Except.error _ => (PostResponse.serverError, db)

/-- The conditions of acceptance in the words of the specification, the subject
being present when it is a truthy value and the score being any number in
[0,10]. -/
def RequestWellFormed (body : LogRequest) : Prop :=
  body.subject.truthy = true ∧
    ∃ items, body.emotions = JsonValue.array items ∧ items ≠ [] ∧
      ∀ r ∈ items, (∃ e ∈ validEmotions, r.read "emotion" = some (JsonValue.string e)) ∧
        ∃ score, r.read "score" = some (JsonValue.number score) ∧ 0 ≤ score ∧ score ≤ 10

/-- The validation loop has nothing to throw on: no element of `emotions` is
`null`, and the emotion of every element can be written into an error text. -/
def ReadingsReadable (lib : Conversions) (body : LogRequest) : Prop :=
  ∀ r ∈ body.emotions.items,
    ∃ emotion, r.read "emotion" = some emotion ∧ (templateText lib emotion).isSome = true

/-! ## Favourite subjects (`POST /favorites/:subject` of `backend/routes/users.js`)

The schema of users is not among the sources; `favoriteSubjects` is taken as
the route uses it, an array of strings that is stored as written and may be
absent.  `toLowerCase` is the string method of that name. -/

/-- The method `indexOf` of an array: the first index that holds `x`, or -1. -/
def indexOf (xs : List String) (x : String) : Int :=
  if xs.indexOf x < xs.length then (xs.indexOf x : Int) else -1

/-- A user document, as far as the route reads and writes it. -/
structure User where
  favoriteSubjects : Option (List String)
deriving DecidableEq

/-- What the favourites route answers: the list, or a status with an error. -/
inductive FavoritesResponse where
  | json (favoriteSubjects : List String)
  | error (status : Nat) (error : String)
deriving DecidableEq

/-- The handler of `POST /favorites/:subject`: the response and the user document
afterwards; `user` is what `findById` returns. -/
def toggleFavorite (toLowerCase : String → String) (user : Option User) (param : String) :
    FavoritesResponse × Option User :=
  let subject := jsTrim param
  if subject = "" then (FavoritesResponse.error 400 "Subject is required", user)
  else
    match user with
    | none => (FavoritesResponse.error 404 "User not found", none)
    | some user =>
      let favoriteSubjects := user.favoriteSubjects.getD []
      let idx := indexOf (favoriteSubjects.map toLowerCase) (toLowerCase subject)
      let favoriteSubjects :=
        if 0 ≤ idx then favoriteSubjects.eraseIdx idx.toNat
        else favoriteSubjects ++ [subject]
      (FavoritesResponse.json favoriteSubjects, some { favoriteSubjects := some favoriteSubjects })

/-! ## Study groups (`backend/routes/studyGroups.js`)

User ids are numbers, compared as the routes compare their texts.  `findUser`
is the query `User.findOne({ email })`.  The state a handler works on is the
stored document of the group the request names, `none` when there is none. -/

/-- An element of `invitations`. -/
structure Invitation where
  email : String
  invitedBy : Nat
deriving DecidableEq

/-- A document of the collection of study groups; `members` holds the `user` of
each element of the array, in array order. -/
structure StudyGroup where
  name : String
  description : String
  createdBy : Nat
  members : List Nat
  invitations : List Invitation
deriving DecidableEq

/-- What a group route answers: a group document, a message, or a status with an
error. -/
inductive GroupResponse where
  | group (status : Nat) (group : StudyGroup)
  | message (message : String)
  | error (status : Nat) (error : String)
deriving DecidableEq

/-- The handler of `POST /`: the response and the stored document of the new
group. -/
def createGroup (userId : Nat) (name : Option String) (description : Option String) :
    GroupResponse × Option StudyGroup :=
  match name with
  | none => (GroupResponse.error 400 "Group name is required", none)
  | some name =>
    if name = "" ∨ jsTrim name = "" then
      (GroupResponse.error 400 "Group name is required", none)
    else
      let group : StudyGroup :=
        { name := jsTrim name
          description := (description.map jsTrim).getD ""
          createdBy := userId
          members := [userId]
          invitations := [] }
      (GroupResponse.group 201 group, some group)

/-- The handler of `POST /:id/invite`: the group is found only when the caller
is a member. -/
def inviteToGroup (toLowerCase : String → String) (findUser : String → Option Nat)
    (stored : Option StudyGroup) (userId : Nat) (email : Option String) :
    GroupResponse × Option StudyGroup :=
  match stored with
  | none => (GroupResponse.error 404 "Group not found", stored)
  | some group =>
    if userId ∉ group.members then (GroupResponse.error 404 "Group not found", stored)
    else
      match email with
      | none => (GroupResponse.error 400 "Email is required", stored)
      | some email =>
        if email = "" ∨ jsTrim email = "" then
          (GroupResponse.error 400 "Email is required", stored)
        else
          let inviteEmail := jsTrim (toLowerCase email)
          match findUser inviteEmail with
          | none => (GroupResponse.error 404 "No user found with this email", stored)
          | some user =>
            if group.members.any (fun m => m = user) then
              (GroupResponse.error 400 "User is already a member", stored)
            else
              let group : StudyGroup :=
                { group with
                  members := group.members ++ [user]
                  invitations := group.invitations ++
                    [{ email := inviteEmail, invitedBy := userId }] }
              (GroupResponse.group 200 group, some group)

/-- The handler of `POST /:id/leave`: the group is found by its id alone. -/
def leaveGroup (stored : Option StudyGroup) (userId : Nat) :
    GroupResponse × Option StudyGroup :=
  match stored with
  | none => (GroupResponse.error 404 "Group not found", none)
  | some group =>
    match group.members.filter (fun m => m ≠ userId) with
    | [] => (GroupResponse.message "Group deleted (no members left)", none)
    | first :: rest =>
      let createdBy := if group.createdBy = userId then first else group.createdBy
      (GroupResponse.message "Left group successfully",
        some { group with members := first :: rest, createdBy := createdBy })

/-- A request on an existing group. -/
inductive GroupRequest where
  | invite (userId : Nat) (email : Option String)
  | leave (userId : Nat)
deriving DecidableEq

/-- The stored document after one request. -/
def handleGroupRequest (toLowerCase : String → String) (findUser : String → Option Nat)
    (stored : Option StudyGroup) (request : GroupRequest) : Option StudyGroup :=
  match request with
  | GroupRequest.invite userId email =>
    (inviteToGroup toLowerCase findUser stored userId email).2
  | GroupRequest.leave userId => (leaveGroup stored userId).2

/-- The stored document after a sequence of requests, served one after the
other. -/
def runGroupRequests (toLowerCase : String → String) (findUser : String → Option Nat)
    (stored : Option StudyGroup) (requests : List GroupRequest) : Option StudyGroup :=
  requests.foldl (handleGroupRequest toLowerCase findUser) stored

/-- The membership invariant of a stored group: a member list that is not
empty, holds no user twice and holds the creator. -/
def GroupInvariant (group : StudyGroup) : Prop :=
  group.members ≠ [] ∧ group.members.Nodup ∧ group.createdBy ∈ group.members

/-! ## Concrete inputs -/

/-- The instant `hour:minute` UTC on the day with number `day`. -/
def utcInstant (day hour minute : Int) : Int := day * dayMs + hour * hourMs + minute * 60000

/-- Day number of 2024-05-10. -/
def may10 : Int := 19853

/-- Noon of 2024-05-10, the current instant of the examples. -/
def mayNow : Int := utcInstant may10 12 0

/-- One log of user 1 with a single reading. -/
def sampleLog (subject emotion : String) (score : ℚ) (study_time : Int) : StudyLog :=
  { user_id := 1
    subject := subject
    emotions := [{ emotion := emotion, score := score }]
    study_time := study_time }

/-- Logs on 2024-05-10, 05-09, 05-08 and 05-06: a gap at 05-07. -/
def mayLogs : List StudyLog :=
  [sampleLog "Math" "Focused" 7 (utcInstant may10 9 0),
   sampleLog "Math" "Tired" 4 (utcInstant (may10 - 1) 20 0),
   sampleLog "Physics" "Happy" 6 (utcInstant (may10 - 2) 7 30),
   sampleLog "Math" "Calm" 5 (utcInstant (may10 - 4) 22 0)]

/-- A log of today and a log dated tomorrow. -/
def futureLogs : List StudyLog :=
  [sampleLog "Math" "Focused" 7 (utcInstant may10 10 0),
   sampleLog "Math" "Focused" 8 (utcInstant (may10 + 1) 10 0)]

/-- Logs on the three days before 2024-05-10 and none on that day. -/
def noTodayLogs : List StudyLog :=
  [sampleLog "Math" "Focused" 7 (utcInstant (may10 - 1) 9 0),
   sampleLog "Math" "Tired" 4 (utcInstant (may10 - 2) 20 0),
   sampleLog "Physics" "Happy" 6 (utcInstant (may10 - 3) 7 30)]

/-- Four logs of user 1 with one `Calm` reading each, scores 1, 1, 1 and 2: the
average 1.25 lies exactly between 1.2 and 1.3. -/
def quarterLogs : List StudyLog :=
  [sampleLog "Math" "Calm" 1 (utcInstant may10 9 0),
   sampleLog "Math" "Calm" 1 (utcInstant may10 9 10),
   sampleLog "Math" "Calm" 1 (utcInstant may10 9 20),
   sampleLog "Math" "Calm" 2 (utcInstant may10 9 30)]

/-- A single log of user 1 dated tomorrow, 2024-05-11 10:00. -/
def tomorrowLogs : List StudyLog :=
  [sampleLog "Math" "Focused" 8 (utcInstant (may10 + 1) 10 0)]

/-- US Eastern time around its change of offset on 2024-03-10: five hours behind
UTC until 07:00 UTC of that day (02:00 local), four hours behind from then on;
local readings before 03:00 of that day are taken with the earlier offset. -/
def easternZone : TimeZone :=
  { offsetAtInstant := fun t => if t < utcInstant (may10 - 61) 7 0 then -5 * hourMs
      else -4 * hourMs
    offsetAtLocal := fun w => if w < utcInstant (may10 - 61) 3 0 then -5 * hourMs
      else -4 * hourMs }

/-- Noon UTC of 2024-03-13, three days after the change of offset. -/
def marchNow : Int := utcInstant (may10 - 58) 12 0

/-- A single log of user 1 at 12:30 UTC of 2024-03-06. -/
def marchEarlyLogs : List StudyLog :=
  [sampleLog "Math" "Focused" 8 (utcInstant (may10 - 65) 12 30)]

/-- Logs of user 1 at 12:30 and 13:30 UTC of 2024-03-06 and at 09:00 UTC of
2024-03-12. -/
def marchLogs : List StudyLog :=
  [sampleLog "Math" "Focused" 8 (utcInstant (may10 - 65) 12 30),
   sampleLog "Math" "Focused" 6 (utcInstant (may10 - 65) 13 30),
   sampleLog "Physics" "Calm" 7 (utcInstant (may10 - 59) 9 0)]

/-- A single log of user 1 at noon of the first day of the year 10000. -/
def farFutureLogs : List StudyLog :=
  [sampleLog "Math" "Focused" 8 (utcInstant 2932897 12 0)]

/-- Logs of user 1 from 30 days before noon of 2024-05-10, and a log of user 2. -/
def oldLogs : List StudyLog :=
  [sampleLog "Math" "Focused" 7 (mayNow - 30 * dayMs),
   sampleLog "Physics" "Tired" 4 (mayNow - 30 * dayMs),
   { user_id := 2
     subject := "Art"
     emotions := [{ emotion := "Happy", score := 9 }]
     study_time := mayNow }]

/-- A log of user 1 at 10:00 of 2024-05-10 with the given readings. -/
def morningLog (subject : String) (emotions : List EmotionReading) : StudyLog :=
  { user_id := 1
    subject := subject
    emotions := emotions
    study_time := utcInstant may10 10 0 }

/-- Three logs for the subject `constructor`, each with one `Stressed` reading. -/
def constructorLogs : List StudyLog :=
  List.replicate 3 (morningLog "constructor" [{ emotion := "Stressed", score := 3 }])

/-- Three logs for the subject `Math`, each with one `Stressed` reading. -/
def mathStressLogs : List StudyLog :=
  List.replicate 3 (morningLog "Math" [{ emotion := "Stressed", score := 3 }])

/-- Ten logs for `Physics`: seven with a `Stressed` and a `Tired` reading, three
with a `Happy` reading only. -/
def physicsMixedLogs : List StudyLog :=
  List.replicate 7 (morningLog "Physics"
      [{ emotion := "Stressed", score := 3 }, { emotion := "Tired", score := 4 }]) ++
    List.replicate 3 (morningLog "Physics" [{ emotion := "Happy", score := 5 }])

/-- Ten logs for `Physics` with one reading each: seven `Stressed`, three
`Happy`. -/
def physicsSingleLogs : List StudyLog :=
  List.replicate 7 (morningLog "Physics" [{ emotion := "Stressed", score := 3 }]) ++
    List.replicate 3 (morningLog "Physics" [{ emotion := "Happy", score := 5 }])

/-- A report with the given summaries and session count, the fields the
generator does not read left empty. -/
def sampleReport (totalSessions : Nat) (subjectEmotions : List SubjectEmotionStat)
    (timeAnalysis : List TimeSlotEmotionStat) : AnalyticsReport :=
  { totalSessions := totalSessions
    subjectEmotions := subjectEmotions
    weeklyTrend := []
    timeAnalysis := timeAnalysis
    streak := 0 }

/-- A report whose `Focused` readings lie mostly in the morning. -/
def morningReport : AnalyticsReport :=
  sampleReport 4 [⟨"Math", "Focused", 6, 4, 24⟩]
    [⟨3, "Focused", 9, 1⟩, ⟨8, "Focused", 6, 2⟩, ⟨20, "Focused", 5, 1⟩]

/-- Two logs around midnight, one of them with a `Tired` reading above 5, and a
log at noon. -/
def nightLogs : List StudyLog :=
  [sampleLog "Math" "Tired" 7 (utcInstant may10 23 30),
   sampleLog "Math" "Tired" 8 (utcInstant may10 1 15),
   sampleLog "Math" "Calm" 5 (utcInstant may10 0 30),
   sampleLog "Math" "Tired" 9 (utcInstant may10 12 0)]

/-- A report with positive-average 6.5 and negative-average 5.5. -/
def balancedReport : AnalyticsReport :=
  sampleReport 2 [⟨"Math", "Happy", 13 / 2, 2, 13⟩, ⟨"Math", "Stressed", 11 / 2, 2, 11⟩] []

/-- A report with two `Bored` rows above 5 and one at 5. -/
def boredReport : AnalyticsReport :=
  sampleReport 3
    [⟨"Art", "Bored", 6, 1, 6⟩, ⟨"Math", "Bored", 5, 1, 5⟩, ⟨"Physics", "Bored", 7, 1, 7⟩] []

/-- Five logs of user 1 on 2024-05-10 that make every rule fire: three stressed
`Math` sessions in the morning, a good `Art` session in the morning and a tired,
bored `Art` session at 23:30. -/
def busyLogs : List StudyLog :=
  [{ user_id := 1, subject := "Math", study_time := utcInstant may10 7 0
     emotions := [{ emotion := "Stressed", score := 8 }] },
   { user_id := 1, subject := "Math", study_time := utcInstant may10 8 0
     emotions := [{ emotion := "Stressed", score := 8 }] },
   { user_id := 1, subject := "Math", study_time := utcInstant may10 9 0
     emotions := [{ emotion := "Stressed", score := 8 }] },
   { user_id := 1, subject := "Art", study_time := utcInstant may10 7 30
     emotions := [{ emotion := "Focused", score := 9 }, { emotion := "Happy", score := 9 },
       { emotion := "Calm", score := 9 }, { emotion := "Confident", score := 9 },
       { emotion := "Excited", score := 9 }] },
   { user_id := 1, subject := "Art", study_time := utcInstant may10 23 30
     emotions := [{ emotion := "Tired", score := 8 }, { emotion := "Bored", score := 7 },
       { emotion := "Happy", score := 9 }, { emotion := "Calm", score := 9 }] }]

/-- The two logs of the end-to-end scenario on 2024-05-10: `Math` with
`Stressed` 8 at 23:30 and `Math` with `Tired` 7 at 23:45. -/
def scenarioLogs : List StudyLog :=
  [{ user_id := 1, subject := "Math", study_time := utcInstant may10 23 30
     emotions := [{ emotion := "Stressed", score := 8 }] },
   { user_id := 1, subject := "Math", study_time := utcInstant may10 23 45
     emotions := [{ emotion := "Tired", score := 7 }] }]

/-- One log with two positive readings of score 9. -/
def doublePositiveLogs : List StudyLog :=
  [morningLog "Math" [{ emotion := "Happy", score := 9 }, { emotion := "Calm", score := 9 }]]

/-- One log with three negative readings of score 9. -/
def tripleNegativeLogs : List StudyLog :=
  [morningLog "Math" [{ emotion := "Stressed", score := 9 }, { emotion := "Anxious", score := 9 },
    { emotion := "Frustrated", score := 9 }]]

/-- A log of user 1 at 23:20 of 2024-05-10 with no reading. -/
def emptyEmotionsLog : StudyLog :=
  { user_id := 1, subject := "Math", study_time := utcInstant may10 23 20, emotions := [] }

/-- Conversions for the examples, which send strings and numbers where the
schema expects them: a whole number is written in decimal, also by the cast to
`String`, and is the date with that epoch value; an element of `emotions` that
has no other property than `emotion` and `score` is cast to a subdocument.  The
examples use no other conversion, and this sample answers those with a
failure. -/
def sampleConversions : Conversions :=
  { toText := fun v => match v with
      | JsonValue.number q => if q.den = 1 then some (toString q.num) else none
      | _ => none
    newDate := fun v => match v with
      | JsonValue.number q => if q.den = 1 then some q.num else none
      | _ => none
    castString := fun v => match v with
      | JsonValue.number q => if q.den = 1 then some (toString q.num) else none
      | _ => none
    castNumber := fun _ => none
    castReading := fun v => match v with
      | JsonValue.object properties => properties.all (fun p => p.1 = "emotion" ∨ p.1 = "score")
      | _ => false }

/-- The reading `{ emotion, score }` of a request. -/
def readingJson (emotion : String) (score : ℚ) : JsonValue :=
  JsonValue.object [("emotion", JsonValue.string emotion), ("score", JsonValue.number score)]

/-- A request with a score of 7.5. -/
def fractionalRequest : LogRequest :=
  { subject := JsonValue.string "Math"
    emotions := JsonValue.array [readingJson "Happy" (15 / 2)]
    study_time := JsonValue.number (utcInstant may10 10 0)
    duration := JsonValue.undefined
    notes := JsonValue.undefined
    tags := JsonValue.undefined }

/-- A request whose subject is the number 123. -/
def numericSubjectRequest : LogRequest :=
  { subject := JsonValue.number 123
    emotions := JsonValue.array [readingJson "Happy" 7]
    study_time := JsonValue.number (utcInstant may10 10 0)
    duration := JsonValue.undefined
    notes := JsonValue.undefined
    tags := JsonValue.undefined }

/-- A request whose only element of `emotions` is `null`. -/
def nullReadingRequest : LogRequest :=
  { subject := JsonValue.string "Math"
    emotions := JsonValue.array [JsonValue.null]
    study_time := JsonValue.undefined
    duration := JsonValue.undefined
    notes := JsonValue.undefined
    tags := JsonValue.undefined }

/-- A request whose second reading has a score of 11. -/
def outOfRangeRequest : LogRequest :=
  { subject := JsonValue.string "Math"
    emotions := JsonValue.array [readingJson "Happy" 3, readingJson "Calm" 11]
    study_time := JsonValue.undefined
    duration := JsonValue.undefined
    notes := JsonValue.undefined
    tags := JsonValue.undefined }

/-- The method `toLowerCase` on texts whose letters are ASCII. -/
def asciiLowerCase (s : String) : String :=
  String.mk (s.data.map Char.toLower)

/-- The accounts of the group examples, by email. -/
def sampleAccounts (email : String) : Option Nat :=
  if email = "ben@example.org" then some 2
  else if email = "cy@example.org" then some 3
  else none

/-- Requests on a group created by user 1: two invitations, then the creator
leaves. -/
def sampleGroupRequests : List GroupRequest :=
  [GroupRequest.invite 1 (some " Ben@Example.org "),
   GroupRequest.invite 2 (some "cy@example.org"),
   GroupRequest.invite 2 (some "ben@example.org"),
   GroupRequest.leave 1]

/-! ## Lemmas on the aggregation stages -/

section GroupLemmas

variable {K D : Type} [DecidableEq K]

theorem groupInsert_keys (k : K) (d : D) (acc : List (K × List D)) :
    (groupInsert k d acc).map Prod.fst =
      if k ∈ acc.map Prod.fst then acc.map Prod.fst else acc.map Prod.fst ++ [k] := by
  induction acc with
  | nil => simp [groupInsert]
  | cons a as ih =>
    by_cases h : a.1 = k
    · simp [groupInsert, h]
    · have h' : ¬ k = a.1 := fun e => h e.symm
      by_cases hk : k ∈ as.map Prod.fst
      · simp only [groupInsert, h, if_false, List.map_cons, ih, hk, if_true, List.mem_cons, or_true]
      · simp only [groupInsert, h, if_false, List.map_cons, ih, hk, List.mem_cons, h', or_self,
          List.cons_append]

theorem groupInsert_length_sum (k : K) (d : D) (acc : List (K × List D)) :
    ((groupInsert k d acc).map (fun g => g.2.length)).sum =
      (acc.map (fun g => g.2.length)).sum + 1 := by
  induction acc with
  | nil => simp [groupInsert]
  | cons a as ih =>
    by_cases h : a.1 = k
    · simp [groupInsert, h]; omega
    · simp [groupInsert, h, ih]; omega

theorem groupInsert_mem (k : K) (d : D) (acc : List (K × List D))
    (hnd : (acc.map Prod.fst).Nodup) (g : K × List D) (hg : g ∈ groupInsert k d acc) :
    (g ∈ acc ∧ g.1 ≠ k) ∨ (g.1 = k ∧ k ∉ acc.map Prod.fst ∧ g.2 = [d]) ∨
      (g.1 = k ∧ ∃ ds, (k, ds) ∈ acc ∧ g.2 = ds ++ [d]) := by
  induction acc with
  | nil =>
    simp [groupInsert] at hg
    subst hg
    simp
  | cons a as ih =>
    rw [List.map_cons, List.nodup_cons] at hnd
    by_cases h : a.1 = k
    · simp only [groupInsert, h, if_true, List.mem_cons] at hg
      rcases hg with hg | hg
      · right; right
        subst hg
        refine ⟨rfl, a.2, ?_, rfl⟩
        rw [← h]
        exact List.mem_cons_self _ _
      · left
        refine ⟨List.mem_cons_of_mem _ hg, ?_⟩
        intro e
        apply hnd.1
        rw [h, ← e]
        exact List.mem_map_of_mem _ hg
    · simp only [groupInsert, h, if_false, List.mem_cons] at hg
      rcases hg with hg | hg
      · left
        subst hg
        exact ⟨List.mem_cons_self _ _, h⟩
      · rcases ih hnd.2 hg with h1 | h1 | h1
        · left; exact ⟨List.mem_cons_of_mem _ h1.1, h1.2⟩
        · right; left
          refine ⟨h1.1, ?_, h1.2.2⟩
          simp only [List.map_cons, List.mem_cons, not_or]
          exact ⟨fun e => h e.symm, h1.2.1⟩
        · right; right
          obtain ⟨hk, ds, hds, e⟩ := h1
          exact ⟨hk, ds, List.mem_cons_of_mem _ hds, e⟩

theorem GroupInv.step {key : D → K} {acc : List (K × List D)} {seen : List D}
    (h : GroupInv key acc seen) (d : D) :
    GroupInv key (groupInsert (key d) d acc) (seen ++ [d]) := by
  refine ⟨?_, ?_, ?_, ?_⟩
  · rw [groupInsert_keys]
    split
    · exact h.nodup
    · rename_i hk
      exact List.Nodup.append h.nodup (List.nodup_singleton _) (by simpa using hk)
  · intro g hg
    rcases groupInsert_mem (key d) d acc h.nodup g hg with h1 | h1 | h1
    · obtain ⟨hmem, hne⟩ := h1
      have := h.docs g hmem
      refine ⟨?_, this.2⟩
      rw [List.filter_append, this.1]
      simp [fun e => hne (Eq.symm e)]
      exact fun e => hne e.symm
    · obtain ⟨hk, hnot, e⟩ := h1
      refine ⟨?_, by simp [e]⟩
      have hnone : seen.filter (fun x => key x = g.1) = [] := by
        rw [List.filter_eq_nil_iff]
        intro x hx
        simp only [decide_eq_true_eq]
        intro e2
        apply hnot
        rw [← hk, ← e2]
        exact h.keys x hx
      rw [List.filter_append, hnone, e]
      simp [hk]
    · obtain ⟨hk, ds, hds, e⟩ := h1
      have e1 : ds = seen.filter (fun x => key x = key d) := (h.docs _ hds).1
      refine ⟨?_, by simp [e]⟩
      rw [List.filter_append, e, hk, ← e1]
      simp
  · intro x hx
    rw [groupInsert_keys]
    rcases List.mem_append.1 hx with hx | hx
    · split
      · exact h.keys x hx
      · exact List.mem_append_left _ (h.keys x hx)
    · simp only [List.mem_singleton] at hx
      subst hx
      split
      · assumption
      · simp
  · rw [groupInsert_length_sum, h.total]
    simp

theorem GroupInv.foldl {key : D → K} (rest : List D) :
    ∀ (acc : List (K × List D)) (seen : List D), GroupInv key acc seen →
      GroupInv key (rest.foldl (fun acc d => groupInsert (key d) d acc) acc) (seen ++ rest) := by
  induction rest with
  | nil => intro acc seen h; simpa using h
  | cons d rest ih =>
    intro acc seen h
    have := ih _ _ (h.step d)
    simpa using this

theorem groupStage_inv (key : D → K) (docs : List D) :
    GroupInv key (groupStage key docs) docs := by
  have h0 : GroupInv key ([] : List (K × List D)) [] :=
    ⟨by simp, by simp, by simp, by simp⟩
  simpa [groupStage] using GroupInv.foldl docs [] [] h0

end GroupLemmas

section SortLemmas

variable {K₁ K₂ R : Type} [LinearOrder K₁] [LinearOrder K₂]

theorem lexLe_total (a b : K₁ × K₂) : lexLe a b ∨ lexLe b a := by
  unfold lexLe
  rcases lt_trichotomy a.1 b.1 with h | h | h
  · exact Or.inl (Or.inl h)
  · rcases le_total a.2 b.2 with h2 | h2
    · exact Or.inl (Or.inr ⟨h, h2⟩)
    · exact Or.inr (Or.inr ⟨h.symm, h2⟩)
  · exact Or.inr (Or.inl h)

theorem lexLe_trans {a b c : K₁ × K₂} (hab : lexLe a b) (hbc : lexLe b c) : lexLe a c := by
  unfold lexLe at *
  rcases hab with h | ⟨h, h2⟩
  · rcases hbc with h' | ⟨h', _⟩
    · exact Or.inl (lt_trans h h')
    · exact Or.inl (h' ▸ h)
  · rcases hbc with h' | ⟨h', h2'⟩
    · exact Or.inl (h ▸ h')
    · exact Or.inr ⟨h.trans h', le_trans h2 h2'⟩

theorem lexLt_of_lexLe_of_ne {a b : K₁ × K₂} (hab : lexLe a b) (hne : a ≠ b) : lexLt a b := by
  unfold lexLe at hab
  unfold lexLt
  rcases hab with h | ⟨h, h2⟩
  · exact Or.inl h
  · refine Or.inr ⟨h, lt_of_le_of_ne h2 ?_⟩
    intro e
    exact hne (Prod.ext h e)

theorem lexLt_irrefl (a : K₁ × K₂) : ¬ lexLt a a := by
  unfold lexLt
  rintro (h | ⟨_, h⟩) <;> exact lt_irrefl _ h

theorem sortByKey_perm (kf : R → K₁ × K₂) (l : List R) :
    (List.insertionSort (fun a b => lexLe (kf a) (kf b)) l).Perm l :=
  List.perm_insertionSort _ l

theorem sortByKey_pairwise (kf : R → K₁ × K₂) (l : List R) (hnd : (l.map kf).Nodup) :
    List.Pairwise (fun a b => lexLt (kf a) (kf b))
      (List.insertionSort (fun a b => lexLe (kf a) (kf b)) l) := by
  haveI : IsTotal R (fun a b => lexLe (kf a) (kf b)) := ⟨fun a b => lexLe_total _ _⟩
  haveI : IsTrans R (fun a b => lexLe (kf a) (kf b)) := ⟨fun _ _ _ h1 h2 => lexLe_trans h1 h2⟩
  have hs : List.Pairwise (fun a b => lexLe (kf a) (kf b))
      (List.insertionSort (fun a b => lexLe (kf a) (kf b)) l) :=
    List.sorted_insertionSort (fun a b => lexLe (kf a) (kf b)) l
  have hnd' : ((List.insertionSort (fun a b => lexLe (kf a) (kf b)) l).map kf).Nodup :=
    ((sortByKey_perm kf l).map kf).nodup_iff.2 hnd
  have hne : List.Pairwise (fun a b => kf a ≠ kf b)
      (List.insertionSort (fun a b => lexLe (kf a) (kf b)) l) :=
    (List.pairwise_map).1 hnd'
  exact (hs.and hne).imp (fun h => lexLt_of_lexLe_of_ne h.1 h.2)

end SortLemmas

section PipelineLemmas

theorem mem_unwindEmotions (docs : List StudyLog) (p : StudyLog × EmotionReading) :
    p ∈ unwindEmotions docs ↔ p.1 ∈ docs ∧ p.2 ∈ p.1.emotions := by
  unfold unwindEmotions
  simp only [List.mem_flatMap, List.mem_map]
  constructor
  · rintro ⟨l, hl, e, he, rfl⟩
    exact ⟨hl, he⟩
  · rintro ⟨h1, h2⟩
    exact ⟨p.1, h1, p.2, h2, rfl⟩

theorem length_unwindEmotions (docs : List StudyLog) :
    (unwindEmotions docs).length = (docs.map (fun l => l.emotions.length)).sum := by
  unfold unwindEmotions
  induction docs with
  | nil => rfl
  | cons l ls ih => simp [List.flatMap_cons, ih]

theorem mem_matchUser (docs : List StudyLog) (userId : Nat) (l : StudyLog) :
    l ∈ matchUser docs userId ↔ l ∈ docs ∧ l.user_id = userId := by
  simp [matchUser]

/-- Rows of a sorted, projected group stage: membership. -/
theorem mem_sortedGroups {K₁ K₂ D R : Type} [LinearOrder K₁] [LinearOrder K₂]
    [DecidableEq (K₁ × K₂)]
    (key : D → K₁ × K₂) (mk : (K₁ × K₂) × List D → R) (kf : R → K₁ × K₂) (docs : List D)
    (r : R) :
    r ∈ List.insertionSort (fun a b => lexLe (kf a) (kf b)) ((groupStage key docs).map mk) ↔
      ∃ g ∈ groupStage key docs, mk g = r := by
  rw [(sortByKey_perm kf _).mem_iff, List.mem_map]

/-- Rows of a sorted, projected group stage: strictly ascending keys. -/
theorem pairwise_sortedGroups {K₁ K₂ D R : Type} [LinearOrder K₁] [LinearOrder K₂]
    [DecidableEq (K₁ × K₂)]
    (key : D → K₁ × K₂) (mk : (K₁ × K₂) × List D → R) (kf : R → K₁ × K₂)
    (hk : ∀ g, kf (mk g) = g.1) (docs : List D) :
    List.Pairwise (fun a b => lexLt (kf a) (kf b))
      (List.insertionSort (fun a b => lexLe (kf a) (kf b)) ((groupStage key docs).map mk)) := by
  apply sortByKey_pairwise
  have : ((groupStage key docs).map mk).map kf = (groupStage key docs).map Prod.fst := by
    rw [List.map_map]
    apply List.map_congr_left
    intro g _
    exact hk g
  rw [this]
  exact (groupStage_inv key docs).nodup

/-- Rows of a sorted, projected group stage: the counts add up to the number of
documents grouped. -/
theorem sum_count_sortedGroups {K₁ K₂ D R : Type} [LinearOrder K₁] [LinearOrder K₂]
    [DecidableEq (K₁ × K₂)]
    (key : D → K₁ × K₂) (mk : (K₁ × K₂) × List D → R) (kf : R → K₁ × K₂)
    (cnt : R → Nat) (hc : ∀ g, cnt (mk g) = g.2.length) (docs : List D) :
    ((List.insertionSort (fun a b => lexLe (kf a) (kf b))
        ((groupStage key docs).map mk)).map cnt).sum = docs.length := by
  rw [((sortByKey_perm kf _).map cnt).sum_eq, ← (groupStage_inv key docs).total, List.map_map]
  congr 1
  apply List.map_congr_left
  intro g _
  exact hc g

/-- Every grouped document has a row with its key. -/
theorem exists_row_sortedGroups {K₁ K₂ D R : Type} [LinearOrder K₁] [LinearOrder K₂]
    [DecidableEq (K₁ × K₂)]
    (key : D → K₁ × K₂) (mk : (K₁ × K₂) × List D → R) (kf : R → K₁ × K₂)
    (hk : ∀ g, kf (mk g) = g.1) (docs : List D) (d : D) (hd : d ∈ docs) :
    ∃ r ∈ List.insertionSort (fun a b => lexLe (kf a) (kf b)) ((groupStage key docs).map mk),
      kf r = key d := by
  obtain ⟨g, hg, e⟩ := List.mem_map.1 ((groupStage_inv key docs).keys d hd)
  exact ⟨mk g, (mem_sortedGroups key mk kf docs _).2 ⟨g, hg, rfl⟩, by rw [hk, e]⟩

/-- Every row is the projection of the group of all documents with its key. -/
theorem row_sortedGroups {K₁ K₂ D R : Type} [LinearOrder K₁] [LinearOrder K₂]
    [DecidableEq (K₁ × K₂)]
    (key : D → K₁ × K₂) (mk : (K₁ × K₂) × List D → R) (kf : R → K₁ × K₂)
    (hk : ∀ g, kf (mk g) = g.1) (docs : List D) (r : R)
    (hr : r ∈ List.insertionSort (fun a b => lexLe (kf a) (kf b))
      ((groupStage key docs).map mk)) :
    r = mk (kf r, docs.filter (fun d => key d = kf r)) ∧
      docs.filter (fun d => key d = kf r) ≠ [] := by
  obtain ⟨g, hg, rfl⟩ := (mem_sortedGroups key mk kf docs r).1 hr
  obtain ⟨e, hne⟩ := (groupStage_inv key docs).docs g hg
  rw [hk, ← e]
  exact ⟨rfl, hne⟩

end PipelineLemmas

section PerKeyLemmas

theorem unwindEmotions_filter (p : StudyLog → Bool) (docs : List StudyLog) :
    unwindEmotions (docs.filter p) = (unwindEmotions docs).filter (fun d => p d.1) := by
  unfold unwindEmotions
  induction docs with
  | nil => rfl
  | cons l ls ih =>
    by_cases h : p l = true
    · rw [List.filter_cons_of_pos h, List.flatMap_cons, List.flatMap_cons, List.filter_append, ih]
      congr 1
      rw [List.filter_eq_self.2]
      intro d hd
      obtain ⟨e, _, rfl⟩ := List.mem_map.1 hd
      exact h
    · rw [List.filter_cons_of_neg h, List.flatMap_cons, List.filter_append, ih]
      have hnil : (l.emotions.map (fun e => (l, e))).filter (fun d => p d.1) = [] := by
        rw [List.filter_eq_nil_iff]
        intro d hd
        obtain ⟨e, _, rfl⟩ := List.mem_map.1 hd
        exact h
      rw [hnil, List.nil_append]

/-- Groups with key `k`: there is one if some document has that key, else none. -/
theorem length_filter_groupStage {K D : Type} [DecidableEq K] (key : D → K) (docs : List D)
    (k : K) :
    ((groupStage key docs).filter (fun g => g.1 = k)).length =
      if ∃ d ∈ docs, key d = k then 1 else 0 := by
  have inv := groupStage_inv key docs
  have hc : ((groupStage key docs).filter (fun g => g.1 = k)).length =
      ((groupStage key docs).map Prod.fst).count k := by
    rw [List.count_eq_countP, List.countP_map, List.countP_eq_length_filter]
    congr 1
  rw [hc]
  split
  · rename_i h
    obtain ⟨d, hd, e⟩ := h
    exact List.count_eq_one_of_mem inv.nodup (e ▸ inv.keys d hd)
  · rename_i h
    apply List.count_eq_zero_of_not_mem
    intro hk
    obtain ⟨g, hg, e⟩ := List.mem_map.1 hk
    obtain ⟨e2, hne⟩ := inv.docs g hg
    apply h
    obtain ⟨d, hd⟩ := List.exists_mem_of_ne_nil _ hne
    rw [e2, List.mem_filter] at hd
    exact ⟨d, hd.1, by simpa [e] using hd.2⟩

/-- Rows with key `k` after projection and sort: one or none. -/
theorem length_filter_sortedGroups {K₁ K₂ D R : Type} [LinearOrder K₁] [LinearOrder K₂]
    [DecidableEq (K₁ × K₂)]
    (key : D → K₁ × K₂) (mk : (K₁ × K₂) × List D → R) (kf : R → K₁ × K₂)
    (hk : ∀ g, kf (mk g) = g.1) (docs : List D) (k : K₁ × K₂) :
    ((List.insertionSort (fun a b => lexLe (kf a) (kf b))
        ((groupStage key docs).map mk)).filter (fun r => kf r = k)).length =
      if ∃ d ∈ docs, key d = k then 1 else 0 := by
  rw [((sortByKey_perm kf _).filter _).length_eq, List.filter_map, List.length_map,
    ← length_filter_groupStage key docs k]
  congr 1
  apply List.filter_congr
  intro g _
  simp [Function.comp, hk]

/-- The count carried by the rows with key `k` is the number of documents with
that key. -/
theorem sum_count_filter_sortedGroups {K₁ K₂ D R : Type} [LinearOrder K₁] [LinearOrder K₂]
    [DecidableEq (K₁ × K₂)]
    (key : D → K₁ × K₂) (mk : (K₁ × K₂) × List D → R) (kf : R → K₁ × K₂)
    (cnt : R → Nat) (hk : ∀ g, kf (mk g) = g.1) (hc : ∀ g, cnt (mk g) = g.2.length)
    (docs : List D) (k : K₁ × K₂) :
    (((List.insertionSort (fun a b => lexLe (kf a) (kf b))
        ((groupStage key docs).map mk)).filter (fun r => kf r = k)).map cnt).sum =
      (docs.filter (fun d => key d = k)).length := by
  have hall : ∀ x ∈ ((List.insertionSort (fun a b => lexLe (kf a) (kf b))
        ((groupStage key docs).map mk)).filter (fun r => kf r = k)).map cnt,
      x = (docs.filter (fun d => key d = k)).length := by
    intro x hx
    obtain ⟨r, hr, rfl⟩ := List.mem_map.1 hx
    rw [List.mem_filter] at hr
    have hkr : kf r = k := by simpa using hr.2
    have := (row_sortedGroups key mk kf hk docs r hr.1).1
    rw [this, hc, hkr]
  rw [List.sum_eq_card_nsmul _ _ hall, List.length_map,
    length_filter_sortedGroups key mk kf hk docs k]
  split
  · simp
  · rename_i h
    simp only [zero_smul]
    symm
    rw [List.length_eq_zero, List.filter_eq_nil_iff]
    intro d hd hkd
    exact h ⟨d, hd, by simpa using hkd⟩

end PerKeyLemmas

section RoundLemmas

theorem round1_nearest (x : ℚ) : IsNearestTenthTiesEven x (round1 x) := by
  unfold IsNearestTenthTiesEven round1 roundHalfEven
  have h1 : (⌊x * 10⌋ : ℚ) ≤ x * 10 := Int.floor_le _
  have h2 : x * 10 < (⌊x * 10⌋ : ℚ) + 1 := Int.lt_floor_add_one _
  simp only
  split_ifs with ha hb hc
  · refine ⟨⌊x * 10⌋, rfl, ?_, ?_⟩
    · rw [abs_le]; constructor <;> linarith
    · intro h
      exfalso
      have : |x - (⌊x * 10⌋ : ℚ) / 10| < 1 / 20 := by
        rw [abs_lt]; constructor <;> linarith
      linarith
  · refine ⟨⌊x * 10⌋ + 1, by push_cast; rfl, ?_, ?_⟩
    · push_cast
      rw [abs_le]; constructor <;> linarith
    · intro h
      exfalso
      have : |x - ((⌊x * 10⌋ + 1 : ℤ) : ℚ) / 10| < 1 / 20 := by
        push_cast
        rw [abs_lt]; constructor <;> linarith
      linarith
  · refine ⟨⌊x * 10⌋, rfl, ?_, ?_⟩
    · rw [abs_le]; constructor <;> linarith
    · intro _
      exact Int.even_iff.2 hc
  · refine ⟨⌊x * 10⌋ + 1, by push_cast; rfl, ?_, ?_⟩
    · push_cast
      rw [abs_le]; constructor <;> linarith
    · intro _
      rw [Int.even_add_one, Int.even_iff]
      exact hc

end RoundLemmas

section StreakLemmas

theorem utcDate_sub_days (now : Int) (i : Nat) :
    utcDate (now - (i : Int) * dayMs) = utcDate now - (i : Int) := by
  unfold utcDate dayMs
  norm_num
  omega

theorem streakLoop_run (now : Int) :
    ∀ (dates : List Int) (i acc : Nat),
      List.Pairwise (fun a b => b < a) dates →
      (∀ d ∈ dates, d ≤ utcDate now - (i : Int)) →
      ∃ k : Nat, streakLoop now dates i acc = acc + k ∧
        (∀ j : Nat, j < k → utcDate now - ((i + j : Nat) : Int) ∈ dates) ∧
        utcDate now - ((i + k : Nat) : Int) ∉ dates := by
  intro dates
  induction dates with
  | nil =>
    intro i acc _ _
    exact ⟨0, by simp [streakLoop], by simp, by simp⟩
  | cons d rest ih =>
    intro i acc hp hle
    rw [List.pairwise_cons] at hp
    by_cases hd : d = utcDate now - (i : Int)
    · have hle' : ∀ x ∈ rest, x ≤ utcDate now - ((i + 1 : Nat) : Int) := by
        intro x hx
        have := hp.1 x hx
        push_cast
        omega
      obtain ⟨k, hk, hall, hnot⟩ := ih (i + 1) (acc + 1) hp.2 hle'
      refine ⟨k + 1, ?_, ?_, ?_⟩
      · simp only [streakLoop, utcDate_sub_days, hd, if_true]
        rw [hk]; omega
      · intro j hj
        cases j with
        | zero => simp [hd]
        | succ j =>
          have := hall j (by omega)
          apply List.mem_cons_of_mem
          have e : i + 1 + j = i + (j + 1) := by omega
          rw [← e]; exact this
      · intro hmem
        rcases List.mem_cons.1 hmem with h | h
        · push_cast at h; omega
        · apply hnot
          have e : i + 1 + k = i + (k + 1) := by omega
          rw [e]; exact h
    · refine ⟨0, ?_, by simp, ?_⟩
      · simp only [streakLoop, utcDate_sub_days, hd, if_false]
        rfl
      · intro hmem
        simp only [Nat.add_zero] at hmem
        rcases List.mem_cons.1 hmem with h | h
        · exact hd h.symm
        · have h1 := hp.1 _ h
          have h2 := hle d (List.mem_cons_self _ _)
          omega

theorem mem_uniqueDates (docs : List StudyLog) (userId : Nat) (d : Int) :
    d ∈ uniqueDates docs userId ↔ ∃ l ∈ matchUser docs userId, utcDate l.study_time = d := by
  unfold uniqueDates
  rw [(List.perm_insertionSort _ _).mem_iff]
  have inv := groupStage_inv (fun l : StudyLog => utcDate l.study_time) (matchUser docs userId)
  constructor
  · intro h
    obtain ⟨g, hg, e⟩ := List.mem_map.1 h
    obtain ⟨e2, hne⟩ := inv.docs g hg
    obtain ⟨l, hl⟩ := List.exists_mem_of_ne_nil _ hne
    rw [e2, List.mem_filter] at hl
    exact ⟨l, hl.1, by simpa [e] using hl.2⟩
  · rintro ⟨l, hl, rfl⟩
    exact inv.keys l hl

theorem uniqueDates_descending (docs : List StudyLog) (userId : Nat) :
    List.Pairwise (fun a b => b < a) (uniqueDates docs userId) := by
  unfold uniqueDates
  haveI : IsTotal Int (fun a b => b ≤ a) := ⟨fun a b => le_total b a⟩
  haveI : IsTrans Int (fun a b => b ≤ a) := ⟨fun _ _ _ h1 h2 => le_trans h2 h1⟩
  have inv := groupStage_inv (fun l : StudyLog => utcDate l.study_time) (matchUser docs userId)
  have hs := List.sorted_insertionSort (fun a b : Int => b ≤ a)
    ((groupStage (fun l : StudyLog => utcDate l.study_time) (matchUser docs userId)).map
      (fun g => g.1))
  have hnd := (List.perm_insertionSort (fun a b : Int => b ≤ a)
    ((groupStage (fun l : StudyLog => utcDate l.study_time) (matchUser docs userId)).map
      (fun g => g.1))).nodup_iff.2 inv.nodup
  exact (List.Pairwise.and hs hnd).imp (fun h => lt_of_le_of_ne h.1 (Ne.symm h.2))

end StreakLemmas


/-! ## Streak (C1 to C3) -/

/-- C1, the code at a failing input. User 1 has one log on 2024-05-10 and one
dated 2024-05-11; the request is made at noon of 2024-05-10. Today holds a log,
so the count of consecutive logged days walking back from today is at least 1,
yet the route answers with streak 0: the first element of the descending date
list is tomorrow, which is not the expected date of index 0. -/
theorem streak_reset_by_future_log :
    getAnalytics { documents := futureLogs, reachable := true } 1 mayNow =
        Response.json 200
          { totalSessions := 2
            subjectEmotions := [⟨"Math", "Focused", 15 / 2, 2, 15⟩]
            weeklyTrend := [⟨may10, "Focused", 7, 1⟩, ⟨may10 + 1, "Focused", 8, 1⟩]
            timeAnalysis := [⟨10, "Focused", 15 / 2, 2⟩]
            streak := 0 } ∧
      (∃ l ∈ matchUser futureLogs 1, utcDate l.study_time = utcDate mayNow) ∧
      futureLogs.map (fun l => isoDate (utcDate l.study_time)) = ["2024-05-10", "2024-05-11"] ∧
      isoDate (utcDate mayNow) = "2024-05-10" := by
  decide!

/-- C2. If none of the user's logs has today's calendar date, the streak is 0,
however many consecutive earlier days have logs. -/
theorem streak_zero_without_log_today (docs : List StudyLog) (userId : Nat) (now : Int)
    (h : ∀ l ∈ matchUser docs userId, utcDate l.study_time ≠ utcDate now) :
    streak docs userId now = 0 := by
  unfold streak
  cases hd : uniqueDates docs userId with
  | nil => rfl
  | cons d rest =>
    have hmem : d ∈ uniqueDates docs userId := by rw [hd]; exact List.mem_cons_self _ _
    obtain ⟨l, hl, e⟩ := (mem_uniqueDates docs userId d).1 hmem
    have hne : d ≠ utcDate now := e ▸ h l hl
    simp [streakLoop, utcDate_sub_days, hne]

/-- C2 at a concrete input: logs on the three days before 2024-05-10, none on
that day, give streak 0. -/
theorem streak_zero_without_log_today_witness :
    (∀ l ∈ matchUser noTodayLogs 1, utcDate l.study_time ≠ utcDate mayNow) ∧
      streak noTodayLogs 1 mayNow = 0 :=
  ⟨by decide, streak_zero_without_log_today noTodayLogs 1 mayNow (by decide)⟩

/-- C3. When no log of the user is dated later than today, the streak loop
returns the length of the longest run today, today - 1, ... of log dates: each
of the first `streak` days back from today holds a log and the next one does
not. For logs dated 2024-05-10, 05-09, 05-08 and 05-06 and today 2024-05-10
the streak is 3. -/
theorem streak_longest_run :
    (∀ (docs : List StudyLog) (userId : Nat) (now : Int),
      (∀ l ∈ matchUser docs userId, utcDate l.study_time ≤ utcDate now) →
        (∀ j : Nat, j < streak docs userId now →
          ∃ l ∈ matchUser docs userId, utcDate l.study_time = utcDate now - (j : Int)) ∧
        ¬ ∃ l ∈ matchUser docs userId,
          utcDate l.study_time = utcDate now - (streak docs userId now : Int)) ∧
      (mayLogs.map (fun l => isoDate (utcDate l.study_time)) =
          ["2024-05-10", "2024-05-09", "2024-05-08", "2024-05-06"] ∧
        isoDate (utcDate mayNow) = "2024-05-10" ∧
        streak mayLogs 1 mayNow = 3) := by
  refine ⟨?_, by decide⟩
  intro docs userId now h
  have hle : ∀ d ∈ uniqueDates docs userId, d ≤ utcDate now - ((0 : Nat) : Int) := by
    intro d hd
    obtain ⟨l, hl, e⟩ := (mem_uniqueDates docs userId d).1 hd
    have := h l hl
    simp only [Nat.cast_zero, sub_zero]
    omega
  obtain ⟨k, hk, hall, hnot⟩ :=
    streakLoop_run now (uniqueDates docs userId) 0 0 (uniqueDates_descending docs userId) hle
  have hs : streak docs userId now = k := by
    unfold streak
    rw [hk, Nat.zero_add]
  rw [hs]
  constructor
  · intro j hj
    have := hall j hj
    rw [Nat.zero_add] at this
    exact (mem_uniqueDates docs userId _).1 this
  · intro hex
    apply hnot
    rw [Nat.zero_add]
    exact (mem_uniqueDates docs userId _).2 hex

/-- C3 at a concrete input: the four May logs, none later than today. -/
theorem streak_longest_run_witness :
    (∀ l ∈ matchUser mayLogs 1, utcDate l.study_time ≤ utcDate mayNow) ∧
      ((∀ j : Nat, j < streak mayLogs 1 mayNow →
          ∃ l ∈ matchUser mayLogs 1, utcDate l.study_time = utcDate mayNow - (j : Int)) ∧
        ¬ ∃ l ∈ matchUser mayLogs 1,
          utcDate l.study_time = utcDate mayNow - (streak mayLogs 1 mayNow : Int)) :=
  ⟨by decide, streak_longest_run.1 mayLogs 1 mayNow (by decide)⟩

/-! ## Count conservation (C4) -/

/-- C4. The counts of the `subjectEmotions` rows add up to the number of emotion
readings in the user's logs: every reading is counted exactly once. -/
theorem subjectEmotions_count_conservation (docs : List StudyLog) (userId : Nat) :
    ((subjectEmotionsAggregation docs userId).map (fun r => r.count)).sum =
      ((matchUser docs userId).map (fun l => l.emotions.length)).sum := by
  unfold subjectEmotionsAggregation
  rw [sum_count_sortedGroups _ SubjectEmotionStat.ofGroup SubjectEmotionStat.key
    (fun r => r.count) (fun _ => rfl),
    length_unwindEmotions]


section RowLemmas

theorem subjectEmotions_row (docs : List StudyLog) (userId : Nat) (r : SubjectEmotionStat)
    (hr : r ∈ subjectEmotionsAggregation docs userId) :
    subjectReadings docs userId r.subject r.emotion ≠ [] ∧
      r.count = (subjectReadings docs userId r.subject r.emotion).length ∧
      r.totalScore = sumScores (subjectReadings docs userId r.subject r.emotion) ∧
      r.avgScore = round1 (avgScores (subjectReadings docs userId r.subject r.emotion)) := by
  obtain ⟨e, hne⟩ := row_sortedGroups _ SubjectEmotionStat.ofGroup SubjectEmotionStat.key
    (fun _ => rfl) _ r hr
  have hf : (unwindEmotions (matchUser docs userId)).filter
      (fun d => (d.1.subject, d.2.emotion) = r.key) =
      subjectReadings docs userId r.subject r.emotion := by
    unfold subjectReadings
    apply List.filter_congr
    intro d _
    simp [SubjectEmotionStat.key]
  rw [hf] at e hne
  refine ⟨hne, ?_, ?_, ?_⟩
  · exact congrArg SubjectEmotionStat.count e
  · exact congrArg SubjectEmotionStat.totalScore e
  · exact congrArg SubjectEmotionStat.avgScore e

theorem weeklyTrend_row (docs : List StudyLog) (userId : Nat) (now : Int) (r : DailyTrendStat)
    (hr : r ∈ weeklyTrendAggregation docs userId now) :
    trendReadings docs userId (sevenDaysAgo now) r.date r.emotion ≠ [] ∧
      r.count = (trendReadings docs userId (sevenDaysAgo now) r.date r.emotion).length ∧
      r.avgScore =
        round1 (avgScores (trendReadings docs userId (sevenDaysAgo now) r.date r.emotion)) := by
  obtain ⟨e, hne⟩ := row_sortedGroups _ DailyTrendStat.ofGroup DailyTrendStat.key
    (fun _ => rfl) _ r hr
  have hf : (unwindEmotions ((matchUser docs userId).filter
        (fun l => sevenDaysAgo now ≤ l.study_time))).filter
      (fun d => (utcDate d.1.study_time, d.2.emotion) = r.key) =
      trendReadings docs userId (sevenDaysAgo now) r.date r.emotion := by
    unfold trendReadings
    rw [unwindEmotions_filter, List.filter_filter]
    apply List.filter_congr
    intro d _
    rw [Bool.eq_iff_iff]
    simp [DailyTrendStat.key]
    tauto
  rw [hf] at e hne
  refine ⟨hne, ?_, ?_⟩
  · exact congrArg DailyTrendStat.count e
  · exact congrArg DailyTrendStat.avgScore e

theorem timeAnalysis_row (docs : List StudyLog) (userId : Nat) (r : TimeSlotEmotionStat)
    (hr : r ∈ timeAnalysisAggregation docs userId) :
    hourReadings docs userId r.hour r.emotion ≠ [] ∧
      r.count = (hourReadings docs userId r.hour r.emotion).length ∧
      r.avgScore = round1 (avgScores (hourReadings docs userId r.hour r.emotion)) := by
  obtain ⟨e, hne⟩ := row_sortedGroups _ TimeSlotEmotionStat.ofGroup TimeSlotEmotionStat.key
    (fun _ => rfl) _ r hr
  have hf : (unwindEmotions (matchUser docs userId)).filter
      (fun d => (utcHour d.1.study_time, d.2.emotion) = r.key) =
      hourReadings docs userId r.hour r.emotion := by
    unfold hourReadings
    apply List.filter_congr
    intro d _
    simp [TimeSlotEmotionStat.key]
  rw [hf] at e hne
  refine ⟨hne, ?_, ?_⟩
  · exact congrArg TimeSlotEmotionStat.count e
  · exact congrArg TimeSlotEmotionStat.avgScore e

end RowLemmas


/-! ## Rounding of the averages (C5) -/

/-- C5, counterexample. Four `Calm` readings for `Math` with scores 1, 1, 1, 2
have total 5 and count 4; the quotient 1.25 is exactly at .05. Half-up rounding
gives 1.3, but every summary reports `avgScore` 1.2: `$round` sends a tie to the
even tenth. -/
theorem avgScore_tie_not_rounded_up :
    subjectEmotionsAggregation quarterLogs 1 = [⟨"Math", "Calm", 6 / 5, 4, 5⟩] ∧
      weeklyTrendAggregation quarterLogs 1 mayNow = [⟨may10, "Calm", 6 / 5, 4⟩] ∧
      timeAnalysisAggregation quarterLogs 1 = [⟨9, "Calm", 6 / 5, 4⟩] ∧
      roundHalfUp1 ((5 : ℚ) / ((4 : Nat) : ℚ)) = 13 / 10 := by
  decide!

/-- C5, amended. In each of the three summaries a row's `count` is the number
of readings in its group and its `avgScore` is the quotient of the group's
score total by that count, rounded to a multiple of one tenth nearest to it,
a tie going to the even tenth; in `subjectEmotions` the total is the row's
`totalScore`. -/
theorem avgScore_nearest_tenth_ties_even (docs : List StudyLog) (userId : Nat) (now : Int) :
    (∀ r ∈ subjectEmotionsAggregation docs userId,
        r.count = (subjectReadings docs userId r.subject r.emotion).length ∧
        r.totalScore = sumScores (subjectReadings docs userId r.subject r.emotion) ∧
        IsNearestTenthTiesEven (r.totalScore / (r.count : ℚ)) r.avgScore) ∧
      (∀ r ∈ weeklyTrendAggregation docs userId now,
        r.count = (trendReadings docs userId (now - 7 * dayMs) r.date r.emotion).length ∧
        IsNearestTenthTiesEven
          (sumScores (trendReadings docs userId (now - 7 * dayMs) r.date r.emotion) /
            (r.count : ℚ)) r.avgScore) ∧
      (∀ r ∈ timeAnalysisAggregation docs userId,
        r.count = (hourReadings docs userId r.hour r.emotion).length ∧
        IsNearestTenthTiesEven
          (sumScores (hourReadings docs userId r.hour r.emotion) / (r.count : ℚ))
          r.avgScore) := by
  refine ⟨?_, ?_, ?_⟩
  · intro r hr
    obtain ⟨_, hc, ht, ha⟩ := subjectEmotions_row docs userId r hr
    refine ⟨hc, ht, ?_⟩
    rw [ha, ht, hc]
    exact round1_nearest _
  · intro r hr
    obtain ⟨_, hc, ha⟩ := weeklyTrend_row docs userId now r hr
    refine ⟨hc, ?_⟩
    rw [ha, hc]
    exact round1_nearest _
  · intro r hr
    obtain ⟨_, hc, ha⟩ := timeAnalysis_row docs userId r hr
    refine ⟨hc, ?_⟩
    rw [ha, hc]
    exact round1_nearest _

/-! ## Ordering of the summaries (C6) -/

/-- C6. Each summary is strictly ascending in its key pair, so no key pair has
two rows; every row has `count` at least 1 and its key pair is that of some
reading of the user (for `weeklyTrend`, of a log the window keeps); and every
such reading's key pair has exactly one row. -/
theorem summaries_strictly_ascending (docs : List StudyLog) (userId : Nat) (now : Int) :
    (List.Pairwise
        (fun a b : SubjectEmotionStat =>
          a.subject < b.subject ∨ (a.subject = b.subject ∧ a.emotion < b.emotion))
        (subjectEmotionsAggregation docs userId) ∧
      (∀ r ∈ subjectEmotionsAggregation docs userId, 1 ≤ r.count ∧
        ∃ l ∈ matchUser docs userId, ∃ e ∈ l.emotions,
          l.subject = r.subject ∧ e.emotion = r.emotion) ∧
      (∀ l ∈ matchUser docs userId, ∀ e ∈ l.emotions,
        ((subjectEmotionsAggregation docs userId).filter
          (fun r => r.subject = l.subject ∧ r.emotion = e.emotion)).length = 1)) ∧
    (List.Pairwise
        (fun a b : DailyTrendStat =>
          a.date < b.date ∨ (a.date = b.date ∧ a.emotion < b.emotion))
        (weeklyTrendAggregation docs userId now) ∧
      (∀ r ∈ weeklyTrendAggregation docs userId now, 1 ≤ r.count ∧
        ∃ l ∈ matchUser docs userId, now - 7 * dayMs ≤ l.study_time ∧ ∃ e ∈ l.emotions,
          utcDate l.study_time = r.date ∧ e.emotion = r.emotion) ∧
      (∀ l ∈ matchUser docs userId, now - 7 * dayMs ≤ l.study_time → ∀ e ∈ l.emotions,
        ((weeklyTrendAggregation docs userId now).filter
          (fun r => r.date = utcDate l.study_time ∧ r.emotion = e.emotion)).length = 1)) ∧
    (List.Pairwise
        (fun a b : TimeSlotEmotionStat =>
          a.hour < b.hour ∨ (a.hour = b.hour ∧ a.emotion < b.emotion))
        (timeAnalysisAggregation docs userId) ∧
      (∀ r ∈ timeAnalysisAggregation docs userId, 1 ≤ r.count ∧
        ∃ l ∈ matchUser docs userId, ∃ e ∈ l.emotions,
          utcHour l.study_time = r.hour ∧ e.emotion = r.emotion) ∧
      (∀ l ∈ matchUser docs userId, ∀ e ∈ l.emotions,
        ((timeAnalysisAggregation docs userId).filter
          (fun r => r.hour = utcHour l.study_time ∧ r.emotion = e.emotion)).length = 1)) := by
  refine ⟨⟨?_, ?_, ?_⟩, ⟨?_, ?_, ?_⟩, ⟨?_, ?_, ?_⟩⟩
  · exact pairwise_sortedGroups _ SubjectEmotionStat.ofGroup SubjectEmotionStat.key
      (fun _ => rfl) _
  · intro r hr
    obtain ⟨hne, hc, _, _⟩ := subjectEmotions_row docs userId r hr
    refine ⟨?_, ?_⟩
    · rw [hc]
      exact List.length_pos.2 hne
    · obtain ⟨d, hd⟩ := List.exists_mem_of_ne_nil _ hne
      unfold subjectReadings at hd
      rw [List.mem_filter, mem_unwindEmotions] at hd
      have := hd.2
      simp only [decide_eq_true_eq] at this
      exact ⟨d.1, hd.1.1, d.2, hd.1.2, this⟩
  · intro l hl e he
    have hmem : (l, e) ∈ unwindEmotions (matchUser docs userId) :=
      (mem_unwindEmotions _ _).2 ⟨hl, he⟩
    have := length_filter_sortedGroups (fun d : StudyLog × EmotionReading =>
      (d.1.subject, d.2.emotion)) SubjectEmotionStat.ofGroup SubjectEmotionStat.key
      (fun _ => rfl) (unwindEmotions (matchUser docs userId)) (l.subject, e.emotion)
    rw [if_pos ⟨(l, e), hmem, rfl⟩] at this
    rw [← this]
    unfold subjectEmotionsAggregation
    congr 1
    apply List.filter_congr
    intro r _
    simp [SubjectEmotionStat.key]
  · exact pairwise_sortedGroups _ DailyTrendStat.ofGroup DailyTrendStat.key (fun _ => rfl) _
  · intro r hr
    obtain ⟨hne, hc, _⟩ := weeklyTrend_row docs userId now r hr
    refine ⟨?_, ?_⟩
    · rw [hc]
      exact List.length_pos.2 hne
    · obtain ⟨d, hd⟩ := List.exists_mem_of_ne_nil _ hne
      unfold trendReadings at hd
      rw [List.mem_filter, mem_unwindEmotions] at hd
      have := hd.2
      simp only [decide_eq_true_eq, sevenDaysAgo] at this
      exact ⟨d.1, hd.1.1, this.1, d.2, hd.1.2, this.2⟩
  · intro l hl hw e he
    have hmem : (l, e) ∈ unwindEmotions
        ((matchUser docs userId).filter (fun l => sevenDaysAgo now ≤ l.study_time)) := by
      rw [mem_unwindEmotions, List.mem_filter]
      exact ⟨⟨hl, by simpa [sevenDaysAgo] using hw⟩, he⟩
    have := length_filter_sortedGroups (fun d : StudyLog × EmotionReading =>
      (utcDate d.1.study_time, d.2.emotion)) DailyTrendStat.ofGroup DailyTrendStat.key
      (fun _ => rfl)
      (unwindEmotions
        ((matchUser docs userId).filter (fun l => sevenDaysAgo now ≤ l.study_time)))
      (utcDate l.study_time, e.emotion)
    rw [if_pos ⟨(l, e), hmem, rfl⟩] at this
    rw [← this]
    unfold weeklyTrendAggregation
    congr 1
    apply List.filter_congr
    intro r _
    simp [DailyTrendStat.key]
  · exact pairwise_sortedGroups _ TimeSlotEmotionStat.ofGroup TimeSlotEmotionStat.key
      (fun _ => rfl) _
  · intro r hr
    obtain ⟨hne, hc, _⟩ := timeAnalysis_row docs userId r hr
    refine ⟨?_, ?_⟩
    · rw [hc]
      exact List.length_pos.2 hne
    · obtain ⟨d, hd⟩ := List.exists_mem_of_ne_nil _ hne
      unfold hourReadings at hd
      rw [List.mem_filter, mem_unwindEmotions] at hd
      have := hd.2
      simp only [decide_eq_true_eq] at this
      exact ⟨d.1, hd.1.1, d.2, hd.1.2, this⟩
  · intro l hl e he
    have hmem : (l, e) ∈ unwindEmotions (matchUser docs userId) :=
      (mem_unwindEmotions _ _).2 ⟨hl, he⟩
    have := length_filter_sortedGroups (fun d : StudyLog × EmotionReading =>
      (utcHour d.1.study_time, d.2.emotion)) TimeSlotEmotionStat.ofGroup
      TimeSlotEmotionStat.key (fun _ => rfl) (unwindEmotions (matchUser docs userId))
      (utcHour l.study_time, e.emotion)
    rw [if_pos ⟨(l, e), hmem, rfl⟩] at this
    rw [← this]
    unfold timeAnalysisAggregation
    congr 1
    apply List.filter_congr
    intro r _
    simp [TimeSlotEmotionStat.key]


/-! ## The window of the weekly trend (C7, C8) -/

/-- The missing upper bound. At noon of 2024-05-10 a log dated 2024-05-11 10:00
lies outside the interval from seven days ago to now, yet it has a
`weeklyTrend` row: the `$match` stage tests `$gte` only. -/
theorem weeklyTrend_keeps_future_log :
    (∀ l ∈ tomorrowLogs,
        ¬ (mayNow - 7 * dayMs ≤ l.study_time ∧ l.study_time ≤ mayNow)) ∧
      weeklyTrendAggregation tomorrowLogs 1 mayNow = [⟨may10 + 1, "Focused", 8, 1⟩] := by
  decide!

theorem weeklyTrendAggregationIn_utc (docs : List StudyLog) (userId : Nat) (now : Int) :
    weeklyTrendAggregationIn utcZone docs userId now =
      weeklyTrendAggregation docs userId now := by
  have h : sevenDaysAgoIn utcZone now = sevenDaysAgo now := by
    simp [sevenDaysAgoIn, utcZone, sevenDaysAgo]
  unfold weeklyTrendAggregationIn weeklyTrendAggregation
  rw [h]

theorem sevenDaysAgoIn_constant_offset (zone : TimeZone) (offset : Int)
    (h1 : ∀ t, zone.offsetAtInstant t = offset) (h2 : ∀ w, zone.offsetAtLocal w = offset)
    (now : Int) : sevenDaysAgoIn zone now = sevenDaysAgo now := by
  simp only [sevenDaysAgoIn, sevenDaysAgo, h1, h2]
  ring

theorem trendGroup_since (docs : List StudyLog) (userId : Nat) (since : Int) (date : Int)
    (emotion : String) :
    (unwindEmotions ((matchUser docs userId).filter
        (fun l => since ≤ l.study_time))).filter
      (fun d => (utcDate d.1.study_time, d.2.emotion) = (date, emotion)) =
      trendReadings docs userId since date emotion := by
  unfold trendReadings
  rw [unwindEmotions_filter, List.filter_filter]
  apply List.filter_congr
  intro d _
  rw [Bool.eq_iff_iff]
  simp
  tauto

/-- C7, counterexample. On a server in US Eastern time at 12:00 UTC of
2024-03-13, three days after the clocks changed, a log at 12:30 UTC of
2024-03-06 lies in the interval from now minus 7 * 24 hours to now, yet
`weeklyTrend` is empty: `setDate(getDate() - 7)` keeps the local time of day,
08:00, so `sevenDaysAgo` is 13:00 UTC of 2024-03-06, an hour after the start of
that interval. -/
theorem weeklyTrend_bound_follows_local_calendar :
    (∀ l ∈ marchEarlyLogs,
        marchNow - 7 * dayMs ≤ l.study_time ∧ l.study_time ≤ marchNow) ∧
      sevenDaysAgoIn easternZone marchNow = utcInstant (may10 - 65) 13 0 ∧
      weeklyTrendAggregationIn easternZone marchEarlyLogs 1 marchNow = [] := by
  decide!

/-- C7, amended. When no log of the user is dated after now, `weeklyTrend` is
computed from exactly the user's logs whose `study_time` lies between
`sevenDaysAgo` and now, `sevenDaysAgo` being the instant seven calendar days
before now at the same local time of day of the server, lower bound inclusive:
for every date and emotion the rows with that key carry, in `count`, the number
of readings with that date and emotion in those logs, and the counts of all
rows add up to the number of readings in those logs. -/
theorem weeklyTrend_window (zone : TimeZone) (docs : List StudyLog) (userId : Nat)
    (now : Int) (hnow : ∀ l ∈ matchUser docs userId, l.study_time ≤ now) :
    (∀ (date : Int) (emotion : String),
      (((weeklyTrendAggregationIn zone docs userId now).filter
          (fun r => r.date = date ∧ r.emotion = emotion)).map (fun r => r.count)).sum =
        ((unwindEmotions (matchUser docs userId)).filter
          (fun d => sevenDaysAgoIn zone now ≤ d.1.study_time ∧ d.1.study_time ≤ now ∧
            utcDate d.1.study_time = date ∧ d.2.emotion = emotion)).length) ∧
      ((weeklyTrendAggregationIn zone docs userId now).map (fun r => r.count)).sum =
        (((matchUser docs userId).filter
          (fun l => sevenDaysAgoIn zone now ≤ l.study_time ∧ l.study_time ≤ now)).map
            (fun l => l.emotions.length)).sum := by
  constructor
  · intro date emotion
    have := sum_count_filter_sortedGroups (fun d : StudyLog × EmotionReading =>
      (utcDate d.1.study_time, d.2.emotion)) DailyTrendStat.ofGroup DailyTrendStat.key
      (fun r => r.count) (fun _ => rfl) (fun _ => rfl)
      (unwindEmotions
        ((matchUser docs userId).filter (fun l => sevenDaysAgoIn zone now ≤ l.study_time)))
      (date, emotion)
    rw [trendGroup_since] at this
    have hfilter : trendReadings docs userId (sevenDaysAgoIn zone now) date emotion =
        (unwindEmotions (matchUser docs userId)).filter
          (fun d => sevenDaysAgoIn zone now ≤ d.1.study_time ∧ d.1.study_time ≤ now ∧
            utcDate d.1.study_time = date ∧ d.2.emotion = emotion) := by
      unfold trendReadings
      apply List.filter_congr
      intro d hd
      have hle := hnow d.1 ((mem_unwindEmotions _ _).1 hd).1
      simp [hle]
    rw [hfilter] at this
    rw [← this]
    unfold weeklyTrendAggregationIn
    congr 2
    apply List.filter_congr
    intro r _
    simp [DailyTrendStat.key]
  · have hfilter : (matchUser docs userId).filter
          (fun l => sevenDaysAgoIn zone now ≤ l.study_time ∧ l.study_time ≤ now) =
        (matchUser docs userId).filter (fun l => sevenDaysAgoIn zone now ≤ l.study_time) := by
      apply List.filter_congr
      intro l hl
      simp [hnow l hl]
    rw [hfilter]
    unfold weeklyTrendAggregationIn
    rw [sum_count_sortedGroups _ DailyTrendStat.ofGroup DailyTrendStat.key
      (fun r => r.count) (fun _ => rfl), length_unwindEmotions]

/-- C7, amended, at a concrete input: the server in US Eastern time at 12:00 UTC
of 2024-03-13 and logs at 12:30 and 13:30 UTC of 2024-03-06 and 09:00 UTC of
2024-03-12; the two logs from 13:00 UTC of 2024-03-06 on make the rows. -/
theorem weeklyTrend_window_witness :
    (∀ l ∈ matchUser marchLogs 1, l.study_time ≤ marchNow) ∧
      weeklyTrendAggregationIn easternZone marchLogs 1 marchNow =
        [⟨may10 - 65, "Focused", 6, 1⟩, ⟨may10 - 59, "Calm", 7, 1⟩] ∧
      ((weeklyTrendAggregationIn easternZone marchLogs 1 marchNow).map
          (fun r => r.count)).sum =
        (((matchUser marchLogs 1).filter
          (fun l => sevenDaysAgoIn easternZone marchNow ≤ l.study_time ∧
            l.study_time ≤ marchNow)).map (fun l => l.emotions.length)).sum :=
  ⟨by decide!, by decide!,
    (weeklyTrend_window easternZone marchLogs 1 marchNow (by decide!)).2⟩

/-- C8. When every log of the user is at least 30 days older than now,
`weeklyTrend` is empty, while `subjectEmotions` has a row for the
(subject, emotion) pair and `timeAnalysis` a row for the (hour, emotion) pair of
every reading. -/
theorem old_logs_only_leave_weeklyTrend (docs : List StudyLog) (userId : Nat) (now : Int)
    (h : ∀ l ∈ matchUser docs userId, l.study_time ≤ now - 30 * dayMs) :
    weeklyTrendAggregation docs userId now = [] ∧
      ∀ l ∈ matchUser docs userId, ∀ e ∈ l.emotions,
        (∃ r ∈ subjectEmotionsAggregation docs userId,
          r.subject = l.subject ∧ r.emotion = e.emotion) ∧
        (∃ r ∈ timeAnalysisAggregation docs userId,
          r.hour = utcHour l.study_time ∧ r.emotion = e.emotion) := by
  constructor
  · have hnil : (matchUser docs userId).filter (fun l => sevenDaysAgo now ≤ l.study_time) =
        [] := by
      rw [List.filter_eq_nil_iff]
      intro l hl
      have := h l hl
      simp only [decide_eq_true_eq, sevenDaysAgo]
      unfold dayMs at *
      omega
    unfold weeklyTrendAggregation
    rw [hnil]
    rfl
  · intro l hl e he
    have hmem : (l, e) ∈ unwindEmotions (matchUser docs userId) :=
      (mem_unwindEmotions _ _).2 ⟨hl, he⟩
    constructor
    · obtain ⟨r, hr, hk⟩ := exists_row_sortedGroups (fun d : StudyLog × EmotionReading =>
        (d.1.subject, d.2.emotion)) SubjectEmotionStat.ofGroup SubjectEmotionStat.key
        (fun _ => rfl) _ (l, e) hmem
      simp only [SubjectEmotionStat.key, Prod.mk.injEq] at hk
      exact ⟨r, hr, hk⟩
    · obtain ⟨r, hr, hk⟩ := exists_row_sortedGroups (fun d : StudyLog × EmotionReading =>
        (utcHour d.1.study_time, d.2.emotion)) TimeSlotEmotionStat.ofGroup
        TimeSlotEmotionStat.key (fun _ => rfl) _ (l, e) hmem
      simp only [TimeSlotEmotionStat.key, Prod.mk.injEq] at hk
      exact ⟨r, hr, hk⟩

/-- C8 at a concrete input: two logs of user 1, both 30 days before now. -/
theorem old_logs_only_leave_weeklyTrend_witness :
    (matchUser oldLogs 1 ≠ [] ∧
      ∀ l ∈ matchUser oldLogs 1, l.study_time ≤ mayNow - 30 * dayMs) ∧
      (weeklyTrendAggregation oldLogs 1 mayNow = [] ∧
        ∀ l ∈ matchUser oldLogs 1, ∀ e ∈ l.emotions,
          (∃ r ∈ subjectEmotionsAggregation oldLogs 1,
            r.subject = l.subject ∧ r.emotion = e.emotion) ∧
          (∃ r ∈ timeAnalysisAggregation oldLogs 1,
            r.hour = utcHour l.study_time ∧ r.emotion = e.emotion)) :=
  ⟨by decide, old_logs_only_leave_weeklyTrend oldLogs 1 mayNow (by decide)⟩

/-! ## The empty report (C9) -/

/-- C9. For a user with no logs in a reachable store the route answers with
status 200 and the report with `totalSessions` 0, three empty summaries and
streak 0. -/
theorem analytics_of_no_logs (db : StudyLogStore) (userId : Nat) (now : Int)
    (hr : db.reachable = true) (h : matchUser db.documents userId = []) :
    getAnalytics db userId now =
      Response.json 200
        { totalSessions := 0
          subjectEmotions := []
          weeklyTrend := []
          timeAnalysis := []
          streak := 0 } := by
  unfold getAnalytics analyticsResponse analyticsBody analyticsTry StudyLogStore.run
    StudyLogStore.runChecked weeklyTrendQuery streakQuery
  simp only [hr, if_true]
  simp [countDocuments, subjectEmotionsAggregation, weeklyTrendAggregation,
    timeAnalysisAggregation, uniqueDates, h, unwindEmotions, groupStage, streakLoop,
    bind, Except.bind, pure, Except.pure]

/-- C9 at a concrete input: user 3 has no log among the stored ones. -/
theorem analytics_of_no_logs_witness :
    matchUser oldLogs 3 = [] ∧
      getAnalytics { documents := oldLogs, reachable := true } 3 mayNow =
        Response.json 200
          { totalSessions := 0
            subjectEmotions := []
            weeklyTrend := []
            timeAnalysis := []
            streak := 0 } :=
  ⟨by decide, analytics_of_no_logs { documents := oldLogs, reachable := true } 3 mayNow rfl
    (by decide)⟩

/-! ## The time analysis (C10) -/

theorem utcHour_range (t : Int) : 0 ≤ utcHour t ∧ utcHour t ≤ 23 := by
  unfold utcHour dayMs hourMs
  omega

/-- C10. `timeAnalysis` has no window: the function takes no current instant,
every row's hour lies in 0..23, and the counts of its rows add up to the counts
of the `subjectEmotions` rows, which is the number of readings in all logs of
the user. -/
theorem timeAnalysis_counts_all_readings (docs : List StudyLog) (userId : Nat) :
    (∀ r ∈ timeAnalysisAggregation docs userId, 0 ≤ r.hour ∧ r.hour ≤ 23) ∧
      ((timeAnalysisAggregation docs userId).map (fun r => r.count)).sum =
        ((subjectEmotionsAggregation docs userId).map (fun r => r.count)).sum ∧
      ((timeAnalysisAggregation docs userId).map (fun r => r.count)).sum =
        ((matchUser docs userId).map (fun l => l.emotions.length)).sum := by
  have hsum : ((timeAnalysisAggregation docs userId).map (fun r => r.count)).sum =
      ((matchUser docs userId).map (fun l => l.emotions.length)).sum := by
    unfold timeAnalysisAggregation
    rw [sum_count_sortedGroups _ TimeSlotEmotionStat.ofGroup TimeSlotEmotionStat.key
      (fun r => r.count) (fun _ => rfl), length_unwindEmotions]
  have hsum' : ((subjectEmotionsAggregation docs userId).map (fun r => r.count)).sum =
      ((matchUser docs userId).map (fun l => l.emotions.length)).sum := by
    unfold subjectEmotionsAggregation
    rw [sum_count_sortedGroups _ SubjectEmotionStat.ofGroup SubjectEmotionStat.key
      (fun r => r.count) (fun _ => rfl), length_unwindEmotions]
  refine ⟨?_, hsum.trans hsum'.symm, hsum⟩
  intro r hr
  obtain ⟨hne, _, _⟩ := timeAnalysis_row docs userId r hr
  obtain ⟨d, hd⟩ := List.exists_mem_of_ne_nil _ hne
  unfold hourReadings at hd
  rw [List.mem_filter] at hd
  have := hd.2
  simp only [decide_eq_true_eq] at this
  rw [← this.1]
  exact utcHour_range _


/-! ## The general statements at concrete inputs -/

/-- C5, amended, at a concrete input: the `Math`/`Calm` row of the four tied
readings has `avgScore` 1.2, the even tenth next to 5 / 4. -/
theorem avgScore_nearest_tenth_ties_even_witness :
    (⟨"Math", "Calm", 6 / 5, 4, 5⟩ : SubjectEmotionStat) ∈
        subjectEmotionsAggregation quarterLogs 1 ∧
      IsNearestTenthTiesEven ((5 : ℚ) / ((4 : Nat) : ℚ)) (6 / 5) :=
  ⟨by decide!,
    ((avgScore_nearest_tenth_ties_even quarterLogs 1 mayNow).1 ⟨"Math", "Calm", 6 / 5, 4, 5⟩
      (by decide!)).2.2⟩

/-- C6 at a concrete input: the `subjectEmotions` rows of the May logs are
strictly ascending, and the `Physics`/`Happy` row has a positive count and
comes from a reading. -/
theorem summaries_strictly_ascending_witness :
    (⟨"Physics", "Happy", 6, 1, 6⟩ : SubjectEmotionStat) ∈
        subjectEmotionsAggregation mayLogs 1 ∧
      List.Pairwise
        (fun a b : SubjectEmotionStat =>
          a.subject < b.subject ∨ (a.subject = b.subject ∧ a.emotion < b.emotion))
        (subjectEmotionsAggregation mayLogs 1) ∧
      (1 ≤ 1 ∧ ∃ l ∈ matchUser mayLogs 1, ∃ e ∈ l.emotions,
        l.subject = "Physics" ∧ e.emotion = "Happy") :=
  ⟨by decide!, (summaries_strictly_ascending mayLogs 1 mayNow).1.1,
    (summaries_strictly_ascending mayLogs 1 mayNow).1.2.1 ⟨"Physics", "Happy", 6, 1, 6⟩
      (by decide!)⟩

/-- C10 at a concrete input: the `timeAnalysis` row of the 07:30 log of the May
logs has its hour in range. -/
theorem timeAnalysis_counts_all_readings_witness :
    (⟨7, "Happy", 6, 1⟩ : TimeSlotEmotionStat) ∈ timeAnalysisAggregation mayLogs 1 ∧
      ((0 : Int) ≤ 7 ∧ (7 : Int) ≤ 23) :=
  ⟨by decide!,
    (timeAnalysis_counts_all_readings mayLogs 1).1 ⟨7, "Happy", 6, 1⟩ (by decide!)⟩


/-! ## Lemmas on the suggestion blocks -/

section BlockLemmas

theorem foldl_push {α β : Type} (p : α → Bool) (f : α → β) (keys : List α) :
    ∀ init : List β,
      keys.foldl (fun list k => if p k = true then list ++ [f k] else list) init =
        init ++ (keys.filter p).map f := by
  induction keys with
  | nil => intro init; simp
  | cons k ks ih =>
    intro init
    rw [List.foldl_cons, ih]
    by_cases h : p k = true
    · simp [h]
    · simp [h]

theorem foldl_add_eq_sum {α : Type} (f : α → ℚ) (items : List α) :
    ∀ init : ℚ, items.foldl (fun sum item => sum + f item) init = init + (items.map f).sum := by
  induction items with
  | nil => intro init; simp
  | cons x xs ih =>
    intro init
    rw [List.foldl_cons, ih]
    simp [add_assoc]

theorem focusScore_eq_sum (items : List TimeSlotEmotionStat) :
    focusScore items = (items.map (fun r => r.avgScore * (r.count : ℚ))).sum := by
  unfold focusScore
  rw [foldl_add_eq_sum (fun r : TimeSlotEmotionStat => r.avgScore * (r.count : ℚ))]
  simp

theorem weightedTotal_eq_sum (items : List SubjectEmotionStat) :
    weightedTotal items = (items.map (fun r => r.avgScore * (r.count : ℚ))).sum := by
  unfold weightedTotal
  rw [foldl_add_eq_sum (fun r : SubjectEmotionStat => r.avgScore * (r.count : ℚ))]
  simp

theorem foldl_run {α : Type} (step : List Suggestion → α → List Suggestion)
    (divisor : α → JsNumber) (keys : List α) :
    ∀ run : List Suggestion × List JsNumber,
      keys.foldl (fun run k => (step run.1 k, run.2 ++ [divisor k])) run =
        (keys.foldl step run.1, run.2 ++ keys.map divisor) := by
  induction keys with
  | nil => intro run; simp
  | cons k ks ih =>
    intro run
    rw [List.foldl_cons, ih]
    simp

theorem stressRun_eq (analytics : AnalyticsReport) (suggestionsList : List Suggestion) :
    stressRun analytics suggestionsList =
      if 0 < analytics.subjectEmotions.length then
        ((objectKeys (analytics.subjectEmotions.foldl tallyStep ([], [])).1).foldl
          (fun list subject =>
            if (stressedPercentage
                (getProp (analytics.subjectEmotions.foldl tallyStep ([], [])).2 subject)
                (getProp (analytics.subjectEmotions.foldl tallyStep ([], [])).1
                  subject)).exceeds 60
            then list ++ [stressWarning subject (stressedPercentage
                (getProp (analytics.subjectEmotions.foldl tallyStep ([], [])).2 subject)
                (getProp (analytics.subjectEmotions.foldl tallyStep ([], [])).1 subject))]
            else list)
          suggestionsList,
         (objectKeys (analytics.subjectEmotions.foldl tallyStep ([], [])).1).map
          (fun subject =>
            (getProp (analytics.subjectEmotions.foldl tallyStep ([], [])).1
              subject).toNumber))
      else (suggestionsList, []) := by
  unfold stressRun
  split_ifs
  · have := foldl_run
      (fun list subject =>
        if (stressedPercentage
            (getProp (analytics.subjectEmotions.foldl tallyStep ([], [])).2 subject)
            (getProp (analytics.subjectEmotions.foldl tallyStep ([], [])).1
              subject)).exceeds 60
        then list ++ [stressWarning subject (stressedPercentage
            (getProp (analytics.subjectEmotions.foldl tallyStep ([], [])).2 subject)
            (getProp (analytics.subjectEmotions.foldl tallyStep ([], [])).1 subject))]
        else list)
      (fun subject =>
        (getProp (analytics.subjectEmotions.foldl tallyStep ([], [])).1 subject).toNumber)
      (objectKeys (analytics.subjectEmotions.foldl tallyStep ([], [])).1)
      (suggestionsList, [])
    simpa using this
  · rfl

theorem stressBlock_unfold (analytics : AnalyticsReport) (suggestionsList : List Suggestion) :
    stressBlock analytics suggestionsList =
      if 0 < analytics.subjectEmotions.length then
        let tallies := analytics.subjectEmotions.foldl tallyStep ([], [])
        (objectKeys tallies.1).foldl
          (fun list subject =>
            let pct := stressedPercentage (getProp tallies.2 subject) (getProp tallies.1 subject)
            if pct.exceeds 60 then list ++ [stressWarning subject pct] else list)
          suggestionsList
      else suggestionsList := by
  show (stressRun analytics suggestionsList).1 = _
  rw [stressRun_eq]
  split_ifs <;> rfl

theorem morningFocusBlock_unfold (analytics : AnalyticsReport)
    (suggestionsList : List Suggestion) :
    morningFocusBlock analytics suggestionsList =
      if 0 < analytics.timeAnalysis.length then
        let morningFocused := analytics.timeAnalysis.filter
          (fun item => 6 ≤ item.hour ∧ item.hour < 12 ∧ item.emotion = "Focused")
        let afternoonFocused := analytics.timeAnalysis.filter
          (fun item => 12 ≤ item.hour ∧ item.hour < 18 ∧ item.emotion = "Focused")
        let eveningFocused := analytics.timeAnalysis.filter
          (fun item => 18 ≤ item.hour ∧ item.emotion = "Focused")
        let morningScore := focusScore morningFocused
        let afternoonScore := focusScore afternoonFocused
        let eveningScore := focusScore eveningFocused
        let totalScore := morningScore + afternoonScore + eveningScore
        if 0 < totalScore then
          let morningPercentage := morningScore / totalScore * 100
          if 50 < morningPercentage then suggestionsList ++ [morningFocusSuggestion]
          else suggestionsList
        else suggestionsList
      else suggestionsList := by
  unfold morningFocusBlock morningFocusRun
  simp only
  split_ifs <;> rfl

theorem lateNightBlock_unfold (getHours : Int → Int) (logs : List StudyLog)
    (suggestionsList : List Suggestion) :
    lateNightBlock getHours logs suggestionsList =
      if 0 < logs.length then
        let lateNightSessions := logs.filter
          (fun log => 23 ≤ getHours log.study_time ∨ getHours log.study_time < 2)
        if 0 < lateNightSessions.length then
          let lateNightTiredSessions := lateNightSessions.filter
            (fun log =>
              log.emotions.any (fun emotion => emotion.emotion = "Tired" ∧ 5 < emotion.score))
          let lateNightTiredPercentage : ℚ :=
            (lateNightTiredSessions.length : ℚ) / (lateNightSessions.length : ℚ) * 100
          if 50 < lateNightTiredPercentage then suggestionsList ++ [lateNightWarning]
          else suggestionsList
        else suggestionsList
      else suggestionsList := by
  unfold lateNightBlock lateNightRun
  simp only
  split_ifs <;> rfl

theorem balanceBlock_unfold (analytics : AnalyticsReport) (suggestionsList : List Suggestion) :
    balanceBlock analytics suggestionsList =
      if 0 < analytics.subjectEmotions.length then
        let totalPositive := weightedTotal
          (analytics.subjectEmotions.filter
            (fun item => positiveEmotions.contains item.emotion))
        let totalNegative := weightedTotal
          (analytics.subjectEmotions.filter
            (fun item => negativeEmotions.contains item.emotion))
        let totalSessions := analytics.totalSessions
        if 0 < totalSessions then
          let positiveAvg := totalPositive / (totalSessions : ℚ)
          let negativeAvg := totalNegative / (totalSessions : ℚ)
          if 6 < positiveAvg then suggestionsList ++ [balanceSuccess positiveAvg]
          else if 5 < negativeAvg then suggestionsList ++ [balanceWarning negativeAvg]
          else suggestionsList
        else suggestionsList
      else suggestionsList := by
  unfold balanceBlock balanceRun
  simp only
  split_ifs <;> rfl

theorem generateSuggestions_unfold (getHours : Int → Int) (analytics : AnalyticsReport)
    (logs : List StudyLog) :
    generateSuggestions getHours (some analytics) (some logs) =
      if logs.length = 0 then [noDataSuggestion]
      else
        let suggestionsList : List Suggestion := []
        let suggestionsList := stressBlock analytics suggestionsList
        let suggestionsList := morningFocusBlock analytics suggestionsList
        let suggestionsList := lateNightBlock getHours logs suggestionsList
        let suggestionsList := balanceBlock analytics suggestionsList
        let suggestionsList := boredomBlock analytics suggestionsList
        if suggestionsList.length = 0 ∧ 0 < logs.length then
          suggestionsList ++ [fallbackSuggestion]
        else suggestionsList := by
  show (generateSuggestionsRun getHours (some analytics) (some logs)).1 = _
  unfold generateSuggestionsRun
  simp only
  rw [apply_ite Prod.fst]
  rfl

theorem stressBlock_eq (a : AnalyticsReport) (l : List Suggestion) :
    stressBlock a l = l ++
      ((objectKeys (a.subjectEmotions.foldl tallyStep ([], [])).1).filter
        (fun subject => (stressedPercentage
          (getProp (a.subjectEmotions.foldl tallyStep ([], [])).2 subject)
          (getProp (a.subjectEmotions.foldl tallyStep ([], [])).1 subject)).exceeds 60)).map
        (fun subject => stressWarning subject (stressedPercentage
          (getProp (a.subjectEmotions.foldl tallyStep ([], [])).2 subject)
          (getProp (a.subjectEmotions.foldl tallyStep ([], [])).1 subject))) := by
  rw [stressBlock_unfold]
  split
  · exact foldl_push _ _ _ l
  · rename_i h
    have : a.subjectEmotions = [] := by
      cases hs : a.subjectEmotions with
      | nil => rfl
      | cons x xs => simp [hs] at h
    simp [this, objectKeys]

theorem stressBlock_append (a : AnalyticsReport) (l : List Suggestion) :
    stressBlock a l = l ++ stressBlock a [] := by
  rw [stressBlock_eq a l, stressBlock_eq a []]
  simp

theorem morningFocusBlock_append (a : AnalyticsReport) (l : List Suggestion) :
    morningFocusBlock a l = l ++ morningFocusBlock a [] := by
  rw [morningFocusBlock_unfold, morningFocusBlock_unfold]
  simp only
  split_ifs <;> simp

theorem lateNightBlock_append (gh : Int → Int) (logs : List StudyLog) (l : List Suggestion) :
    lateNightBlock gh logs l = l ++ lateNightBlock gh logs [] := by
  rw [lateNightBlock_unfold, lateNightBlock_unfold]
  simp only
  split_ifs <;> simp

theorem balanceBlock_append (a : AnalyticsReport) (l : List Suggestion) :
    balanceBlock a l = l ++ balanceBlock a [] := by
  rw [balanceBlock_unfold, balanceBlock_unfold]
  simp only
  split_ifs <;> simp

theorem boredomBlock_append (a : AnalyticsReport) (l : List Suggestion) :
    boredomBlock a l = l ++ boredomBlock a [] := by
  unfold boredomBlock
  simp only
  split_ifs <;> simp

/-- The suggestions pushed by the five rules, in the order of the blocks. -/
theorem generateSuggestions_eq (gh : Int → Int) (a : AnalyticsReport) (logs : List StudyLog)
    (hl : logs ≠ []) :
    generateSuggestions gh (some a) (some logs) =
      if stressBlock a [] ++ morningFocusBlock a [] ++ lateNightBlock gh logs [] ++
          balanceBlock a [] ++ boredomBlock a [] = [] then [fallbackSuggestion]
      else stressBlock a [] ++ morningFocusBlock a [] ++ lateNightBlock gh logs [] ++
          balanceBlock a [] ++ boredomBlock a [] := by
  have hlen : logs.length ≠ 0 := fun h => hl (List.length_eq_zero.1 h)
  have hpos : 0 < logs.length := Nat.pos_of_ne_zero hlen
  have hbody : boredomBlock a (balanceBlock a (lateNightBlock gh logs
      (morningFocusBlock a (stressBlock a [])))) =
      stressBlock a [] ++ morningFocusBlock a [] ++ lateNightBlock gh logs [] ++
          balanceBlock a [] ++ boredomBlock a [] := by
    rw [boredomBlock_append, balanceBlock_append, lateNightBlock_append,
      morningFocusBlock_append]
  rw [generateSuggestions_unfold]
  simp only [hlen, if_false, hbody, hpos, and_true, List.length_eq_zero]
  split_ifs with h
  · rw [h]; rfl
  · rfl

end BlockLemmas


section RuleLemmas

theorem focusScore_bucket (ta : List TimeSlotEmotionStat) (p : TimeSlotEmotionStat → Bool)
    (b : Int → Bool)
    (h : ∀ r, p r = true ↔ (r.emotion = "Focused" ∧ b r.hour = true)) :
    focusScore (ta.filter p) = focusedWeight ta b := by
  rw [focusScore_eq_sum]
  unfold focusedWeight
  congr 2
  apply List.filter_congr
  intro r _
  rw [Bool.eq_iff_iff, h r]
  simp

theorem share_gt_half_iff (m t : ℚ) (ht : 0 < t) : 50 < m / t * 100 ↔ t < 2 * m := by
  rw [div_mul_eq_mul_div, lt_div_iff₀ ht]
  constructor <;> intro h <;> linarith

theorem morningFocusBlock_nil (a : AnalyticsReport) :
    morningFocusBlock a [] =
      if 0 < morningWeight a.timeAnalysis + afternoonWeight a.timeAnalysis +
            eveningWeight a.timeAnalysis ∧
          50 < morningWeight a.timeAnalysis /
            (morningWeight a.timeAnalysis + afternoonWeight a.timeAnalysis +
              eveningWeight a.timeAnalysis) * 100
      then [morningFocusSuggestion] else [] := by
  have hm : focusScore (a.timeAnalysis.filter
      (fun item => 6 ≤ item.hour ∧ item.hour < 12 ∧ item.emotion = "Focused")) =
      morningWeight a.timeAnalysis := by
    apply focusScore_bucket
    intro r
    simp only [decide_eq_true_eq]
    constructor
    · rintro ⟨h1, h2, h3⟩; exact ⟨h3, h1, by omega⟩
    · rintro ⟨h3, h1, h2⟩; exact ⟨h1, by omega, h3⟩
  have ha : focusScore (a.timeAnalysis.filter
      (fun item => 12 ≤ item.hour ∧ item.hour < 18 ∧ item.emotion = "Focused")) =
      afternoonWeight a.timeAnalysis := by
    apply focusScore_bucket
    intro r
    simp only [decide_eq_true_eq]
    constructor
    · rintro ⟨h1, h2, h3⟩; exact ⟨h3, h1, by omega⟩
    · rintro ⟨h3, h1, h2⟩; exact ⟨h1, by omega, h3⟩
  have he : focusScore (a.timeAnalysis.filter
      (fun item => 18 ≤ item.hour ∧ item.emotion = "Focused")) =
      eveningWeight a.timeAnalysis := by
    apply focusScore_bucket
    intro r
    simp only [decide_eq_true_eq]
    constructor
    · rintro ⟨h1, h3⟩; exact ⟨h3, h1⟩
    · rintro ⟨h3, h1⟩; exact ⟨h1, h3⟩
  rw [morningFocusBlock_unfold]
  simp only [hm, ha, he, List.nil_append]
  by_cases hlen : 0 < a.timeAnalysis.length
  · simp only [hlen, if_true]
    split_ifs <;> simp_all
  · have hnil : a.timeAnalysis = [] := by
      cases hs : a.timeAnalysis with
      | nil => rfl
      | cons x xs => simp [hs] at hlen
    simp [hnil, morningWeight, afternoonWeight, eveningWeight, focusedWeight]

theorem lateNightBlock_nil (gh : Int → Int) (logs : List StudyLog) :
    lateNightBlock gh logs [] =
      if lateNightLogs gh logs ≠ [] ∧
          (lateNightLogs gh logs).length <
            2 * ((lateNightLogs gh logs).filter (fun l => hasTiredReading l)).length
      then [lateNightWarning] else [] := by
  have htired : ∀ ls : List StudyLog,
      ls.filter (fun log => log.emotions.any
        (fun emotion => decide (emotion.emotion = "Tired" ∧ 5 < emotion.score))) =
      ls.filter (fun l => hasTiredReading l) := by
    intro ls
    apply List.filter_congr
    intro l _
    rw [Bool.eq_iff_iff]
    simp [hasTiredReading, List.any_eq_true]
  rw [lateNightBlock_unfold]
  simp only [htired, List.nil_append]
  change (if 0 < logs.length then
      if 0 < (lateNightLogs gh logs).length then
        if (50 : ℚ) < (((lateNightLogs gh logs).filter
            (fun l => hasTiredReading l)).length : ℚ) /
            ((lateNightLogs gh logs).length : ℚ) * 100
        then [lateNightWarning] else []
      else []
    else []) = _
  by_cases hl : lateNightLogs gh logs = []
  · simp [hl]
  · have hpos : 0 < (lateNightLogs gh logs).length := List.length_pos.2 hl
    have hlogs : 0 < logs.length := by
      apply List.length_pos.2
      intro h
      apply hl
      simp [lateNightLogs, h]
    have hq : (0 : ℚ) < ((lateNightLogs gh logs).length : ℚ) := by exact_mod_cast hpos
    simp only [hlogs, hpos, if_true, hl, ne_eq, not_false_eq_true, true_and]
    have hcast : ((lateNightLogs gh logs).length : ℚ) <
        2 * (((lateNightLogs gh logs).filter (fun l => hasTiredReading l)).length : ℚ) ↔
        (lateNightLogs gh logs).length <
          2 * ((lateNightLogs gh logs).filter (fun l => hasTiredReading l)).length := by
      exact_mod_cast Iff.rfl
    exact if_congr ((share_gt_half_iff _ _ hq).trans hcast) rfl rfl

theorem weightedTotal_emotions (se : List SubjectEmotionStat) (emotions : List String) :
    weightedTotal (se.filter (fun item => emotions.contains item.emotion)) =
      ((se.filter (fun r => r.emotion ∈ emotions)).map
        (fun r => r.avgScore * (r.count : ℚ))).sum := by
  rw [weightedTotal_eq_sum]
  congr 2
  apply List.filter_congr
  intro r _
  rw [Bool.eq_iff_iff]
  simp

theorem balanceBlock_nil (a : AnalyticsReport) :
    balanceBlock a [] =
      if 0 < a.totalSessions then
        if 6 < positiveAverage a then [balanceSuccess (positiveAverage a)]
        else if 5 < negativeAverage a then [balanceWarning (negativeAverage a)]
        else []
      else [] := by
  rw [balanceBlock_unfold]
  simp only [weightedTotal_emotions, List.nil_append]
  by_cases hlen : 0 < a.subjectEmotions.length
  · simp only [hlen, if_true]
    rfl
  · have hnil : a.subjectEmotions = [] := by
      cases hs : a.subjectEmotions with
      | nil => rfl
      | cons x xs => simp [hs] at hlen
    simp only [hnil, positiveAverage, negativeAverage, emotionAverage, List.length_nil,
      lt_irrefl, if_false, List.filter_nil, List.map_nil, List.sum_nil, zero_div]
    norm_num

theorem boredomBlock_nil (a : AnalyticsReport) :
    boredomBlock a [] =
      if boredSubjects a.subjectEmotions ≠ [] then
        [boredomSuggestion (boredSubjects a.subjectEmotions)]
      else [] := by
  unfold boredomBlock
  simp only [List.nil_append]
  change (if 0 < a.subjectEmotions.length then
      if 0 < (boredSubjects a.subjectEmotions).length then
        [boredomSuggestion (boredSubjects a.subjectEmotions)]
      else []
    else []) = _
  by_cases hb : boredSubjects a.subjectEmotions = []
  · simp [hb]
  · have hpos : 0 < (boredSubjects a.subjectEmotions).length := List.length_pos.2 hb
    have hlen : 0 < a.subjectEmotions.length := by
      apply List.length_pos.2
      intro h
      apply hb
      simp [boredSubjects, h]
    simp [hpos, hlen, hb]

end RuleLemmas


section OutputLemmas

theorem stressWarning_head (subject : String) (pct : JsNumber) :
    (stressWarning subject pct).message.data.head? = some 'Y' := rfl

theorem balanceSuccess_head (x : ℚ) :
    (balanceSuccess x).message.data.head? = some 'G' := rfl

theorem balanceWarning_head (x : ℚ) :
    (balanceWarning x).message.data.head? = some 'Y' := rfl

theorem boredomSuggestion_head (subjects : List String) :
    (boredomSuggestion subjects).message.data.head? = some 'Y' := rfl

theorem stressWarning_type (subject : String) (pct : JsNumber) :
    (stressWarning subject pct).type = "warning" := rfl

theorem balanceSuccess_type (x : ℚ) : (balanceSuccess x).type = "success" := rfl

theorem balanceWarning_type (x : ℚ) : (balanceWarning x).type = "warning" := rfl

theorem boredomSuggestion_type (subjects : List String) :
    (boredomSuggestion subjects).type = "info" := rfl

theorem mem_stressBlock (a : AnalyticsReport) (s : Suggestion) (h : s ∈ stressBlock a []) :
    ∃ subject pct, s = stressWarning subject pct := by
  rw [stressBlock_eq] at h
  simp only [List.nil_append, List.mem_map] at h
  obtain ⟨subject, _, rfl⟩ := h
  exact ⟨subject, _, rfl⟩

theorem mem_morningFocusBlock (a : AnalyticsReport) (s : Suggestion)
    (h : s ∈ morningFocusBlock a []) : s = morningFocusSuggestion := by
  rw [morningFocusBlock_nil] at h
  split_ifs at h
  · simpa using h
  · simp at h

theorem mem_lateNightBlock (gh : Int → Int) (logs : List StudyLog) (s : Suggestion)
    (h : s ∈ lateNightBlock gh logs []) : s = lateNightWarning := by
  rw [lateNightBlock_nil] at h
  split_ifs at h
  · simpa using h
  · simp at h

theorem mem_balanceBlock (a : AnalyticsReport) (s : Suggestion) (h : s ∈ balanceBlock a []) :
    ∃ x, s = balanceSuccess x ∨ s = balanceWarning x := by
  rw [balanceBlock_nil] at h
  split_ifs at h
  · exact ⟨_, Or.inl (by simpa using h)⟩
  · exact ⟨_, Or.inr (by simpa using h)⟩
  · simp at h
  · simp at h

theorem mem_boredomBlock (a : AnalyticsReport) (s : Suggestion) (h : s ∈ boredomBlock a []) :
    ∃ subjects, s = boredomSuggestion subjects := by
  rw [boredomBlock_nil] at h
  split_ifs at h
  · exact ⟨_, by simpa using h⟩
  · simp at h

theorem morningFocusSuggestion_not_mem_others (gh : Int → Int) (a : AnalyticsReport)
    (logs : List StudyLog) :
    morningFocusSuggestion ∉ stressBlock a [] ∧
      morningFocusSuggestion ∉ lateNightBlock gh logs [] ∧
      morningFocusSuggestion ∉ balanceBlock a [] ∧
      morningFocusSuggestion ∉ boredomBlock a [] := by
  refine ⟨?_, ?_, ?_, ?_⟩
  · intro h
    obtain ⟨subject, pct, e⟩ := mem_stressBlock a _ h
    have := congrArg Suggestion.type e
    simp only [stressWarning_type, balanceSuccess_type, balanceWarning_type,
      boredomSuggestion_type] at this
    revert this
    decide
  · intro h
    have := mem_lateNightBlock gh logs _ h
    revert this
    decide
  · intro h
    obtain ⟨x, e | e⟩ := mem_balanceBlock a _ h
    · have := congrArg (fun s => s.message.data.head?) e
      simp only [balanceSuccess_head] at this
      revert this
      decide
    · have := congrArg Suggestion.type e
      simp only [stressWarning_type, balanceSuccess_type, balanceWarning_type,
        boredomSuggestion_type] at this
      revert this
      decide
  · intro h
    obtain ⟨subjects, e⟩ := mem_boredomBlock a _ h
    have := congrArg Suggestion.type e
    simp only [stressWarning_type, balanceSuccess_type, balanceWarning_type,
      boredomSuggestion_type] at this
    revert this
    decide

theorem lateNightWarning_not_mem_others (a : AnalyticsReport) :
    lateNightWarning ∉ stressBlock a [] ∧
      lateNightWarning ∉ morningFocusBlock a [] ∧
      lateNightWarning ∉ balanceBlock a [] ∧
      lateNightWarning ∉ boredomBlock a [] := by
  refine ⟨?_, ?_, ?_, ?_⟩
  · intro h
    obtain ⟨subject, pct, e⟩ := mem_stressBlock a _ h
    have := congrArg (fun s => s.message.data.head?) e
    simp only [stressWarning_head] at this
    revert this
    decide
  · intro h
    have := mem_morningFocusBlock a _ h
    revert this
    decide
  · intro h
    obtain ⟨x, e | e⟩ := mem_balanceBlock a _ h
    · have := congrArg Suggestion.type e
      simp only [stressWarning_type, balanceSuccess_type, balanceWarning_type,
        boredomSuggestion_type] at this
      revert this
      decide
    · have := congrArg (fun s => s.message.data.head?) e
      simp only [balanceWarning_head] at this
      revert this
      decide
  · intro h
    obtain ⟨subjects, e⟩ := mem_boredomBlock a _ h
    have := congrArg Suggestion.type e
    simp only [stressWarning_type, balanceSuccess_type, balanceWarning_type,
      boredomSuggestion_type] at this
    revert this
    decide

theorem fallbackSuggestion_not_mem_blocks (gh : Int → Int) (a : AnalyticsReport)
    (logs : List StudyLog) :
    fallbackSuggestion ∉ stressBlock a [] ++ morningFocusBlock a [] ++
      lateNightBlock gh logs [] ++ balanceBlock a [] ++ boredomBlock a [] := by
  intro h
  simp only [List.mem_append] at h
  rcases h with (((h | h) | h) | h) | h
  · obtain ⟨subject, pct, e⟩ := mem_stressBlock a _ h
    have := congrArg Suggestion.type e
    simp only [stressWarning_type, balanceSuccess_type, balanceWarning_type,
      boredomSuggestion_type] at this
    revert this
    decide
  · have := mem_morningFocusBlock a _ h
    revert this
    decide
  · have := mem_lateNightBlock gh logs _ h
    revert this
    decide
  · obtain ⟨x, e | e⟩ := mem_balanceBlock a _ h
    · have := congrArg Suggestion.type e
      simp only [stressWarning_type, balanceSuccess_type, balanceWarning_type,
        boredomSuggestion_type] at this
      revert this
      decide
    · have := congrArg Suggestion.type e
      simp only [stressWarning_type, balanceSuccess_type, balanceWarning_type,
        boredomSuggestion_type] at this
      revert this
      decide
  · obtain ⟨subjects, e⟩ := mem_boredomBlock a _ h
    have := congrArg (fun s => s.message.data.head?) e
    simp only [boredomSuggestion_head] at this
    revert this
    decide

theorem mem_generateSuggestions (gh : Int → Int) (a : AnalyticsReport) (logs : List StudyLog)
    (hl : logs ≠ []) (s : Suggestion) (hs : s ≠ fallbackSuggestion) :
    s ∈ generateSuggestions gh (some a) (some logs) ↔
      s ∈ stressBlock a [] ++ morningFocusBlock a [] ++ lateNightBlock gh logs [] ++
        balanceBlock a [] ++ boredomBlock a [] := by
  rw [generateSuggestions_eq gh a logs hl]
  split_ifs with h
  · rw [h]
    simp [hs]
  · rfl

theorem count_generateSuggestions (gh : Int → Int) (a : AnalyticsReport)
    (logs : List StudyLog) (hl : logs ≠ []) (s : Suggestion) (hs : s ≠ fallbackSuggestion) :
    (generateSuggestions gh (some a) (some logs)).count s =
      (stressBlock a [] ++ morningFocusBlock a [] ++ lateNightBlock gh logs [] ++
        balanceBlock a [] ++ boredomBlock a []).count s := by
  rw [generateSuggestions_eq gh a logs hl]
  split_ifs with h
  · rw [h]
    simp [List.count_cons, Ne.symm hs]
  · rfl

end OutputLemmas


/-! ## The no-data rule (C11) -/

/-- C11. Whatever the analytics value, missing or present, an empty log list
yields exactly one suggestion, the `info` suggestion of the no-data rule, and
nothing of any other rule; a missing log list does the same. -/
theorem no_data_suggestion_only (gh : Int → Int) (analytics : Option AnalyticsReport) :
    generateSuggestions gh analytics (some []) = [noDataSuggestion] ∧
      generateSuggestions gh analytics none = [noDataSuggestion] ∧
      noDataSuggestion.type = "info" := by
  cases analytics <;> exact ⟨rfl, rfl, rfl⟩

/-! ## The stress rule (C12, C13) -/

/-- C12, the code at a failing input. Three logs for the subject `constructor`,
each with one `Stressed` reading, aggregate to one row with count 3, so the
stressed share of that subject is 100 percent; the generator emits no stress
warning, only the default suggestion. The tally objects are created by `{}`,
where `subjectTotals["constructor"]` reads the inherited function: the counts
are never initialised and the percentage is `NaN`. The same logs under the
subject `Math` give the warning with 100.0%. -/
theorem stress_rule_skips_inherited_name :
    subjectEmotionsAggregation constructorLogs 1 = [⟨"constructor", "Stressed", 3, 3, 9⟩] ∧
      suggestionsFor constructorLogs 1 mayNow = [fallbackSuggestion] ∧
      suggestionsFor mathStressLogs 1 mayNow = [stressWarning "Math" (JsNumber.finite 100)] ∧
      (stressWarning "Math" (JsNumber.finite 100)).message =
        "You seem stressed while studying Math (100.0% of sessions). Consider shorter sessions or taking more breaks." := by
  decide!

/-- C13, the code at a failing input. Of ten `Physics` logs seven include a
`Stressed` reading, next to a `Tired` one, and three do not. The share of
sessions is 70 percent, but the rule divides the seven `Stressed` readings by
all seventeen readings: no stress warning is emitted, only the default
suggestion. With one reading per log the same seven and three logs give the
warning with 70.0%. -/
theorem stress_share_is_of_readings :
    physicsMixedLogs.length = 10 ∧
      (physicsMixedLogs.filter
        (fun l => l.emotions.any (fun e => e.emotion = "Stressed"))).length = 7 ∧
      subjectEmotionsAggregation physicsMixedLogs 1 =
        [⟨"Physics", "Happy", 5, 3, 15⟩, ⟨"Physics", "Stressed", 3, 7, 21⟩,
         ⟨"Physics", "Tired", 4, 7, 28⟩] ∧
      suggestionsFor physicsMixedLogs 1 mayNow = [fallbackSuggestion] ∧
      suggestionsFor physicsSingleLogs 1 mayNow =
        [stressWarning "Physics" (JsNumber.finite 70)] ∧
      (stressWarning "Physics" (JsNumber.finite 70)).message =
        "You seem stressed while studying Physics (70.0% of sessions). Consider shorter sessions or taking more breaks." := by
  decide!


/-! ## The morning-focus rule (C14, C15) -/

/-- C14. For a non-empty log list the morning-focus suggestion is among the
suggestions exactly when the weighted `Focused` score of the three buckets is
positive and the morning share of it exceeds 50 percent; with a positive total
that is the morning score exceeding the afternoon plus the evening score. The
suggestion occurs at most once. -/
theorem morning_focus_emitted_iff (gh : Int → Int) (a : AnalyticsReport)
    (logs : List StudyLog) (hl : logs ≠ []) :
    (morningFocusSuggestion ∈ generateSuggestions gh (some a) (some logs) ↔
        0 < morningWeight a.timeAnalysis + afternoonWeight a.timeAnalysis +
            eveningWeight a.timeAnalysis ∧
          50 < morningWeight a.timeAnalysis /
            (morningWeight a.timeAnalysis + afternoonWeight a.timeAnalysis +
              eveningWeight a.timeAnalysis) * 100) ∧
      ((0 < morningWeight a.timeAnalysis + afternoonWeight a.timeAnalysis +
            eveningWeight a.timeAnalysis ∧
          50 < morningWeight a.timeAnalysis /
            (morningWeight a.timeAnalysis + afternoonWeight a.timeAnalysis +
              eveningWeight a.timeAnalysis) * 100) ↔
        (0 < morningWeight a.timeAnalysis + afternoonWeight a.timeAnalysis +
            eveningWeight a.timeAnalysis ∧
          afternoonWeight a.timeAnalysis + eveningWeight a.timeAnalysis <
            morningWeight a.timeAnalysis)) ∧
      (generateSuggestions gh (some a) (some logs)).count morningFocusSuggestion ≤ 1 := by
  have hne : morningFocusSuggestion ≠ fallbackSuggestion := by decide
  obtain ⟨h1, h2, h3, h4⟩ := morningFocusSuggestion_not_mem_others gh a logs
  refine ⟨?_, ?_, ?_⟩
  · rw [mem_generateSuggestions gh a logs hl _ hne]
    simp only [List.mem_append, h1, h2, h3, h4, or_false, false_or]
    rw [morningFocusBlock_nil]
    split_ifs with hc
    · simp [hc]
    · simp [hc]
  · constructor
    · rintro ⟨ht, hs⟩
      refine ⟨ht, ?_⟩
      have := (share_gt_half_iff _ _ ht).1 hs
      linarith
    · rintro ⟨ht, hs⟩
      refine ⟨ht, (share_gt_half_iff _ _ ht).2 ?_⟩
      linarith
  · rw [count_generateSuggestions gh a logs hl _ hne]
    simp only [List.count_append, List.count_eq_zero_of_not_mem h1,
      List.count_eq_zero_of_not_mem h2, List.count_eq_zero_of_not_mem h3,
      List.count_eq_zero_of_not_mem h4, Nat.zero_add, Nat.add_zero]
    rw [morningFocusBlock_nil]
    split_ifs <;> simp

/-- C14 at a concrete input: morning weight 12, evening weight 5, and a row at
hour 3 that no bucket counts. -/
theorem morning_focus_emitted_iff_witness :
    mayLogs ≠ [] ∧
      (morningFocusSuggestion ∈ generateSuggestions utcHour (some morningReport) (some mayLogs) ↔
        0 < morningWeight morningReport.timeAnalysis +
            afternoonWeight morningReport.timeAnalysis +
            eveningWeight morningReport.timeAnalysis ∧
          50 < morningWeight morningReport.timeAnalysis /
            (morningWeight morningReport.timeAnalysis +
              afternoonWeight morningReport.timeAnalysis +
              eveningWeight morningReport.timeAnalysis) * 100) ∧
      morningFocusSuggestion ∈ generateSuggestions utcHour (some morningReport) (some mayLogs) :=
  ⟨by decide, (morning_focus_emitted_iff utcHour morningReport mayLogs (by decide)).1,
    by decide!⟩


theorem focusedWeight_drop_early (b : Int → Bool) (hb : ∀ h, b h = true → 6 ≤ h)
    (ta : List TimeSlotEmotionStat) :
    focusedWeight (ta.filter (fun r => !isEarlyFocused r)) b = focusedWeight ta b := by
  unfold focusedWeight
  rw [List.filter_filter]
  congr 2
  apply List.filter_congr
  intro r _
  rw [Bool.eq_iff_iff]
  simp only [Bool.and_eq_true, decide_eq_true_eq, Bool.not_eq_true', isEarlyFocused,
    decide_eq_false_iff_not]
  constructor
  · rintro ⟨h, _⟩; exact h
  · rintro ⟨h1, h2⟩
    refine ⟨⟨h1, h2⟩, ?_⟩
    rintro ⟨_, _, h5⟩
    have := hb _ h2
    omega

theorem focusedWeight_congr_early (b : Int → Bool) (hb : ∀ h, b h = true → 6 ≤ h)
    (ta ta' : List TimeSlotEmotionStat)
    (h : ta'.filter (fun r => !isEarlyFocused r) = ta.filter (fun r => !isEarlyFocused r)) :
    focusedWeight ta' b = focusedWeight ta b := by
  rw [← focusedWeight_drop_early b hb ta', ← focusedWeight_drop_early b hb ta, h]

/-- C15. The three buckets of the focus rule start at hour 6 and the evening
bucket is hour 18 and later: when two `timeAnalysis` sequences differ only in
`Focused` rows with hour 0 to 5 (rows added, removed or changed), the three
weighted scores are the same, the morning-focus block pushes the same, and the
generator returns the same suggestions. -/
theorem early_focus_rows_ignored (gh : Int → Int) (a : AnalyticsReport)
    (timeAnalysis' : List TimeSlotEmotionStat) (logs : Option (List StudyLog))
    (h : timeAnalysis'.filter (fun r => !isEarlyFocused r) =
      a.timeAnalysis.filter (fun r => !isEarlyFocused r)) :
    (morningWeight timeAnalysis' = morningWeight a.timeAnalysis ∧
        afternoonWeight timeAnalysis' = afternoonWeight a.timeAnalysis ∧
        eveningWeight timeAnalysis' = eveningWeight a.timeAnalysis) ∧
      (∀ l, morningFocusBlock { a with timeAnalysis := timeAnalysis' } l =
        morningFocusBlock a l) ∧
      generateSuggestions gh (some { a with timeAnalysis := timeAnalysis' }) logs =
        generateSuggestions gh (some a) logs := by
  have hm : morningWeight timeAnalysis' = morningWeight a.timeAnalysis :=
    focusedWeight_congr_early _ (fun h hh => by simp at hh; omega) _ _ h
  have ha : afternoonWeight timeAnalysis' = afternoonWeight a.timeAnalysis :=
    focusedWeight_congr_early _ (fun h hh => by simp at hh; omega) _ _ h
  have he : eveningWeight timeAnalysis' = eveningWeight a.timeAnalysis :=
    focusedWeight_congr_early _ (fun h hh => by simp at hh; omega) _ _ h
  have hblock : morningFocusBlock { a with timeAnalysis := timeAnalysis' } [] =
      morningFocusBlock a [] := by
    rw [morningFocusBlock_nil, morningFocusBlock_nil]
    simp only [hm, ha, he]
  refine ⟨⟨hm, ha, he⟩, ?_, ?_⟩
  · intro l
    rw [morningFocusBlock_append, morningFocusBlock_append a l, hblock]
  · cases logs with
    | none => rfl
    | some ls =>
      by_cases hl : ls = []
      · subst hl
        rfl
      · rw [generateSuggestions_eq gh _ ls hl, generateSuggestions_eq gh a ls hl, hblock]
        rfl

/-- C15 at a concrete input: dropping the hour-3 row of the morning report
changes nothing. -/
theorem early_focus_rows_ignored_witness :
    ([⟨8, "Focused", 6, 2⟩, ⟨20, "Focused", 5, 1⟩] : List TimeSlotEmotionStat).filter
        (fun r => !isEarlyFocused r) =
      morningReport.timeAnalysis.filter (fun r => !isEarlyFocused r) ∧
    generateSuggestions utcHour
        (some { morningReport with
          timeAnalysis := [⟨8, "Focused", 6, 2⟩, ⟨20, "Focused", 5, 1⟩] }) (some mayLogs) =
      generateSuggestions utcHour (some morningReport) (some mayLogs) :=
  ⟨by decide, (early_focus_rows_ignored utcHour morningReport
    [⟨8, "Focused", 6, 2⟩, ⟨20, "Focused", 5, 1⟩] (some mayLogs) (by decide)).2.2⟩

/-! ## The late-night rule (C16) -/

/-- C16. For a non-empty log list the late-night warning is among the
suggestions exactly when some log has its hour at 23 or later or before 2, and
the logs among those with a `Tired` reading above 5 are strictly more than half
of them. The warning occurs at most once. -/
theorem late_night_warning_iff (gh : Int → Int) (a : AnalyticsReport) (logs : List StudyLog)
    (hl : logs ≠ []) :
    (lateNightWarning ∈ generateSuggestions gh (some a) (some logs) ↔
        lateNightLogs gh logs ≠ [] ∧
          (lateNightLogs gh logs).length <
            2 * ((lateNightLogs gh logs).filter (fun l => hasTiredReading l)).length) ∧
      (generateSuggestions gh (some a) (some logs)).count lateNightWarning ≤ 1 := by
  have hne : lateNightWarning ≠ fallbackSuggestion := by decide
  obtain ⟨h1, h2, h3, h4⟩ := lateNightWarning_not_mem_others a
  refine ⟨?_, ?_⟩
  · rw [mem_generateSuggestions gh a logs hl _ hne]
    simp only [List.mem_append, h1, h2, h3, h4, or_false, false_or]
    rw [lateNightBlock_nil]
    split_ifs with hc
    · simp [hc]
    · simp only [List.not_mem_nil, false_iff]
      exact hc
  · rw [count_generateSuggestions gh a logs hl _ hne]
    simp only [List.count_append, List.count_eq_zero_of_not_mem h1,
      List.count_eq_zero_of_not_mem h2, List.count_eq_zero_of_not_mem h3,
      List.count_eq_zero_of_not_mem h4, Nat.zero_add, Nat.add_zero]
    rw [lateNightBlock_nil]
    split_ifs <;> simp

/-- C16 at a concrete input: three logs between 23:00 and 02:00, two of them
tired, and a tired log at noon. -/
theorem late_night_warning_iff_witness :
    nightLogs ≠ [] ∧
      (lateNightLogs utcHour nightLogs).length = 3 ∧
      ((lateNightLogs utcHour nightLogs).filter (fun l => hasTiredReading l)).length = 2 ∧
      lateNightWarning ∈ generateSuggestions utcHour (some morningReport) (some nightLogs) :=
  ⟨by decide, by decide, by decide!,
    ((late_night_warning_iff utcHour morningReport nightLogs (by decide)).1).2
      ⟨by decide, by decide!⟩⟩


/-! ## The emotional-balance rule (C17) -/

theorem stressWarning_fourth (subject : String) (pct : JsNumber) :
    ((stressWarning subject pct).message.data.drop 3).head? = some ' ' := rfl

theorem balanceWarning_fourth (x : ℚ) :
    ((balanceWarning x).message.data.drop 3).head? = some 'r' := rfl

theorem balanceSuccess_not_mem_others (gh : Int → Int) (a : AnalyticsReport)
    (logs : List StudyLog) (x : ℚ) :
    balanceSuccess x ≠ fallbackSuggestion ∧
      balanceSuccess x ∉ stressBlock a [] ∧
      balanceSuccess x ∉ morningFocusBlock a [] ∧
      balanceSuccess x ∉ lateNightBlock gh logs [] ∧
      balanceSuccess x ∉ boredomBlock a [] := by
  refine ⟨?_, ?_, ?_, ?_, ?_⟩
  · intro e
    have := congrArg Suggestion.type e
    simp only [balanceSuccess_type] at this
    revert this
    decide
  · intro h
    obtain ⟨subject, pct, e⟩ := mem_stressBlock a _ h
    have := congrArg Suggestion.type e
    simp only [balanceSuccess_type, stressWarning_type] at this
    revert this
    decide
  · intro h
    have e := mem_morningFocusBlock a _ h
    have := congrArg (fun s => s.message.data.head?) e
    simp only [balanceSuccess_head] at this
    revert this
    decide
  · intro h
    have e := mem_lateNightBlock gh logs _ h
    have := congrArg Suggestion.type e
    simp only [balanceSuccess_type] at this
    revert this
    decide
  · intro h
    obtain ⟨subjects, e⟩ := mem_boredomBlock a _ h
    have := congrArg Suggestion.type e
    simp only [balanceSuccess_type, boredomSuggestion_type] at this
    revert this
    decide

theorem balanceWarning_not_mem_others (gh : Int → Int) (a : AnalyticsReport)
    (logs : List StudyLog) (y : ℚ) :
    balanceWarning y ≠ fallbackSuggestion ∧
      balanceWarning y ∉ stressBlock a [] ∧
      balanceWarning y ∉ morningFocusBlock a [] ∧
      balanceWarning y ∉ lateNightBlock gh logs [] ∧
      balanceWarning y ∉ boredomBlock a [] := by
  refine ⟨?_, ?_, ?_, ?_, ?_⟩
  · intro e
    have := congrArg Suggestion.type e
    simp only [balanceWarning_type] at this
    revert this
    decide
  · intro h
    obtain ⟨subject, pct, e⟩ := mem_stressBlock a _ h
    have := congrArg (fun s => (s.message.data.drop 3).head?) e
    simp only [balanceWarning_fourth, stressWarning_fourth] at this
    revert this
    decide
  · intro h
    have e := mem_morningFocusBlock a _ h
    have := congrArg Suggestion.type e
    simp only [balanceWarning_type] at this
    revert this
    decide
  · intro h
    have e := mem_lateNightBlock gh logs _ h
    have := congrArg (fun s => s.message.data.head?) e
    simp only [balanceWarning_head] at this
    revert this
    decide
  · intro h
    obtain ⟨subjects, e⟩ := mem_boredomBlock a _ h
    have := congrArg Suggestion.type e
    simp only [balanceWarning_type, boredomSuggestion_type] at this
    revert this
    decide

theorem balanceSuccess_ne_balanceWarning (x y : ℚ) : balanceSuccess x ≠ balanceWarning y := by
  intro e
  have := congrArg Suggestion.type e
  simp only [balanceSuccess_type, balanceWarning_type] at this
  revert this
  decide

theorem mem_generate_balanceSuccess (gh : Int → Int) (a : AnalyticsReport)
    (logs : List StudyLog) (hl : logs ≠ []) (x : ℚ) :
    balanceSuccess x ∈ generateSuggestions gh (some a) (some logs) ↔
      balanceSuccess x ∈ balanceBlock a [] := by
  obtain ⟨h0, h1, h2, h3, h4⟩ := balanceSuccess_not_mem_others gh a logs x
  rw [mem_generateSuggestions gh a logs hl _ h0]
  simp only [List.mem_append, h1, h2, h3, h4, or_false, false_or]

theorem mem_generate_balanceWarning (gh : Int → Int) (a : AnalyticsReport)
    (logs : List StudyLog) (hl : logs ≠ []) (y : ℚ) :
    balanceWarning y ∈ generateSuggestions gh (some a) (some logs) ↔
      balanceWarning y ∈ balanceBlock a [] := by
  obtain ⟨h0, h1, h2, h3, h4⟩ := balanceWarning_not_mem_others gh a logs y
  rw [mem_generateSuggestions gh a logs hl _ h0]
  simp only [List.mem_append, h1, h2, h3, h4, or_false, false_or]

/-- C17. For a report with `totalSessions > 0` and a non-empty log list, the
success suggestion of the balance rule, carrying the positive-average, is among
the suggestions exactly when the positive-average exceeds 6; the warning,
carrying the negative-average, exactly when the positive-average does not
exceed 6 and the negative-average exceeds 5; no result holds both a balance
success and a balance warning; so when both averages are above their bounds
only the success is there. -/
theorem balance_rule_exclusive (gh : Int → Int) (a : AnalyticsReport) (logs : List StudyLog)
    (hl : logs ≠ []) (ht : 0 < a.totalSessions) :
    (balanceSuccess (positiveAverage a) ∈ generateSuggestions gh (some a) (some logs) ↔
        6 < positiveAverage a) ∧
      (balanceWarning (negativeAverage a) ∈ generateSuggestions gh (some a) (some logs) ↔
        ¬ 6 < positiveAverage a ∧ 5 < negativeAverage a) ∧
      (∀ x y, ¬ (balanceSuccess x ∈ generateSuggestions gh (some a) (some logs) ∧
        balanceWarning y ∈ generateSuggestions gh (some a) (some logs))) ∧
      (6 < positiveAverage a → 5 < negativeAverage a →
        balanceSuccess (positiveAverage a) ∈ generateSuggestions gh (some a) (some logs) ∧
        ∀ y, balanceWarning y ∉ generateSuggestions gh (some a) (some logs)) := by
  have hblock := balanceBlock_nil a
  simp only [ht, if_true] at hblock
  have hboth : ∀ x y, ¬ (balanceSuccess x ∈ generateSuggestions gh (some a) (some logs) ∧
      balanceWarning y ∈ generateSuggestions gh (some a) (some logs)) := by
    intro x y
    rw [mem_generate_balanceSuccess gh a logs hl, mem_generate_balanceWarning gh a logs hl,
      hblock]
    split_ifs
    · rintro ⟨_, h2⟩
      exact balanceSuccess_ne_balanceWarning _ _ (List.mem_singleton.1 h2).symm
    · rintro ⟨h1, _⟩
      exact balanceSuccess_ne_balanceWarning _ _ (List.mem_singleton.1 h1)
    · rintro ⟨h1, _⟩
      simp at h1
  have hsucc : balanceSuccess (positiveAverage a) ∈
      generateSuggestions gh (some a) (some logs) ↔ 6 < positiveAverage a := by
    rw [mem_generate_balanceSuccess gh a logs hl, hblock]
    split_ifs with h1 h2
    · simp [h1]
    · simp only [h1, iff_false, List.mem_singleton]
      exact balanceSuccess_ne_balanceWarning _ _
    · simp [h1]
  refine ⟨hsucc, ?_, hboth, ?_⟩
  · rw [mem_generate_balanceWarning gh a logs hl, hblock]
    split_ifs with h1 h2
    · simp only [h1, not_true_eq_false, false_and, iff_false, List.mem_singleton]
      exact fun e => balanceSuccess_ne_balanceWarning _ _ e.symm
    · simp [h1, h2]
    · simp [h1, h2]
  · intro h1 _
    have hs := hsucc.2 h1
    exact ⟨hs, fun y hy => hboth _ y ⟨hs, hy⟩⟩

/-- C17 at a concrete input: positive-average 6.5 and negative-average 5.5; the
result is the success suggestion alone. -/
theorem balance_rule_exclusive_witness :
    (mayLogs ≠ [] ∧ 0 < balancedReport.totalSessions) ∧
      positiveAverage balancedReport = 13 / 2 ∧ negativeAverage balancedReport = 11 / 2 ∧
      generateSuggestions utcHour (some balancedReport) (some mayLogs) =
        [balanceSuccess (13 / 2)] ∧
      (balanceSuccess (13 / 2)).message =
        "Great emotional balance! Your average positive emotion score is 6.5/10. Keep up the good work!" ∧
      (balanceSuccess (positiveAverage balancedReport) ∈
          generateSuggestions utcHour (some balancedReport) (some mayLogs) ∧
        ∀ y, balanceWarning y ∉ generateSuggestions utcHour (some balancedReport) (some mayLogs)) :=
  ⟨by decide, by decide!, by decide!, by decide!, by decide!,
    (balance_rule_exclusive utcHour balancedReport mayLogs (by decide) (by decide)).2.2.2
      (by decide!) (by decide!)⟩


/-! ## The boredom rule, the default suggestion and the order (C18 to C20) -/

theorem boredSubjects_ne_nil_iff (se : List SubjectEmotionStat) :
    boredSubjects se ≠ [] ↔ ∃ r ∈ se, r.emotion = "Bored" ∧ 5 < r.avgScore := by
  unfold boredSubjects
  rw [ne_eq, List.map_eq_nil_iff, List.filter_eq_nil_iff]
  simp

theorem boredomSuggestion_ne_fallback (subjects : List String) :
    boredomSuggestion subjects ≠ fallbackSuggestion := by
  intro e
  have := congrArg (fun s => s.message.data.head?) e
  simp only [boredomSuggestion_head] at this
  revert this
  decide

theorem filter_info_blocks (gh : Int → Int) (a : AnalyticsReport) (logs : List StudyLog) :
    (stressBlock a [] ++ morningFocusBlock a [] ++ lateNightBlock gh logs [] ++
        balanceBlock a [] ++ boredomBlock a []).filter
      (fun s => decide (s.type = "info" ∧ s ≠ fallbackSuggestion)) = boredomBlock a [] := by
  have h1 : (stressBlock a []).filter
      (fun s => decide (s.type = "info" ∧ s ≠ fallbackSuggestion)) = [] := by
    rw [List.filter_eq_nil_iff]
    intro s hs
    obtain ⟨subject, pct, rfl⟩ := mem_stressBlock a s hs
    simp only [stressWarning_type, decide_eq_true_eq, not_and]
    intro h
    exact absurd h (by decide)
  have h2 : (morningFocusBlock a []).filter
      (fun s => decide (s.type = "info" ∧ s ≠ fallbackSuggestion)) = [] := by
    rw [List.filter_eq_nil_iff]
    intro s hs
    rw [mem_morningFocusBlock a s hs]
    decide
  have h3 : (lateNightBlock gh logs []).filter
      (fun s => decide (s.type = "info" ∧ s ≠ fallbackSuggestion)) = [] := by
    rw [List.filter_eq_nil_iff]
    intro s hs
    rw [mem_lateNightBlock gh logs s hs]
    decide
  have h4 : (balanceBlock a []).filter
      (fun s => decide (s.type = "info" ∧ s ≠ fallbackSuggestion)) = [] := by
    rw [List.filter_eq_nil_iff]
    intro s hs
    obtain ⟨x, rfl | rfl⟩ := mem_balanceBlock a s hs
    · simp only [balanceSuccess_type, decide_eq_true_eq, not_and]
      intro h
      exact absurd h (by decide)
    · simp only [balanceWarning_type, decide_eq_true_eq, not_and]
      intro h
      exact absurd h (by decide)
  have h5 : (boredomBlock a []).filter
      (fun s => decide (s.type = "info" ∧ s ≠ fallbackSuggestion)) = boredomBlock a [] := by
    rw [List.filter_eq_self]
    intro s hs
    obtain ⟨subjects, rfl⟩ := mem_boredomBlock a s hs
    simp only [decide_eq_true_eq]
    exact ⟨rfl, boredomSuggestion_ne_fallback subjects⟩
  simp only [List.filter_append, h1, h2, h3, h4, h5, List.nil_append]

/-- C18. The boredom block pushes exactly one `info` suggestion when some row has
emotion `Bored` and `avgScore` above 5, and nothing otherwise; the message lists
the subjects of all such rows in row order, joined by a comma and a blank. In
the suggestions for a non-empty log list it is the only `info` suggestion apart
from the default one. -/
theorem boredom_rule_output (gh : Int → Int) (a : AnalyticsReport) (logs : List StudyLog)
    (hl : logs ≠ []) :
    (∀ l : List Suggestion, boredomBlock a l =
        if ∃ r ∈ a.subjectEmotions, r.emotion = "Bored" ∧ 5 < r.avgScore then
          l ++ [{ type := "info"
                  message := "You seem bored with " ++
                    String.intercalate ", "
                      ((a.subjectEmotions.filter
                        (fun r => r.emotion = "Bored" ∧ 5 < r.avgScore)).map
                          (fun r => r.subject)) ++
                    ". Try new study methods or break down topics into smaller, engaging tasks." }]
        else l) ∧
      (generateSuggestions gh (some a) (some logs)).filter
          (fun s => decide (s.type = "info" ∧ s ≠ fallbackSuggestion)) =
        if ∃ r ∈ a.subjectEmotions, r.emotion = "Bored" ∧ 5 < r.avgScore then
          [boredomSuggestion (boredSubjects a.subjectEmotions)]
        else [] := by
  have hnil : boredomBlock a [] =
      if ∃ r ∈ a.subjectEmotions, r.emotion = "Bored" ∧ 5 < r.avgScore then
        [boredomSuggestion (boredSubjects a.subjectEmotions)]
      else [] := by
    rw [boredomBlock_nil]
    exact if_congr (boredSubjects_ne_nil_iff _) rfl rfl
  constructor
  · intro l
    rw [boredomBlock_append, hnil]
    split_ifs
    · rfl
    · simp
  · rw [generateSuggestions_eq gh a logs hl]
    split_ifs with hb hc hc
    · exfalso
      have : boredomBlock a [] = [] := by
        simp only [List.append_eq_nil] at hb
        exact hb.2
      rw [hnil, if_pos hc] at this
      simp at this
    · decide
    · rw [filter_info_blocks, hnil, if_pos hc]
    · rw [filter_info_blocks, hnil, if_neg hc]

/-- C18 at a concrete input: `Bored` rows for Art (6), Math (5) and Physics (7)
give the message listing Art and Physics. -/
theorem boredom_rule_output_witness :
    mayLogs ≠ [] ∧
      generateSuggestions utcHour (some boredReport) (some mayLogs) =
        [{ type := "info"
           message := "You seem bored with Art, Physics. Try new study methods or break down topics into smaller, engaging tasks." }] ∧
      (generateSuggestions utcHour (some boredReport) (some mayLogs)).filter
          (fun s => decide (s.type = "info" ∧ s ≠ fallbackSuggestion)) =
        if ∃ r ∈ boredReport.subjectEmotions, r.emotion = "Bored" ∧ 5 < r.avgScore then
          [boredomSuggestion (boredSubjects boredReport.subjectEmotions)]
        else [] :=
  ⟨by decide, by decide!, (boredom_rule_output utcHour boredReport mayLogs (by decide)).2⟩

/-- C19. For a non-empty log list the default suggestion is among the
suggestions exactly when none of the five rules pushed anything: no stress
warning, the morning-focus condition false, the late-night condition false,
neither balance bound exceeded (or no sessions counted), and no bored subject.
When it is there, it is the whole result. -/
theorem fallback_iff_no_rule_fired (gh : Int → Int) (a : AnalyticsReport)
    (logs : List StudyLog) (hl : logs ≠ []) :
    (fallbackSuggestion ∈ generateSuggestions gh (some a) (some logs) ↔
        stressBlock a [] = [] ∧
        ¬ (0 < morningWeight a.timeAnalysis + afternoonWeight a.timeAnalysis +
              eveningWeight a.timeAnalysis ∧
            50 < morningWeight a.timeAnalysis /
              (morningWeight a.timeAnalysis + afternoonWeight a.timeAnalysis +
                eveningWeight a.timeAnalysis) * 100) ∧
        ¬ (lateNightLogs gh logs ≠ [] ∧
            (lateNightLogs gh logs).length <
              2 * ((lateNightLogs gh logs).filter (fun l => hasTiredReading l)).length) ∧
        ¬ (0 < a.totalSessions ∧ (6 < positiveAverage a ∨ 5 < negativeAverage a)) ∧
        ¬ (∃ r ∈ a.subjectEmotions, r.emotion = "Bored" ∧ 5 < r.avgScore)) ∧
      (fallbackSuggestion ∈ generateSuggestions gh (some a) (some logs) →
        generateSuggestions gh (some a) (some logs) = [fallbackSuggestion]) := by
  have hm : morningFocusBlock a [] = [] ↔
      ¬ (0 < morningWeight a.timeAnalysis + afternoonWeight a.timeAnalysis +
            eveningWeight a.timeAnalysis ∧
          50 < morningWeight a.timeAnalysis /
            (morningWeight a.timeAnalysis + afternoonWeight a.timeAnalysis +
              eveningWeight a.timeAnalysis) * 100) := by
    rw [morningFocusBlock_nil]
    split_ifs with h <;> simp [h]
  have hn : lateNightBlock gh logs [] = [] ↔
      ¬ (lateNightLogs gh logs ≠ [] ∧
          (lateNightLogs gh logs).length <
            2 * ((lateNightLogs gh logs).filter (fun l => hasTiredReading l)).length) := by
    rw [lateNightBlock_nil]
    split_ifs with h
    · simp only [List.cons_ne_nil, false_iff, not_not]; exact h
    · simp only [true_iff]; exact h
  have hb : balanceBlock a [] = [] ↔
      ¬ (0 < a.totalSessions ∧ (6 < positiveAverage a ∨ 5 < negativeAverage a)) := by
    rw [balanceBlock_nil]
    split_ifs <;> simp_all
  have hd : boredomBlock a [] = [] ↔
      ¬ (∃ r ∈ a.subjectEmotions, r.emotion = "Bored" ∧ 5 < r.avgScore) := by
    rw [boredomBlock_nil, ← boredSubjects_ne_nil_iff]
    split_ifs with h <;> simp [h]
  rw [← hm, ← hn, ← hb, ← hd, generateSuggestions_eq gh a logs hl]
  split_ifs with h
  · refine ⟨?_, fun _ => rfl⟩
    simp only [List.mem_singleton, true_iff]
    simpa [List.append_eq_nil, and_assoc] using h
  · have hnot := fallbackSuggestion_not_mem_blocks gh a logs
    refine ⟨?_, fun hmem => absurd hmem hnot⟩
    constructor
    · intro hmem
      exact absurd hmem hnot
    · rintro ⟨h1, h2, h3, h4, h5⟩
      exfalso
      apply h
      simp [h1, h2, h3, h4, h5]

/-- C19 at a concrete input: a report with no rows, so that no rule pushes
anything. -/
theorem fallback_iff_no_rule_fired_witness :
    mayLogs ≠ [] ∧
      fallbackSuggestion ∈ generateSuggestions utcHour (some (sampleReport 4 [] [])) (some mayLogs) ∧
      generateSuggestions utcHour (some (sampleReport 4 [] [])) (some mayLogs) =
        [fallbackSuggestion] :=
  ⟨by decide, by decide!,
    (fallback_iff_no_rule_fired utcHour (sampleReport 4 [] []) mayLogs (by decide)).2
      (by decide!)⟩


/-- C20. With the analytics present and a non-empty log list, the result is the
concatenation, in the order of evaluation, of what the rules push: the stress
warnings, the morning-focus success, the late-night warning, the balance success
or warning, the boredom info; nothing is dropped or reordered, and the default
suggestion stands alone when that concatenation is empty. Every other input
yields the no-data suggestion alone. The five logs of `busyLogs` give warning,
success, warning, success, info in that order. -/
theorem suggestions_in_rule_order :
    (∀ (gh : Int → Int) (a : AnalyticsReport) (logs : List StudyLog), logs ≠ [] →
      (∀ s ∈ stressBlock a [], ∃ subject pct, s = stressWarning subject pct) ∧
      generateSuggestions gh (some a) (some logs) =
        if stressBlock a [] ++
            (if 0 < morningWeight a.timeAnalysis + afternoonWeight a.timeAnalysis +
                  eveningWeight a.timeAnalysis ∧
                50 < morningWeight a.timeAnalysis /
                  (morningWeight a.timeAnalysis + afternoonWeight a.timeAnalysis +
                    eveningWeight a.timeAnalysis) * 100
              then [morningFocusSuggestion] else []) ++
            (if lateNightLogs gh logs ≠ [] ∧
                (lateNightLogs gh logs).length <
                  2 * ((lateNightLogs gh logs).filter (fun l => hasTiredReading l)).length
              then [lateNightWarning] else []) ++
            (if 0 < a.totalSessions then
                if 6 < positiveAverage a then [balanceSuccess (positiveAverage a)]
                else if 5 < negativeAverage a then [balanceWarning (negativeAverage a)]
                else []
              else []) ++
            (if boredSubjects a.subjectEmotions ≠ [] then
                [boredomSuggestion (boredSubjects a.subjectEmotions)]
              else []) = []
        then [fallbackSuggestion]
        else stressBlock a [] ++
            (if 0 < morningWeight a.timeAnalysis + afternoonWeight a.timeAnalysis +
                  eveningWeight a.timeAnalysis ∧
                50 < morningWeight a.timeAnalysis /
                  (morningWeight a.timeAnalysis + afternoonWeight a.timeAnalysis +
                    eveningWeight a.timeAnalysis) * 100
              then [morningFocusSuggestion] else []) ++
            (if lateNightLogs gh logs ≠ [] ∧
                (lateNightLogs gh logs).length <
                  2 * ((lateNightLogs gh logs).filter (fun l => hasTiredReading l)).length
              then [lateNightWarning] else []) ++
            (if 0 < a.totalSessions then
                if 6 < positiveAverage a then [balanceSuccess (positiveAverage a)]
                else if 5 < negativeAverage a then [balanceWarning (negativeAverage a)]
                else []
              else []) ++
            (if boredSubjects a.subjectEmotions ≠ [] then
                [boredomSuggestion (boredSubjects a.subjectEmotions)]
              else [])) ∧
      (∀ (gh : Int → Int) (analytics : Option AnalyticsReport) (logs : Option (List StudyLog)),
        analytics = none ∨ logs = none ∨ logs = some [] →
          generateSuggestions gh analytics logs = [noDataSuggestion]) ∧
      suggestionsFor busyLogs 1 (utcInstant may10 23 45) =
        [stressWarning "Math" (JsNumber.finite 100), morningFocusSuggestion, lateNightWarning,
         balanceSuccess (63 / 5), boredomSuggestion ["Art"]] ∧
      (suggestionsFor busyLogs 1 (utcInstant may10 23 45)).map (fun s => s.type) =
        ["warning", "success", "warning", "success", "info"] := by
  refine ⟨?_, ?_, by decide!, by decide!⟩
  · intro gh a logs hl
    refine ⟨fun s hs => mem_stressBlock a s hs, ?_⟩
    rw [generateSuggestions_eq gh a logs hl, morningFocusBlock_nil, lateNightBlock_nil,
      balanceBlock_nil, boredomBlock_nil]
  · intro gh analytics logs h
    rcases h with h | h | h
    · subst h
      rfl
    · subst h
      cases analytics <;> rfl
    · subst h
      cases analytics <;> rfl

/-- C20 at a concrete input: the report and logs of `busyLogs`. -/
theorem suggestions_in_rule_order_witness :
    listStudyLogs busyLogs 1 ≠ [] ∧
      (∀ s ∈ stressBlock (sampleReport 5 (subjectEmotionsAggregation busyLogs 1)
          (timeAnalysisAggregation busyLogs 1)) [],
        ∃ subject pct, s = stressWarning subject pct) :=
  ⟨by decide,
    (suggestions_in_rule_order.1 utcHour
      (sampleReport 5 (subjectEmotionsAggregation busyLogs 1)
        (timeAnalysisAggregation busyLogs 1))
      (listStudyLogs busyLogs 1) (by decide)).1⟩


/-! ## The stress rule on subjects that are not inherited property names -/

section TallyLemmas

theorem putOwn_keys (k : String) (v : JsValue) (o : JsObject) :
    (putOwn k v o).map Prod.fst =
      if k ∈ o.map Prod.fst then o.map Prod.fst else o.map Prod.fst ++ [k] := by
  induction o with
  | nil => simp [putOwn]
  | cons p ps ih =>
    by_cases h : p.1 = k
    · simp [putOwn, h]
    · have h' : ¬ k = p.1 := fun e => h e.symm
      by_cases hk : k ∈ ps.map Prod.fst
      · simp only [putOwn, h, if_false, List.map_cons, ih, hk, if_true, List.mem_cons, or_true]
      · simp only [putOwn, h, if_false, List.map_cons, ih, hk, List.mem_cons, h', or_self,
          List.cons_append]

theorem putOwn_lookup (k : String) (v : JsValue) (o : JsObject) (k' : String) :
    (putOwn k v o).lookup k' = if k' = k then some v else o.lookup k' := by
  induction o with
  | nil =>
    by_cases h : k' = k
    · simp [putOwn, List.lookup, h]
    · have hb : (k' == k) = false := by simpa using h
      simp [putOwn, List.lookup, h, hb]
  | cons p ps ih =>
    obtain ⟨pk, pv⟩ := p
    by_cases h : pk = k
    · subst h
      by_cases h2 : k' = pk
      · simp [putOwn, List.lookup, h2]
      · have hb : (k' == pk) = false := by simpa using h2
        simp [putOwn, List.lookup, h2, hb]
    · by_cases h2 : k' = pk
      · subst h2
        simp [putOwn, List.lookup, h]
      · have hb : (k' == pk) = false := by simpa using h2
        simp only [putOwn, h, if_false, List.lookup, ih, hb]

theorem lookup_eq_none_of_not_mem (o : JsObject) (k : String) (h : k ∉ o.map Prod.fst) :
    o.lookup k = none := by
  induction o with
  | nil => rfl
  | cons p ps ih =>
    obtain ⟨pk, pv⟩ := p
    simp only [List.map_cons, List.mem_cons, not_or] at h
    have : (k == pk) = false := by simpa using h.1
    simp [List.lookup, this, ih h.2]

theorem stressedCount_le_totalCount (se : List SubjectEmotionStat) (k : String) :
    stressedCount se k ≤ totalCount se k := by
  unfold stressedCount totalCount
  induction se with
  | nil => simp
  | cons r rs ih =>
    by_cases h1 : r.subject = k
    · by_cases h2 : r.emotion = "Stressed"
      · simp [List.filter_cons, h1, h2] at ih ⊢; omega
      · simp [List.filter_cons, h1, h2] at ih ⊢; omega
    · simp [List.filter_cons, h1] at ih ⊢; omega

theorem totalCount_append (se : List SubjectEmotionStat) (r : SubjectEmotionStat) (k : String) :
    totalCount (se ++ [r]) k = totalCount se k + (if r.subject = k then r.count else 0) := by
  unfold totalCount
  by_cases h : r.subject = k <;> simp [List.filter_append, List.filter_cons, h]

theorem stressedCount_append (se : List SubjectEmotionStat) (r : SubjectEmotionStat)
    (k : String) :
    stressedCount (se ++ [r]) k =
      stressedCount se k + (if r.subject = k ∧ r.emotion = "Stressed" then r.count else 0) := by
  unfold stressedCount
  by_cases h : r.subject = k ∧ r.emotion = "Stressed" <;>
    simp [List.filter_append, List.filter_cons, h]

theorem totalCount_eq_zero_of_unseen (se : List SubjectEmotionStat) (k : String)
    (h : ¬ ∃ r ∈ se, r.subject = k) : totalCount se k = 0 := by
  unfold totalCount
  have : se.filter (fun r => decide (r.subject = k)) = [] := by
    rw [List.filter_eq_nil_iff]
    intro r hr
    simp only [decide_eq_true_eq]
    exact fun e => h ⟨r, hr, e⟩
  rw [this]
  rfl

end TallyLemmas


section TallyInvLemmas

theorem setProp_of_own (o : JsObject) (s : String) (v : JsValue)
    (hs : s ∉ objectPrototypeKeys) : setProp o s v = putOwn s v o := by
  have hne : s ≠ "__proto__" := by
    intro e
    apply hs
    rw [e]
    decide
  simp [setProp, hne]

theorem getProp_of_own (o : JsObject) (s : String) (hs : s ∉ objectPrototypeKeys) :
    getProp o s = (o.lookup s).getD JsValue.undefined := by
  unfold getProp
  cases o.lookup s with
  | none => simp [hs]
  | some v => rfl

theorem tally_init {seen : List SubjectEmotionStat} {st : JsObject × JsObject}
    (h : TallyInv seen st) (s : String) (hs : s ∉ objectPrototypeKeys) :
    ((if (getProp st.1 s).falsy = true then
          (setProp st.1 s (JsValue.number 0), setProp st.2 s (JsValue.number 0))
        else st).1.map Prod.fst =
        if s ∈ st.1.map Prod.fst then st.1.map Prod.fst else st.1.map Prod.fst ++ [s]) ∧
      (if (getProp st.1 s).falsy = true then
          (setProp st.1 s (JsValue.number 0), setProp st.2 s (JsValue.number 0))
        else st).1.lookup s = some (JsValue.number (totalCount seen s)) ∧
      (if (getProp st.1 s).falsy = true then
          (setProp st.1 s (JsValue.number 0), setProp st.2 s (JsValue.number 0))
        else st).2.lookup s = some (JsValue.number (stressedCount seen s)) ∧
      (∀ k, k ≠ s →
        (if (getProp st.1 s).falsy = true then
            (setProp st.1 s (JsValue.number 0), setProp st.2 s (JsValue.number 0))
          else st).1.lookup k = st.1.lookup k ∧
        (if (getProp st.1 s).falsy = true then
            (setProp st.1 s (JsValue.number 0), setProp st.2 s (JsValue.number 0))
          else st).2.lookup k = st.2.lookup k) := by
  rw [getProp_of_own _ _ hs, setProp_of_own _ _ _ hs, setProp_of_own _ _ _ hs]
  by_cases hmem : s ∈ st.1.map Prod.fst
  · have ht := h.totals s hmem
    have hst := h.stressed s hmem
    rw [ht]
    by_cases hz : totalCount seen s = 0
    · have hsz : stressedCount seen s = 0 := by
        have := stressedCount_le_totalCount seen s
        omega
      simp only [Option.getD_some, JsValue.falsy, hz, decide_True, if_true, putOwn_keys, hmem,
        putOwn_lookup, hsz]
      refine ⟨trivial, trivial, trivial, ?_⟩
      intro k hk
      simp [hk]
    · simp only [Option.getD_some, JsValue.falsy, hz, decide_False, if_false, hmem, ht, hst,
        Bool.false_eq_true, if_true]
      simp
  · have hnone := lookup_eq_none_of_not_mem st.1 s hmem
    have hunseen : ¬ ∃ r ∈ seen, r.subject = s := fun hex => hmem ((h.keys s).2 hex)
    have hz : totalCount seen s = 0 := totalCount_eq_zero_of_unseen seen s hunseen
    have hsz : stressedCount seen s = 0 := by
      have := stressedCount_le_totalCount seen s
      omega
    rw [hnone]
    simp only [Option.getD_none, JsValue.falsy, if_true, putOwn_keys, hmem, if_false,
      putOwn_lookup, hz, hsz]
    refine ⟨trivial, trivial, trivial, ?_⟩
    intro k hk
    simp [hk]

theorem tally_update {seen : List SubjectEmotionStat} {st init : JsObject × JsObject}
    (h : TallyInv seen st) (item : SubjectEmotionStat)
    (hs : item.subject ∉ objectPrototypeKeys)
    (hkeys : init.1.map Prod.fst =
      if item.subject ∈ st.1.map Prod.fst then st.1.map Prod.fst
      else st.1.map Prod.fst ++ [item.subject])
    (ht : init.1.lookup item.subject = some (JsValue.number (totalCount seen item.subject)))
    (hst : init.2.lookup item.subject =
      some (JsValue.number (stressedCount seen item.subject)))
    (hother : ∀ k, k ≠ item.subject →
      init.1.lookup k = st.1.lookup k ∧ init.2.lookup k = st.2.lookup k) :
    TallyInv (seen ++ [item])
      (setProp init.1 item.subject ((getProp init.1 item.subject).plus item.count),
       if item.emotion = "Stressed" then
         setProp init.2 item.subject ((getProp init.2 item.subject).plus item.count)
       else init.2) := by
  have hmem1 : item.subject ∈ init.1.map Prod.fst := by
    rw [hkeys]
    split_ifs with hm
    · exact hm
    · simp
  have hk2 : (setProp init.1 item.subject
      ((getProp init.1 item.subject).plus item.count)).map Prod.fst =
      if item.subject ∈ st.1.map Prod.fst then st.1.map Prod.fst
      else st.1.map Prod.fst ++ [item.subject] := by
    rw [setProp_of_own _ _ _ hs, putOwn_keys, if_pos hmem1, hkeys]
  have hmemk : ∀ k, k ∈ (setProp init.1 item.subject
      ((getProp init.1 item.subject).plus item.count)).map Prod.fst ↔
      k ∈ st.1.map Prod.fst ∨ k = item.subject := by
    intro k
    rw [hk2]
    split_ifs with hm
    · constructor
      · exact Or.inl
      · rintro (h1 | h1)
        · exact h1
        · rw [h1]; exact hm
    · simp
  have hl1 : ∀ k, (setProp init.1 item.subject
      ((getProp init.1 item.subject).plus item.count)).lookup k =
      if k = item.subject then
        some (JsValue.number (totalCount seen item.subject + item.count))
      else st.1.lookup k := by
    intro k
    rw [setProp_of_own _ _ _ hs, putOwn_lookup, getProp_of_own _ _ hs, ht]
    split_ifs with hk
    · rfl
    · exact (hother k hk).1
  have hl2 : ∀ k, (if item.emotion = "Stressed" then
        setProp init.2 item.subject ((getProp init.2 item.subject).plus item.count)
      else init.2).lookup k =
      if k = item.subject then
        some (JsValue.number (stressedCount seen item.subject +
          (if item.emotion = "Stressed" then item.count else 0)))
      else st.2.lookup k := by
    intro k
    by_cases he : item.emotion = "Stressed"
    · simp only [he, if_true]
      rw [setProp_of_own _ _ _ hs, putOwn_lookup, getProp_of_own _ _ hs, hst]
      split_ifs with hk
      · rfl
      · exact (hother k hk).2
    · simp only [he, if_false, Nat.add_zero]
      split_ifs with hk
      · rw [hk]; exact hst
      · exact (hother k hk).2
  refine ⟨?_, ?_, ?_, ?_⟩
  · show ((setProp init.1 item.subject
      ((getProp init.1 item.subject).plus item.count)).map Prod.fst).Nodup
    rw [hk2]
    split_ifs with hm
    · exact h.nodup
    · exact List.Nodup.append h.nodup (List.nodup_singleton _) (by simpa using hm)
  · intro k
    show k ∈ (setProp init.1 item.subject
      ((getProp init.1 item.subject).plus item.count)).map Prod.fst ↔ _
    rw [hmemk, h.keys k]
    constructor
    · rintro (⟨r, hr, e⟩ | e)
      · exact ⟨r, List.mem_append_left _ hr, e⟩
      · exact ⟨item, by simp, e.symm⟩
    · rintro ⟨r, hr, e⟩
      rcases List.mem_append.1 hr with hr | hr
      · exact Or.inl ⟨r, hr, e⟩
      · simp only [List.mem_singleton] at hr
        subst hr
        exact Or.inr e.symm
  · intro k hk
    show (setProp init.1 item.subject
      ((getProp init.1 item.subject).plus item.count)).lookup k = _
    rw [hl1, totalCount_append]
    by_cases hks : k = item.subject
    · subst hks
      simp
    · have hks' : ¬ item.subject = k := fun e => hks e.symm
      simp only [hks, if_false, hks', Nat.add_zero]
      rcases (hmemk k).1 hk with h1 | h1
      · exact h.totals k h1
      · exact absurd h1 hks
  · intro k hk
    show (if item.emotion = "Stressed" then
        setProp init.2 item.subject ((getProp init.2 item.subject).plus item.count)
      else init.2).lookup k = _
    rw [hl2, stressedCount_append]
    by_cases hks : k = item.subject
    · subst hks
      by_cases he : item.emotion = "Stressed" <;> simp [he]
    · have hks' : ¬ item.subject = k := fun e => hks e.symm
      simp only [hks, if_false, hks', false_and, Nat.add_zero]
      rcases (hmemk k).1 hk with h1 | h1
      · exact h.stressed k h1
      · exact absurd h1 hks

theorem tallyInv_step {seen : List SubjectEmotionStat} {st : JsObject × JsObject}
    (h : TallyInv seen st) (item : SubjectEmotionStat)
    (hs : item.subject ∉ objectPrototypeKeys) :
    TallyInv (seen ++ [item]) (tallyStep st item) := by
  obtain ⟨hkeys, ht, hst, hother⟩ := tally_init h item.subject hs
  exact tally_update h item hs hkeys ht hst hother

theorem tallyInv_foldl (rest : List SubjectEmotionStat) :
    ∀ (seen : List SubjectEmotionStat) (st : JsObject × JsObject),
      (∀ r ∈ rest, r.subject ∉ objectPrototypeKeys) → TallyInv seen st →
        TallyInv (seen ++ rest) (rest.foldl tallyStep st) := by
  induction rest with
  | nil => intro seen st _ h; simpa using h
  | cons r rs ih =>
    intro seen st hp h
    have := ih (seen ++ [r]) (tallyStep st r)
      (fun x hx => hp x (List.mem_cons_of_mem _ hx))
      (tallyInv_step h r (hp r (List.mem_cons_self _ _)))
    simpa using this

theorem tally_inv (se : List SubjectEmotionStat)
    (hp : ∀ r ∈ se, r.subject ∉ objectPrototypeKeys) :
    TallyInv se (se.foldl tallyStep ([], [])) := by
  have h0 : TallyInv [] (([], []) : JsObject × JsObject) :=
    ⟨by simp, by simp, by simp, by simp⟩
  simpa using tallyInv_foldl se [] ([], []) hp h0

end TallyInvLemmas


section StressRuleLemmas

theorem objectKeys_perm (o : JsObject) : (objectKeys o).Perm (o.map Prod.fst) := by
  unfold objectKeys
  have h1 := List.perm_insertionSort
    (fun a b : String => (parseDigits a).getD 0 ≤ (parseDigits b).getD 0)
    ((o.map Prod.fst).filter isArrayIndex)
  exact (h1.append_right _).trans (List.filter_append_perm isArrayIndex (o.map Prod.fst))

/-- The stress rule when no subject is a property name inherited from
`Object.prototype`: the warnings are those of the distinct subjects, taken in
the order of `Object.keys`, whose stressed share, the sum of the counts of the
`Stressed` rows over the sum of the counts of all rows of the subject, times
100, exceeds 60; each warning names its subject and carries that share. -/
theorem stress_rule_for_own_names (a : AnalyticsReport)
    (hp : ∀ r ∈ a.subjectEmotions, r.subject ∉ objectPrototypeKeys) :
    ∃ subjects : List String, subjects.Nodup ∧
      (∀ s, s ∈ subjects ↔ ∃ r ∈ a.subjectEmotions, r.subject = s) ∧
      stressBlock a [] =
        (subjects.filter (fun s =>
          decide (60 < (stressedCount a.subjectEmotions s : ℚ) /
            (totalCount a.subjectEmotions s : ℚ) * 100))).map
          (fun s => stressWarning s (JsNumber.finite
            ((stressedCount a.subjectEmotions s : ℚ) /
              (totalCount a.subjectEmotions s : ℚ) * 100))) := by
  have inv := tally_inv a.subjectEmotions hp
  have hperm := objectKeys_perm (a.subjectEmotions.foldl tallyStep ([], [])).1
  have hmem : ∀ s, s ∈ objectKeys (a.subjectEmotions.foldl tallyStep ([], [])).1 ↔
      ∃ r ∈ a.subjectEmotions, r.subject = s := by
    intro s
    rw [hperm.mem_iff, inv.keys s]
  have hpct : ∀ s ∈ objectKeys (a.subjectEmotions.foldl tallyStep ([], [])).1,
      stressedPercentage (getProp (a.subjectEmotions.foldl tallyStep ([], [])).2 s)
          (getProp (a.subjectEmotions.foldl tallyStep ([], [])).1 s) =
        if totalCount a.subjectEmotions s = 0 then JsNumber.nan
        else JsNumber.finite ((stressedCount a.subjectEmotions s : ℚ) /
          (totalCount a.subjectEmotions s : ℚ) * 100) := by
    intro s hs
    have hk : s ∈ (a.subjectEmotions.foldl tallyStep ([], [])).1.map Prod.fst :=
      hperm.mem_iff.1 hs
    obtain ⟨r, hr, e⟩ := (hmem s).1 hs
    have hown : s ∉ objectPrototypeKeys := e ▸ hp r hr
    rw [getProp_of_own _ _ hown, getProp_of_own _ _ hown, inv.totals s hk, inv.stressed s hk]
    simp only [Option.getD_some, stressedPercentage]
    by_cases hz : totalCount a.subjectEmotions s = 0
    · have hsz : stressedCount a.subjectEmotions s = 0 := by
        have := stressedCount_le_totalCount a.subjectEmotions s
        omega
      simp [hz, hsz]
    · simp [hz]
  refine ⟨objectKeys (a.subjectEmotions.foldl tallyStep ([], [])).1,
    hperm.nodup_iff.2 inv.nodup, hmem, ?_⟩
  rw [stressBlock_eq, List.nil_append]
  have hfilter : (objectKeys (a.subjectEmotions.foldl tallyStep ([], [])).1).filter
      (fun subject => (stressedPercentage
        (getProp (a.subjectEmotions.foldl tallyStep ([], [])).2 subject)
        (getProp (a.subjectEmotions.foldl tallyStep ([], [])).1 subject)).exceeds 60) =
      (objectKeys (a.subjectEmotions.foldl tallyStep ([], [])).1).filter (fun s =>
        decide (60 < (stressedCount a.subjectEmotions s : ℚ) /
          (totalCount a.subjectEmotions s : ℚ) * 100)) := by
    apply List.filter_congr
    intro s hs
    rw [hpct s hs]
    by_cases hz : totalCount a.subjectEmotions s = 0
    · simp [hz, JsNumber.exceeds]
    · simp [hz, JsNumber.exceeds]
  rw [hfilter]
  apply List.map_congr_left
  intro s hs
  rw [List.mem_filter] at hs
  rw [hpct s hs.1]
  by_cases hz : totalCount a.subjectEmotions s = 0
  · exfalso
    have := hs.2
    simp [hz] at this
    norm_num at this
  · simp [hz]

end StressRuleLemmas


/-! ## Shape of the suggestions (C26) -/

theorem blocks_typed (gh : Int → Int) (a : AnalyticsReport) (logs : List StudyLog) :
    ∀ s ∈ stressBlock a [] ++ morningFocusBlock a [] ++ lateNightBlock gh logs [] ++
        balanceBlock a [] ++ boredomBlock a [],
      s.type = "info" ∨ s.type = "warning" ∨ s.type = "success" := by
  intro s h
  simp only [List.mem_append] at h
  rcases h with (((h | h) | h) | h) | h
  · obtain ⟨subject, pct, rfl⟩ := mem_stressBlock a s h
    exact Or.inr (Or.inl rfl)
  · rw [mem_morningFocusBlock a s h]
    exact Or.inr (Or.inr rfl)
  · rw [mem_lateNightBlock gh logs s h]
    exact Or.inr (Or.inl rfl)
  · obtain ⟨x, rfl | rfl⟩ := mem_balanceBlock a s h
    · exact Or.inr (Or.inr rfl)
    · exact Or.inr (Or.inl rfl)
  · obtain ⟨subjects, rfl⟩ := mem_boredomBlock a s h
    exact Or.inl rfl

/-- C26. For every analytics value and every log list, missing, empty or not,
the generator returns a non-empty list and every element's type is `info`,
`warning` or `success`. -/
theorem suggestions_nonempty_typed (gh : Int → Int) (analytics : Option AnalyticsReport)
    (logs : Option (List StudyLog)) :
    generateSuggestions gh analytics logs ≠ [] ∧
      ∀ s ∈ generateSuggestions gh analytics logs,
        s.type = "info" ∨ s.type = "warning" ∨ s.type = "success" := by
  have hnodata : ([noDataSuggestion] : List Suggestion) ≠ [] ∧
      ∀ s ∈ [noDataSuggestion], s.type = "info" ∨ s.type = "warning" ∨ s.type = "success" := by
    refine ⟨by simp, ?_⟩
    intro s hs
    rw [List.mem_singleton.1 hs]
    exact Or.inl rfl
  cases analytics with
  | none => cases logs <;> exact hnodata
  | some a =>
    cases logs with
    | none => exact hnodata
    | some ls =>
      by_cases hl : ls = []
      · subst hl
        exact hnodata
      · rw [generateSuggestions_eq gh a ls hl]
        split_ifs with hb
        · refine ⟨by simp, ?_⟩
          intro s hs
          rw [List.mem_singleton.1 hs]
          exact Or.inl rfl
        · exact ⟨hb, blocks_typed gh a ls⟩

/-- C26 at a concrete input: the five suggestions for `busyLogs`. -/
theorem suggestions_nonempty_typed_witness :
    lateNightWarning ∈ suggestionsFor busyLogs 1 (utcInstant may10 23 45) ∧
      (lateNightWarning.type = "info" ∨ lateNightWarning.type = "warning" ∨
        lateNightWarning.type = "success") :=
  ⟨by decide!,
    (suggestions_nonempty_typed utcHour
      (fetchedAnalytics (getAnalytics { documents := busyLogs, reachable := true } 1
        (utcInstant may10 23 45)))
      (some (listStudyLogs busyLogs 1))).2 lateNightWarning (by decide!)⟩

/-! ## Bounds on the summary rows (C27) -/

theorem sumScores_bounds (g : List (StudyLog × EmotionReading))
    (h : ∀ d ∈ g, 0 ≤ d.2.score ∧ d.2.score ≤ 10) :
    0 ≤ sumScores g ∧ sumScores g ≤ 10 * (g.length : ℚ) := by
  unfold sumScores
  induction g with
  | nil => simp
  | cons d ds ih =>
    have hd := h d (List.mem_cons_self _ _)
    have := ih (fun x hx => h x (List.mem_cons_of_mem _ hx))
    simp only [List.map_cons, List.sum_cons, List.length_cons, Nat.cast_add, Nat.cast_one]
    constructor <;> linarith [hd.1, hd.2, this.1, this.2]

theorem avgScores_bounds (g : List (StudyLog × EmotionReading)) (hne : g ≠ [])
    (h : ∀ d ∈ g, 0 ≤ d.2.score ∧ d.2.score ≤ 10) :
    0 ≤ avgScores g ∧ avgScores g ≤ 10 := by
  have hs := sumScores_bounds g h
  have hpos : (0 : ℚ) < (g.length : ℚ) := by exact_mod_cast List.length_pos.2 hne
  unfold avgScores
  constructor
  · exact div_nonneg hs.1 hpos.le
  · rw [div_le_iff₀ hpos]
    exact hs.2

theorem round1_bounds (x : ℚ) (h0 : 0 ≤ x) (h10 : x ≤ 10) :
    0 ≤ round1 x ∧ round1 x ≤ 10 := by
  obtain ⟨n, hn, hle, _⟩ := round1_nearest x
  rw [abs_le] at hle
  rw [hn] at hle ⊢
  have h1 : (-1 : ℚ) < (n : ℚ) := by linarith [hle.1, hle.2]
  have h2 : (n : ℚ) < 101 := by linarith [hle.1, hle.2]
  have h1' : (-1 : ℤ) < n := by exact_mod_cast h1
  have h2' : n < (101 : ℤ) := by exact_mod_cast h2
  have h3 : (0 : ℚ) ≤ (n : ℚ) := by exact_mod_cast (show (0 : ℤ) ≤ n by omega)
  have h4 : (n : ℚ) ≤ 100 := by exact_mod_cast (show n ≤ (100 : ℤ) by omega)
  constructor
  · exact div_nonneg h3 (by norm_num)
  · linarith

/-- C27. When every reading of the user's logs has its score in [0,10], every
row of `subjectEmotions`, `weeklyTrend` and `timeAnalysis` has `avgScore` in
[0,10] and `count` at least 1, and every `subjectEmotions` row has `totalScore`
in [0, 10 * count]. -/
theorem summary_rows_bounded (docs : List StudyLog) (userId : Nat) (now : Int)
    (h : ∀ l ∈ matchUser docs userId, ∀ e ∈ l.emotions, 0 ≤ e.score ∧ e.score ≤ 10) :
    (∀ r ∈ subjectEmotionsAggregation docs userId,
        0 ≤ r.avgScore ∧ r.avgScore ≤ 10 ∧ 1 ≤ r.count ∧
        0 ≤ r.totalScore ∧ r.totalScore ≤ 10 * (r.count : ℚ)) ∧
      (∀ r ∈ weeklyTrendAggregation docs userId now,
        0 ≤ r.avgScore ∧ r.avgScore ≤ 10 ∧ 1 ≤ r.count) ∧
      (∀ r ∈ timeAnalysisAggregation docs userId,
        0 ≤ r.avgScore ∧ r.avgScore ≤ 10 ∧ 1 ≤ r.count) := by
  have hall : ∀ d ∈ unwindEmotions (matchUser docs userId),
      0 ≤ d.2.score ∧ d.2.score ≤ 10 := by
    intro d hd
    rw [mem_unwindEmotions] at hd
    exact h d.1 hd.1 d.2 hd.2
  refine ⟨?_, ?_, ?_⟩
  · intro r hr
    obtain ⟨hne, hc, ht, ha⟩ := subjectEmotions_row docs userId r hr
    have hg : ∀ d ∈ subjectReadings docs userId r.subject r.emotion,
        0 ≤ d.2.score ∧ d.2.score ≤ 10 := by
      intro d hd
      unfold subjectReadings at hd
      exact hall d (List.mem_filter.1 hd).1
    have hs := sumScores_bounds _ hg
    have hav := avgScores_bounds _ hne hg
    have hr1 := round1_bounds _ hav.1 hav.2
    rw [ha, ht, hc]
    exact ⟨hr1.1, hr1.2, List.length_pos.2 hne, hs.1, hs.2⟩
  · intro r hr
    obtain ⟨hne, hc, ha⟩ := weeklyTrend_row docs userId now r hr
    have hg : ∀ d ∈ trendReadings docs userId (sevenDaysAgo now) r.date r.emotion,
        0 ≤ d.2.score ∧ d.2.score ≤ 10 := by
      intro d hd
      unfold trendReadings at hd
      exact hall d (List.mem_filter.1 hd).1
    have hav := avgScores_bounds _ hne hg
    have hr1 := round1_bounds _ hav.1 hav.2
    rw [ha, hc]
    exact ⟨hr1.1, hr1.2, List.length_pos.2 hne⟩
  · intro r hr
    obtain ⟨hne, hc, ha⟩ := timeAnalysis_row docs userId r hr
    have hg : ∀ d ∈ hourReadings docs userId r.hour r.emotion,
        0 ≤ d.2.score ∧ d.2.score ≤ 10 := by
      intro d hd
      unfold hourReadings at hd
      exact hall d (List.mem_filter.1 hd).1
    have hav := avgScores_bounds _ hne hg
    have hr1 := round1_bounds _ hav.1 hav.2
    rw [ha, hc]
    exact ⟨hr1.1, hr1.2, List.length_pos.2 hne⟩

/-- C27 at a concrete input: the rows of `busyLogs`, whose scores are 7 to 9. -/
theorem summary_rows_bounded_witness :
    (∀ l ∈ matchUser busyLogs 1, ∀ e ∈ l.emotions, 0 ≤ e.score ∧ e.score ≤ 10) ∧
      (⟨"Math", "Stressed", 8, 3, 24⟩ : SubjectEmotionStat) ∈
        subjectEmotionsAggregation busyLogs 1 ∧
      ((0 : ℚ) ≤ 8 ∧ (8 : ℚ) ≤ 10 ∧ 1 ≤ 3 ∧ (0 : ℚ) ≤ 24 ∧ (24 : ℚ) ≤ 10 * ((3 : Nat) : ℚ)) :=
  ⟨by decide!, by decide!,
    (summary_rows_bounded busyLogs 1 mayNow (by decide!)).1 ⟨"Math", "Stressed", 8, 3, 24⟩
      (by decide!)⟩


/-! ## The end-to-end scenario (C23) -/

/-- C23, counterexample. For the two scenario logs both lie in the late-night
subset and only one of them has a `Tired` reading above 5: the tired fraction is
one half, not 100 percent, and the late-night warning is not among the
suggestions. -/
theorem scenario_late_night_not_fired :
    (lateNightLogs utcHour (listStudyLogs scenarioLogs 1)).length = 2 ∧
      ((lateNightLogs utcHour (listStudyLogs scenarioLogs 1)).filter
        (fun l => hasTiredReading l)).length = 1 ∧
      lateNightWarning ∉ suggestionsFor scenarioLogs 1 (utcInstant may10 23 50) := by
  decide!

/-- C23, amended. For the two scenario logs `timeAnalysis` is the two rows
(23, Stressed, 8.0, 1) and (23, Tired, 7.0, 1); the late-night subset holds both
logs, one of them tired, so the tired fraction is 50 percent and the rule does
not fire: the only suggestion is the default one; and the streak is 1 at every
instant of that day. -/
theorem scenario_outcome :
    timeAnalysisAggregation scenarioLogs 1 = [⟨23, "Stressed", 8, 1⟩, ⟨23, "Tired", 7, 1⟩] ∧
      (lateNightLogs utcHour (listStudyLogs scenarioLogs 1)).length = 2 ∧
      ((lateNightLogs utcHour (listStudyLogs scenarioLogs 1)).filter
        (fun l => hasTiredReading l)).length = 1 ∧
      suggestionsFor scenarioLogs 1 (utcInstant may10 23 50) = [fallbackSuggestion] ∧
      scenarioLogs.map (fun l => isoDate (utcDate l.study_time)) = ["2024-05-10", "2024-05-10"] ∧
      (∀ now : Int, utcDate now = may10 → streak scenarioLogs 1 now = 1) := by
  refine ⟨by decide!, by decide!, by decide!, by decide!, by decide, ?_⟩
  intro now h
  have hd : uniqueDates scenarioLogs 1 = [may10] := by decide
  unfold streak
  rw [hd]
  simp [streakLoop, h]

/-- C23, amended, at a concrete instant of the day. -/
theorem scenario_outcome_witness :
    utcDate (utcInstant may10 23 50) = may10 ∧
      streak scenarioLogs 1 (utcInstant may10 23 50) = 1 :=
  ⟨by decide, scenario_outcome.2.2.2.2.2 (utcInstant may10 23 50) (by decide)⟩

/-! ## Records without readings (C24) -/

theorem unwindEmotions_filter_insert (p : StudyLog → Bool) (pre post : List StudyLog)
    (l : StudyLog) (he : l.emotions = []) :
    unwindEmotions ((pre ++ l :: post).filter p) = unwindEmotions ((pre ++ post).filter p) := by
  rw [unwindEmotions_filter, unwindEmotions_filter]
  congr 1
  unfold unwindEmotions
  simp [List.flatMap_append, List.flatMap_cons, he]

/-- C24. A record with an empty `emotions` array, inserted anywhere among the
stored logs, leaves `subjectEmotions`, `weeklyTrend` and `timeAnalysis`
unchanged; in the generator it never counts as a tired session, and the
generator returns its non-empty list of suggestions on a log list containing
it. -/
theorem empty_emotions_record_ignored (pre post : List StudyLog) (l : StudyLog)
    (userId : Nat) (now : Int) (gh : Int → Int) (analytics : Option AnalyticsReport)
    (he : l.emotions = []) :
    subjectEmotionsAggregation (pre ++ l :: post) userId =
        subjectEmotionsAggregation (pre ++ post) userId ∧
      weeklyTrendAggregation (pre ++ l :: post) userId now =
        weeklyTrendAggregation (pre ++ post) userId now ∧
      timeAnalysisAggregation (pre ++ l :: post) userId =
        timeAnalysisAggregation (pre ++ post) userId ∧
      ¬ hasTiredReading l ∧
      generateSuggestions gh analytics (some (pre ++ l :: post)) ≠ [] := by
  have h1 : unwindEmotions (matchUser (pre ++ l :: post) userId) =
      unwindEmotions (matchUser (pre ++ post) userId) :=
    unwindEmotions_filter_insert _ pre post l he
  have h2 : unwindEmotions ((matchUser (pre ++ l :: post) userId).filter
        (fun l => sevenDaysAgo now ≤ l.study_time)) =
      unwindEmotions ((matchUser (pre ++ post) userId).filter
        (fun l => sevenDaysAgo now ≤ l.study_time)) := by
    unfold matchUser
    rw [List.filter_filter, List.filter_filter]
    exact unwindEmotions_filter_insert _ pre post l he
  refine ⟨?_, ?_, ?_, ?_, ?_⟩
  · unfold subjectEmotionsAggregation
    rw [h1]
  · unfold weeklyTrendAggregation
    rw [h2]
  · unfold timeAnalysisAggregation
    rw [h1]
  · simp [hasTiredReading, he]
  · cases analytics with
    | none => simp [generateSuggestions, generateSuggestionsRun]
    | some a =>
      have hl : pre ++ l :: post ≠ [] := by simp
      rw [generateSuggestions_eq gh a _ hl]
      split_ifs with hb
      · simp
      · exact hb

/-- C24 at a concrete input: a record without readings after the scenario
logs. -/
theorem empty_emotions_record_ignored_witness :
    emptyEmotionsLog.emotions = [] ∧
      timeAnalysisAggregation (scenarioLogs ++ emptyEmotionsLog :: []) 1 =
        timeAnalysisAggregation (scenarioLogs ++ []) 1 ∧
      suggestionsFor (scenarioLogs ++ [emptyEmotionsLog]) 1 (utcInstant may10 23 50) =
        [fallbackSuggestion] :=
  ⟨rfl, (empty_emotions_record_ignored scenarioLogs [] emptyEmotionsLog 1 mayNow utcHour none
    rfl).2.2.1, by decide!⟩

/-! ## The balance averages out of 10 (C28) -/

/-- C28, the code at a failing input. One log with the readings `Happy` 9 and
`Calm` 9 is one session with two positive readings: the positive-average is
(9 + 9) / 1 = 18, printed as `18.0/10`. One log with three negative readings of
score 9 gives the negative-average 27, printed as `27.0/10`. The sums run over
readings while the divisor counts sessions. -/
theorem balance_average_above_ten :
    (∀ l ∈ doublePositiveLogs, ∀ e ∈ l.emotions, 0 ≤ e.score ∧ e.score ≤ 10) ∧
      getAnalytics { documents := doublePositiveLogs, reachable := true } 1 mayNow =
        Response.json 200
          { totalSessions := 1
            subjectEmotions := [⟨"Math", "Calm", 9, 1, 9⟩, ⟨"Math", "Happy", 9, 1, 9⟩]
            weeklyTrend := [⟨may10, "Calm", 9, 1⟩, ⟨may10, "Happy", 9, 1⟩]
            timeAnalysis := [⟨10, "Calm", 9, 1⟩, ⟨10, "Happy", 9, 1⟩]
            streak := 1 } ∧
      suggestionsFor doublePositiveLogs 1 mayNow = [balanceSuccess 18] ∧
      (balanceSuccess 18).message =
        "Great emotional balance! Your average positive emotion score is 18.0/10. Keep up the good work!" ∧
      (∀ l ∈ tripleNegativeLogs, ∀ e ∈ l.emotions, 0 ≤ e.score ∧ e.score ≤ 10) ∧
      suggestionsFor tripleNegativeLogs 1 mayNow = [balanceWarning 27] ∧
      (balanceWarning 27).message =
        "Your average negative emotion score is 27.0/10. Consider stress management techniques and regular breaks." := by
  decide!


/-! ## Failure of the store (C25) -/

/-- C25, counterexample. With the store unreachable the queries throw
`store unreachable`; the handler catches it and answers with status 500 and the
fixed message `Internal server error`: the failure is masked, not passed on. -/
theorem store_failure_masked :
    analyticsBody { documents := mayLogs, reachable := false } 1 mayNow =
        Except.error "store unreachable" ∧
      getAnalytics { documents := mayLogs, reachable := false } 1 mayNow =
        Response.error 500 "Internal server error" ∧
      getAnalytics { documents := mayLogs, reachable := false } 1 mayNow ≠
        Response.error 500 "store unreachable" :=
  ⟨rfl, by decide, by decide⟩

/-- C25, amended. When any of the five store queries fails, whatever the error
and whatever the other queries yield, the handler answers with status 500 and
the fixed message `Internal server error`; it answers with a report only when
all five queries succeeded, and that report holds exactly their results and the
streak computed from the fifth: never a partial or default-valued report. -/
theorem store_failure_gives_500 (q1 : Except String Nat)
    (q2 : Except String (List SubjectEmotionStat)) (q3 : Except String (List DailyTrendStat))
    (q4 : Except String (List TimeSlotEmotionStat)) (q5 : Except String (List Int))
    (now : Int) :
    ((∃ e, q1 = Except.error e) ∨ (∃ e, q2 = Except.error e) ∨ (∃ e, q3 = Except.error e) ∨
        (∃ e, q4 = Except.error e) ∨ (∃ e, q5 = Except.error e) →
      analyticsResponse (analyticsTry q1 q2 q3 q4 q5 now) =
        Response.error 500 "Internal server error") ∧
      (∀ status report,
        analyticsResponse (analyticsTry q1 q2 q3 q4 q5 now) = Response.json status report →
          status = 200 ∧ q1 = Except.ok report.totalSessions ∧
          q2 = Except.ok report.subjectEmotions ∧ q3 = Except.ok report.weeklyTrend ∧
          q4 = Except.ok report.timeAnalysis ∧
          ∃ dates, q5 = Except.ok dates ∧ report.streak = streakLoop now dates 0 0) := by
  cases q1 <;> cases q2 <;> cases q3 <;> cases q4 <;> cases q5 <;>
    simp [analyticsTry, analyticsResponse, bind, Except.bind, pure, Except.pure]

/-- C25, amended, at a concrete input: the third query fails, the others
succeed. -/
theorem store_failure_gives_500_witness :
    (∃ e, (Except.error "timeout" : Except String (List DailyTrendStat)) = Except.error e) ∧
      analyticsResponse (analyticsTry (Except.ok 2) (Except.ok []) (Except.error "timeout")
        (Except.ok []) (Except.ok [may10]) mayNow) =
        Response.error 500 "Internal server error" :=
  ⟨⟨"timeout", rfl⟩,
    (store_failure_gives_500 (Except.ok 2) (Except.ok []) (Except.error "timeout")
      (Except.ok []) (Except.ok [may10]) mayNow).1 (Or.inr (Or.inr (Or.inl ⟨"timeout", rfl⟩)))⟩


/-! ## Ingestion (C22) -/

theorem isArray_eq_array (v : JsonValue) (h : v.isArray = true) :
    v = JsonValue.array v.items := by
  cases v <;> simp [JsonValue.isArray, JsonValue.items] at h ⊢

theorem read_some_of_read_some (r : JsonValue) (a b : String) (x : JsonValue)
    (h : r.read a = some x) : ∃ y, r.read b = some y := by
  cases r <;> simp [JsonValue.read] at h ⊢

theorem validEmotions_truthy (e : String) (he : e ∈ validEmotions) :
    (JsonValue.string e).truthy = true ∧ includes validEmotions (JsonValue.string e) = true := by
  have hne : e ≠ "" := by
    intro h
    rw [h] at he
    revert he
    decide
  constructor
  · simp [JsonValue.truthy, hne]
  · simp [includes, he]

theorem string_of_included (emotion : JsonValue)
    (h : includes validEmotions emotion = true) :
    ∃ e ∈ validEmotions, emotion = JsonValue.string e := by
  cases emotion with
  | string s =>
    refine ⟨s, ?_, rfl⟩
    simpa [includes] using h
  | _ => simp [includes] at h

theorem validateReadings_cons_passed (lib : Conversions) (r : JsonValue)
    (rest : List JsonValue) :
    validateReadings lib (r :: rest) = Validation.passed ↔
      ((∃ e ∈ validEmotions, r.read "emotion" = some (JsonValue.string e)) ∧
        ∃ score, r.read "score" = some (JsonValue.number score) ∧ 0 ≤ score ∧ score ≤ 10) ∧
      validateReadings lib rest = Validation.passed := by
  rw [validateReadings]
  cases hemotion : r.read "emotion" with
  | none => simp
  | some emotion =>
    simp only
    by_cases hbad : emotion.truthy = false ∨ includes validEmotions emotion = false
    · rw [if_pos hbad]
      have hno : ¬ ∃ e ∈ validEmotions, some emotion = some (JsonValue.string e) := by
        rintro ⟨e, he, heq⟩
        have := Option.some.inj heq
        subst this
        obtain ⟨h1, h2⟩ := validEmotions_truthy e he
        rcases hbad with hb | hb
        · rw [h1] at hb
          exact Bool.noConfusion hb
        · rw [h2] at hb
          exact Bool.noConfusion hb
      constructor
      · intro h
        cases htext : templateText lib emotion <;> rw [htext] at h <;>
          exact Validation.noConfusion h
      · rintro ⟨⟨h, _⟩, _⟩
        exact absurd h hno
    · rw [if_neg hbad]
      have hincl : includes validEmotions emotion = true := by
        cases hi : includes validEmotions emotion
        · exact absurd (Or.inr hi) hbad
        · rfl
      obtain ⟨e, he, rfl⟩ := string_of_included emotion hincl
      cases hscore : r.read "score" with
      | none =>
        simp only
        constructor
        · intro h
          exact Validation.noConfusion h
        · rintro ⟨⟨_, q', hq', _⟩, _⟩
          exact Option.noConfusion hq'
      | some score =>
        cases score with
        | number q =>
          simp only
          by_cases hq : q < 0 ∨ 10 < q
          · rw [if_pos hq]
            constructor
            · intro h
              exact Validation.noConfusion h
            · rintro ⟨⟨_, q', hq', h0, h10⟩, _⟩
              have hqq : q = q' := by
                have := Option.some.inj hq'
                exact JsonValue.number.inj this
              subst hqq
              rcases hq with hq | hq <;> linarith
          · rw [if_neg hq]
            have h0 : 0 ≤ q := by
              by_contra h
              exact hq (Or.inl (not_le.1 h))
            have h10 : q ≤ 10 := by
              by_contra h
              exact hq (Or.inr (not_le.1 h))
            constructor
            · intro h
              exact ⟨⟨⟨e, he, rfl⟩, q, rfl, h0, h10⟩, h⟩
            · rintro ⟨_, h⟩
              exact h
        | _ =>
          simp only
          constructor
          · intro h
            exact Validation.noConfusion h
          · rintro ⟨⟨_, q', hq', _⟩, _⟩
            exact JsonValue.noConfusion (Option.some.inj hq')

theorem validateReadings_passed_iff (lib : Conversions) (items : List JsonValue) :
    validateReadings lib items = Validation.passed ↔
      ∀ r ∈ items, (∃ e ∈ validEmotions, r.read "emotion" = some (JsonValue.string e)) ∧
        ∃ score, r.read "score" = some (JsonValue.number score) ∧ 0 ≤ score ∧ score ≤ 10 := by
  induction items with
  | nil => simp [validateReadings]
  | cons r rest ih =>
    rw [validateReadings_cons_passed, ih]
    simp only [List.mem_cons, forall_eq_or_imp]

theorem validateReadings_not_thrown (lib : Conversions) (items : List JsonValue)
    (h : ∀ r ∈ items,
      ∃ emotion, r.read "emotion" = some emotion ∧ (templateText lib emotion).isSome = true) :
    validateReadings lib items ≠ Validation.thrown := by
  induction items with
  | nil =>
    rw [validateReadings]
    exact fun e => Validation.noConfusion e
  | cons r rest ih =>
    obtain ⟨emotion, hemotion, htext⟩ := h r (List.mem_cons_self _ _)
    obtain ⟨score, hscore⟩ := read_some_of_read_some r "emotion" "score" emotion hemotion
    obtain ⟨text, htext'⟩ := Option.isSome_iff_exists.1 htext
    have ihrest := ih (fun x hx => h x (List.mem_cons_of_mem _ hx))
    rw [validateReadings, hemotion]
    simp only
    by_cases hbad : emotion.truthy = false ∨ includes validEmotions emotion = false
    · rw [if_pos hbad, htext']
      exact fun e => Validation.noConfusion e
    · rw [if_neg hbad, hscore]
      cases score with
      | number q =>
        simp only
        by_cases hq : q < 0 ∨ 10 < q
        · rw [if_pos hq]
          exact fun e => Validation.noConfusion e
        · rw [if_neg hq]
          exact ihrest
      | _ =>
        simp only
        exact fun e => Validation.noConfusion e

theorem saveStudyLog_ok (lib : Conversions) (db : StudyLogStore) (userId : Nat) (now : Int)
    (body : LogRequest) (log : StudyLog) (db' : StudyLogStore)
    (h : saveStudyLog lib db userId now body = Except.ok (log, db')) :
    db'.documents = db.documents ++ [log] := by
  unfold saveStudyLog at h
  simp only at h
  split at h
  · exact Except.noConfusion h
  · split at h
    · split_ifs at h
      simp only [Except.ok.injEq, Prod.mk.injEq] at h
      obtain ⟨h1, h2⟩ := h
      rw [← h2, ← h1]
    · exact Except.noConfusion h

theorem postStudyLog_cases (lib : Conversions) (db : StudyLogStore) (userId : Nat)
    (now : Int) (body : LogRequest) :
    (¬ RequestWellFormed body ∧
        ∃ error, postStudyLog lib db userId now body = (PostResponse.badRequest error, db)) ∨
      (¬ RequestWellFormed body ∧ ¬ ReadingsReadable lib body ∧
        postStudyLog lib db userId now body = (PostResponse.serverError, db)) ∨
      (RequestWellFormed body ∧
        postStudyLog lib db userId now body = (PostResponse.serverError, db)) ∨
      (RequestWellFormed body ∧ ∃ log db',
        postStudyLog lib db userId now body = (PostResponse.created log, db') ∧
        db'.documents = db.documents ++ [log]) := by
  have hwf : RequestWellFormed body → body.subject.truthy = true ∧
      body.emotions.truthy = true ∧ body.emotions.isArray = true ∧
      body.emotions.items ≠ [] ∧
      validateReadings lib body.emotions.items = Validation.passed := by
    rintro ⟨hs, items, he, hne, hall⟩
    rw [he]
    exact ⟨hs, rfl, rfl, hne, (validateReadings_passed_iff lib items).2 hall⟩
  unfold postStudyLog
  by_cases hguard : body.subject.truthy = false ∨ body.emotions.truthy = false ∨
      body.emotions.isArray = false ∨ body.emotions.items.length = 0
  · rw [if_pos hguard]
    left
    refine ⟨?_, _, rfl⟩
    intro h
    obtain ⟨h1, h2, h3, h4, _⟩ := hwf h
    rcases hguard with hg | hg | hg | hg
    · rw [h1] at hg
      exact Bool.noConfusion hg
    · rw [h2] at hg
      exact Bool.noConfusion hg
    · rw [h3] at hg
      exact Bool.noConfusion hg
    · exact h4 (List.length_eq_zero.1 hg)
  · rw [if_neg hguard]
    cases hv : validateReadings lib body.emotions.items with
    | rejected error =>
      left
      refine ⟨?_, error, rfl⟩
      intro h
      rw [(hwf h).2.2.2.2] at hv
      exact Validation.noConfusion hv
    | thrown =>
      right
      left
      refine ⟨?_, ?_, rfl⟩
      · intro h
        rw [(hwf h).2.2.2.2] at hv
        exact Validation.noConfusion hv
      · intro h
        exact validateReadings_not_thrown lib _ h hv
    | passed =>
      have hsubject : body.subject.truthy = true := by
        cases hs : body.subject.truthy
        · exact absurd (Or.inl hs) hguard
        · rfl
      have harray : body.emotions.isArray = true := by
        cases hs : body.emotions.isArray
        · exact absurd (Or.inr (Or.inr (Or.inl hs))) hguard
        · rfl
      have hne : body.emotions.items ≠ [] := by
        intro hs
        exact hguard (Or.inr (Or.inr (Or.inr (by rw [hs]; rfl))))
      have hgood : RequestWellFormed body :=
        ⟨hsubject, body.emotions.items, isArray_eq_array _ harray, hne,
          (validateReadings_passed_iff lib _).1 hv⟩
      right
      right
      cases hsave : saveStudyLog lib db userId now body with
      | error e =>
        left
        exact ⟨hgood, rfl⟩
      | ok p =>
        obtain ⟨log', db'⟩ := p
        right
        exact ⟨hgood, log', db', rfl, saveStudyLog_ok _ _ _ _ _ _ _ hsave⟩

/-- C22, counterexample. A request with subject `Math` and the single reading
`Happy` with score 7.5, which is no integer, is answered with 201 and stored;
and a request whose `emotions` is `[null]`, which breaks the conditions, is
answered with 500, not 400: reading `emotion` of `null` throws. -/
theorem ingestion_fractional_score_and_null_reading :
    (postStudyLog sampleConversions { documents := [], reachable := true } 1 mayNow
        fractionalRequest).1 =
        PostResponse.created (sampleLog "Math" "Happy" (15 / 2) (utcInstant may10 10 0)) ∧
      (postStudyLog sampleConversions { documents := [], reachable := true } 1 mayNow
        fractionalRequest).2.documents =
        [sampleLog "Math" "Happy" (15 / 2) (utcInstant may10 10 0)] ∧
      (¬ ∃ n : ℤ, (15 / 2 : ℚ) = (n : ℚ)) ∧
      (postStudyLog sampleConversions { documents := [], reachable := true } 1 mayNow
        nullReadingRequest).1 = PostResponse.serverError := by
  refine ⟨by decide!, by decide!, ?_, by decide!⟩
  rintro ⟨n, hn⟩
  have h2 : (15 : ℚ) = 2 * (n : ℚ) := by linarith
  have h3 : (15 : ℤ) = 2 * n := by exact_mod_cast h2
  omega

/-- A subject that is present without being a string: the number 123 passes the
test `!subject`, the schema casts it to the text `123`, and the log is stored. -/
theorem ingestion_accepts_numeric_subject :
    (postStudyLog sampleConversions { documents := [], reachable := true } 1 mayNow
        numericSubjectRequest).1 =
      PostResponse.created (sampleLog "123" "Happy" 7 (utcInstant may10 10 0)) := by
  decide!

/-- C22, amended. `POST /` answers 201 and stores the log only if the subject is
present (a value other than a missing one, `null`, `false`, 0 and the empty
string), `emotions` is a non-empty array, every reading's emotion is one of the
10 names and every reading's score is a number in [0,10], integer or not; a
request that breaks one of these conditions is answered with 400 and leaves the
store as it was, provided no element of `emotions` is `null` and every emotion
can be written into the error text; and whenever the answer is not 201 nothing
is stored. -/
theorem ingestion_accepts_only_well_formed (lib : Conversions) (db : StudyLogStore)
    (userId : Nat) (now : Int) (body : LogRequest) :
    (∀ log, (postStudyLog lib db userId now body).1 = PostResponse.created log →
        RequestWellFormed body ∧
        (postStudyLog lib db userId now body).2.documents = db.documents ++ [log]) ∧
      (¬ RequestWellFormed body → ReadingsReadable lib body →
        (∃ error, (postStudyLog lib db userId now body).1 = PostResponse.badRequest error) ∧
        (postStudyLog lib db userId now body).2 = db) ∧
      ((∀ log, (postStudyLog lib db userId now body).1 ≠ PostResponse.created log) →
        (postStudyLog lib db userId now body).2 = db) := by
  rcases postStudyLog_cases lib db userId now body with
    ⟨hnot, error, h⟩ | ⟨hnot, hunreadable, h⟩ | ⟨hwf, h⟩ | ⟨hwf, log', db', h, hdocs⟩
  · rw [h]
    refine ⟨?_, fun _ _ => ⟨⟨error, rfl⟩, rfl⟩, fun _ => rfl⟩
    intro log hl
    exact PostResponse.noConfusion hl
  · rw [h]
    refine ⟨?_, fun _ hr => absurd hr hunreadable, fun _ => rfl⟩
    intro log hl
    exact PostResponse.noConfusion hl
  · rw [h]
    refine ⟨?_, fun hn => absurd hwf hn, fun _ => rfl⟩
    intro log hl
    exact PostResponse.noConfusion hl
  · rw [h]
    refine ⟨?_, fun hn => absurd hwf hn, fun hall => absurd rfl (hall log')⟩
    intro log hl
    have : log' = log := PostResponse.created.inj hl
    subst this
    exact ⟨hwf, hdocs⟩

theorem outOfRangeRequest_not_well_formed : ¬ RequestWellFormed outOfRangeRequest := by
  rintro ⟨_, items, hitems, _, hall⟩
  have hi : items = [readingJson "Happy" 3, readingJson "Calm" 11] :=
    (JsonValue.array.inj hitems).symm
  subst hi
  obtain ⟨_, q, hq, _, h10⟩ := hall (readingJson "Calm" 11) (by simp)
  have h11 : (11 : ℚ) = q := by
    have := Option.some.inj hq
    exact JsonValue.number.inj this
  rw [← h11] at h10
  norm_num at h10

/-- C22, amended, at a concrete input: a score of 11 in the second reading. -/
theorem ingestion_accepts_only_well_formed_witness :
    ¬ RequestWellFormed outOfRangeRequest ∧
      ReadingsReadable sampleConversions outOfRangeRequest ∧
      (postStudyLog sampleConversions { documents := mayLogs, reachable := true } 1 mayNow
          outOfRangeRequest).1 =
        PostResponse.badRequest "Invalid score for Calm. Must be between 0 and 10" ∧
      ((∃ error, (postStudyLog sampleConversions { documents := mayLogs, reachable := true } 1
          mayNow outOfRangeRequest).1 = PostResponse.badRequest error) ∧
        (postStudyLog sampleConversions { documents := mayLogs, reachable := true } 1 mayNow
          outOfRangeRequest).2 = { documents := mayLogs, reachable := true }) :=
  have hreadable : ReadingsReadable sampleConversions outOfRangeRequest := by
    intro r hr
    have hr' : r = readingJson "Happy" 3 ∨ r = readingJson "Calm" 11 := by
      simpa [outOfRangeRequest, JsonValue.items] using hr
    rcases hr' with rfl | rfl
    · exact ⟨JsonValue.string "Happy", rfl, rfl⟩
    · exact ⟨JsonValue.string "Calm", rfl, rfl⟩
  ⟨outOfRangeRequest_not_well_formed, hreadable, by decide!,
    (ingestion_accepts_only_well_formed sampleConversions
      { documents := mayLogs, reachable := true } 1 mayNow outOfRangeRequest).2.1
      outOfRangeRequest_not_well_formed hreadable⟩

/-! ## Favourite subjects (C29) -/

theorem indexOf_map_found (f : String → String) (before after : List String) (s y : String)
    (hb : ∀ t ∈ before, f t ≠ y) (hs : f s = y) :
    indexOf ((before ++ s :: after).map f) y = (before.length : Int) := by
  have hnot : y ∉ before.map f := by
    intro h
    obtain ⟨t, ht, hty⟩ := List.mem_map.1 h
    exact hb t ht hty
  have hidx : ((before ++ s :: after).map f).indexOf y = before.length := by
    rw [List.map_append, List.map_cons, hs, List.indexOf_append_of_not_mem hnot,
      List.indexOf_cons_self, List.length_map]
    rfl
  unfold indexOf
  rw [hidx, if_pos (by simp)]

theorem indexOf_map_absent (f : String → String) (favs : List String) (y : String)
    (h : ∀ t ∈ favs, f t ≠ y) : indexOf (favs.map f) y = -1 := by
  have hnot : y ∉ favs.map f := by
    intro hm
    obtain ⟨t, ht, hty⟩ := List.mem_map.1 hm
    exact h t ht hty
  unfold indexOf
  rw [List.indexOf_eq_length.2 hnot, if_neg (lt_irrefl _)]

theorem toggleFavorite_found (f : String → String) (before after : List String)
    (s param : String) (hparam : jsTrim param ≠ "")
    (hb : ∀ t ∈ before, f t ≠ f (jsTrim param)) (hs : f s = f (jsTrim param)) :
    toggleFavorite f (some ⟨some (before ++ s :: after)⟩) param =
      (FavoritesResponse.json (before ++ after), some ⟨some (before ++ after)⟩) := by
  have herase : (before ++ s :: after).eraseIdx before.length = before ++ after := by
    rw [List.eraseIdx_append_of_length_le (le_refl _)]
    simp
  unfold toggleFavorite
  simp only [if_neg hparam, Option.getD_some, indexOf_map_found f before after s _ hb hs,
    Int.toNat_ofNat, herase]
  rw [if_pos (Int.ofNat_nonneg _)]

theorem toggleFavorite_absent (f : String → String) (favs : List String) (param : String)
    (hparam : jsTrim param ≠ "") (h : ∀ t ∈ favs, f t ≠ f (jsTrim param)) :
    toggleFavorite f (some ⟨some favs⟩) param =
      (FavoritesResponse.json (favs ++ [jsTrim param]),
        some ⟨some (favs ++ [jsTrim param])⟩) := by
  unfold toggleFavorite
  simp only [if_neg hparam, Option.getD_some, indexOf_map_absent f favs _ h]
  rw [if_neg (by decide)]

theorem nodup_map_split (f : String → String) (before after : List String) (s : String)
    (h : ((before ++ s :: after).map f).Nodup) :
    (∀ t ∈ before, f t ≠ f s) ∧ (∀ t ∈ after, f t ≠ f s) ∧
      ((before ++ after).map f).Nodup := by
  rw [List.map_append, List.map_cons, List.nodup_append] at h
  obtain ⟨h1, h2, h3⟩ := h
  rw [List.nodup_cons] at h2
  refine ⟨?_, ?_, ?_⟩
  · intro t ht e
    exact h3 (List.mem_map_of_mem f ht) (e ▸ List.mem_cons_self _ _)
  · intro t ht e
    exact h2.1 (e ▸ List.mem_map_of_mem f ht)
  · rw [List.map_append, List.nodup_append]
    exact ⟨h1, h2.2, fun a ha hb => h3 ha (List.mem_cons_of_mem _ hb)⟩

/-- C29. Toggling a favourite is an involution up to case: for a list of
favourites no two of which are equal ignoring case and a subject that is not
blank, the route answers with the list `once` and stores it, where `once` is the
list with the trimmed subject appended when no entry equals it ignoring case,
and the list without the entry that equals it ignoring case otherwise; no two
entries of `once` are equal ignoring case; and toggling the same subject again
gives a list `twice` with the same lower-cased subjects as the original. -/
theorem toggle_favorite_involution (toLowerCase : String → String)
    (favoriteSubjects : List String) (param : String)
    (hnodup : (favoriteSubjects.map toLowerCase).Nodup) (hparam : jsTrim param ≠ "") :
    ∃ once twice : List String,
      toggleFavorite toLowerCase (some ⟨some favoriteSubjects⟩) param =
        (FavoritesResponse.json once, some ⟨some once⟩) ∧
      toggleFavorite toLowerCase (some ⟨some once⟩) param =
        (FavoritesResponse.json twice, some ⟨some twice⟩) ∧
      ((∀ s ∈ favoriteSubjects, toLowerCase s ≠ toLowerCase (jsTrim param)) →
        once = favoriteSubjects ++ [jsTrim param]) ∧
      (∀ before s after, favoriteSubjects = before ++ s :: after →
        toLowerCase s = toLowerCase (jsTrim param) → once = before ++ after) ∧
      (once.map toLowerCase).Nodup ∧
      ∀ x, x ∈ twice.map toLowerCase ↔ x ∈ favoriteSubjects.map toLowerCase := by
  by_cases hex : ∃ s ∈ favoriteSubjects, toLowerCase s = toLowerCase (jsTrim param)
  · obtain ⟨s, hs, hsy⟩ := hex
    obtain ⟨before, after, rfl⟩ := List.append_of_mem hs
    obtain ⟨hb, ha, hnd⟩ := nodup_map_split toLowerCase before after s hnodup
    rw [hsy] at hb ha
    have hrest : ∀ t ∈ before ++ after, toLowerCase t ≠ toLowerCase (jsTrim param) := by
      intro t ht
      rcases List.mem_append.1 ht with h | h
      · exact hb t h
      · exact ha t h
    refine ⟨before ++ after, before ++ after ++ [jsTrim param],
      toggleFavorite_found toLowerCase before after s param hparam hb hsy,
      toggleFavorite_absent toLowerCase _ param hparam hrest, ?_, ?_, hnd, ?_⟩
    · intro hall
      exact absurd hsy (hall s hs)
    · intro before' s' after' hsplit hs'
      have h1 := toggleFavorite_found toLowerCase before after s param hparam hb hsy
      obtain ⟨hb', _, _⟩ := nodup_map_split toLowerCase before' after' s' (hsplit ▸ hnodup)
      rw [hs'] at hb'
      have h2 := toggleFavorite_found toLowerCase before' after' s' param hparam hb' hs'
      rw [← hsplit, h1] at h2
      simp only [Prod.mk.injEq, FavoritesResponse.json.injEq] at h2
      exact h2.1
    · intro x
      simp only [List.map_append, List.map_cons, List.map_nil, List.mem_append, List.mem_cons,
        List.mem_singleton, List.not_mem_nil, or_false, hsy]
      tauto
  · have hall : ∀ t ∈ favoriteSubjects, toLowerCase t ≠ toLowerCase (jsTrim param) :=
      fun t ht e => hex ⟨t, ht, e⟩
    refine ⟨favoriteSubjects ++ [jsTrim param], favoriteSubjects,
      toggleFavorite_absent toLowerCase _ param hparam hall, ?_, fun _ => rfl, ?_, ?_,
      fun _ => Iff.rfl⟩
    · have h := toggleFavorite_found toLowerCase favoriteSubjects [] (jsTrim param) param
        hparam hall rfl
      simpa using h
    · intro before s after hsplit hs
      exact absurd hs (hall s (hsplit ▸ List.mem_append_right _ (List.mem_cons_self _ _)))
    · rw [List.map_append, List.nodup_append]
      refine ⟨hnodup, by simp, ?_⟩
      intro a ha hb
      simp only [List.map_cons, List.map_nil, List.mem_singleton] at hb
      obtain ⟨t, ht, hta⟩ := List.mem_map.1 ha
      exact hall t ht (hta.trans hb)

/-- C29 at a concrete input: `math`, with blanks around it, toggled on the
favourites `Math`, `Physics`. -/
theorem toggle_favorite_involution_witness :
    (["Math", "Physics"].map asciiLowerCase).Nodup ∧ jsTrim " math " ≠ "" ∧
    ∃ once twice : List String,
      toggleFavorite asciiLowerCase (some ⟨some ["Math", "Physics"]⟩) " math " =
        (FavoritesResponse.json once, some ⟨some once⟩) ∧
      toggleFavorite asciiLowerCase (some ⟨some once⟩) " math " =
        (FavoritesResponse.json twice, some ⟨some twice⟩) ∧
      ((∀ s ∈ ["Math", "Physics"], asciiLowerCase s ≠ asciiLowerCase (jsTrim " math ")) →
        once = ["Math", "Physics"] ++ [jsTrim " math "]) ∧
      (∀ before s after, ["Math", "Physics"] = before ++ s :: after →
        asciiLowerCase s = asciiLowerCase (jsTrim " math ") → once = before ++ after) ∧
      (once.map asciiLowerCase).Nodup ∧
      ∀ x, x ∈ twice.map asciiLowerCase ↔ x ∈ ["Math", "Physics"].map asciiLowerCase :=
  ⟨by decide!, by decide!,
    toggle_favorite_involution asciiLowerCase ["Math", "Physics"] " math " (by decide!)
      (by decide!)⟩


/-! ## Study groups (C30) -/

theorem createGroup_invariant (userId : Nat) (name description : Option String)
    (group : StudyGroup) (h : (createGroup userId name description).2 = some group) :
    GroupInvariant group := by
  unfold createGroup at h
  cases name with
  | none => exact Option.noConfusion h
  | some name =>
    simp only at h
    by_cases hblank : name = "" ∨ jsTrim name = ""
    · rw [if_pos hblank] at h
      exact Option.noConfusion h
    · rw [if_neg hblank] at h
      have hg := Option.some.inj h
      subst hg
      exact ⟨by simp, by simp, by simp⟩

theorem inviteToGroup_invariant (toLowerCase : String → String)
    (findUser : String → Option Nat) (stored : Option StudyGroup) (userId : Nat)
    (email : Option String) (hs : ∀ g, stored = some g → GroupInvariant g)
    (group : StudyGroup)
    (h : (inviteToGroup toLowerCase findUser stored userId email).2 = some group) :
    GroupInvariant group := by
  cases stored with
  | none => exact Option.noConfusion h
  | some g =>
    have hg := hs g rfl
    unfold inviteToGroup at h
    simp only at h
    by_cases hmem : userId ∉ g.members
    · rw [if_pos hmem] at h
      exact (Option.some.inj h) ▸ hg
    · rw [if_neg hmem] at h
      cases email with
      | none => exact (Option.some.inj h) ▸ hg
      | some email =>
        simp only at h
        by_cases hblank : email = "" ∨ jsTrim email = ""
        · rw [if_pos hblank] at h
          exact (Option.some.inj h) ▸ hg
        · rw [if_neg hblank] at h
          cases hfind : findUser (jsTrim (toLowerCase email)) with
          | none =>
            rw [hfind] at h
            exact (Option.some.inj h) ▸ hg
          | some user =>
            rw [hfind] at h
            simp only at h
            by_cases hany : (g.members.any fun m => decide (m = user)) = true
            · rw [if_pos hany] at h
              exact (Option.some.inj h) ▸ hg
            · rw [if_neg hany] at h
              have hnew : user ∉ g.members := by
                intro hu
                apply hany
                simp only [List.any_eq_true, decide_eq_true_eq]
                exact ⟨user, hu, rfl⟩
              have hgroup := Option.some.inj h
              subst hgroup
              obtain ⟨h1, h2, h3⟩ := hg
              refine ⟨by simp, ?_, List.mem_append_left _ h3⟩
              show (g.members ++ [user]).Nodup
              rw [List.nodup_append]
              refine ⟨h2, by simp, ?_⟩
              intro a ha hb
              rw [List.mem_singleton] at hb
              exact hnew (hb ▸ ha)

theorem leaveGroup_some (group : StudyGroup) (userId first : Nat) (rest : List Nat)
    (hf : group.members.filter (fun m => m ≠ userId) = first :: rest) :
    leaveGroup (some group) userId =
      (GroupResponse.message "Left group successfully",
        some { group with
          members := first :: rest
          createdBy := if group.createdBy = userId then first else group.createdBy }) := by
  unfold leaveGroup
  simp only [hf]

theorem leaveGroup_none (group : StudyGroup) (userId : Nat)
    (hf : group.members.filter (fun m => m ≠ userId) = []) :
    leaveGroup (some group) userId =
      (GroupResponse.message "Group deleted (no members left)", none) := by
  unfold leaveGroup
  simp only [hf]

theorem leaveGroup_invariant (stored : Option StudyGroup) (userId : Nat)
    (hs : ∀ g, stored = some g → GroupInvariant g) (group : StudyGroup)
    (h : (leaveGroup stored userId).2 = some group) : GroupInvariant group := by
  cases stored with
  | none => exact Option.noConfusion h
  | some g =>
    obtain ⟨_, h2, h3⟩ := hs g rfl
    cases hf : g.members.filter (fun m => m ≠ userId) with
    | nil =>
      rw [leaveGroup_none g userId hf] at h
      exact Option.noConfusion h
    | cons first rest =>
      rw [leaveGroup_some g userId first rest hf] at h
      have hgroup := Option.some.inj h
      subst hgroup
      refine ⟨by simp, ?_, ?_⟩
      · show (first :: rest).Nodup
        rw [← hf]
        exact h2.filter _
      · show (if g.createdBy = userId then first else g.createdBy) ∈ first :: rest
        split_ifs with hc
        · exact List.mem_cons_self _ _
        · rw [← hf, List.mem_filter]
          exact ⟨h3, by simpa using hc⟩

theorem runGroupRequests_invariant (toLowerCase : String → String)
    (findUser : String → Option Nat) (requests : List GroupRequest) :
    ∀ (stored : Option StudyGroup), (∀ g, stored = some g → GroupInvariant g) →
      ∀ group, runGroupRequests toLowerCase findUser stored requests = some group →
        GroupInvariant group := by
  induction requests with
  | nil =>
    intro stored hs group h
    exact hs group h
  | cons r rs ih =>
    intro stored hs group h
    refine ih (handleGroupRequest toLowerCase findUser stored r) ?_ group h
    intro g hg
    cases r with
    | invite userId email =>
      exact inviteToGroup_invariant toLowerCase findUser stored userId email hs g hg
    | leave userId => exact leaveGroup_invariant stored userId hs g hg

/-- C30. A group created by `POST /` and then subjected to any sequence of
invite and leave requests, if it is still stored, has a member list that is not
empty, holds no user twice and holds its `createdBy` user; when its creator
leaves and members remain, the stored group has exactly the remaining members
and its `createdBy` is the first of them; and when its only member leaves, the
group is deleted. -/
theorem group_membership_invariant (toLowerCase : String → String)
    (findUser : String → Option Nat) (userId : Nat) (name description : Option String)
    (requests : List GroupRequest) (group : StudyGroup)
    (h : runGroupRequests toLowerCase findUser (createGroup userId name description).2
      requests = some group) :
    (group.members ≠ [] ∧ group.members.Nodup ∧ group.createdBy ∈ group.members) ∧
      (∀ first rest, group.members.filter (fun m => m ≠ group.createdBy) = first :: rest →
        ∃ after, (leaveGroup (some group) group.createdBy).2 = some after ∧
          after.createdBy = first ∧ after.members = first :: rest) ∧
      (∀ u, group.members = [u] → (leaveGroup (some group) u).2 = none) := by
  refine ⟨runGroupRequests_invariant toLowerCase findUser requests _
    (fun g hg => createGroup_invariant userId name description g hg) group h, ?_, ?_⟩
  · intro first rest hf
    rw [leaveGroup_some group group.createdBy first rest hf]
    exact ⟨_, rfl, by simp, rfl⟩
  · intro u hu
    rw [leaveGroup_none group u (by simp [hu])]

/-- C30 at a concrete input: user 1 creates a group and invites users 2 and 3, a
second invitation of user 2 is refused, and user 1 leaves. -/
theorem group_membership_invariant_witness :
    runGroupRequests asciiLowerCase sampleAccounts
        (createGroup 1 (some " Maths club ") none).2 sampleGroupRequests =
      some { name := "Maths club", description := "", createdBy := 2, members := [2, 3],
             invitations := [{ email := "ben@example.org", invitedBy := 1 },
                             { email := "cy@example.org", invitedBy := 2 }] } ∧
    (([2, 3] : List Nat) ≠ [] ∧ ([2, 3] : List Nat).Nodup ∧ 2 ∈ ([2, 3] : List Nat)) :=
  ⟨by decide!,
    (group_membership_invariant asciiLowerCase sampleAccounts 1 (some " Maths club ") none
      sampleGroupRequests
      { name := "Maths club", description := "", createdBy := 2, members := [2, 3],
        invitations := [{ email := "ben@example.org", invitedBy := 1 },
                        { email := "cy@example.org", invitedBy := 2 }] }
      (by decide!)).1⟩



/-! ## Totality and divisors (C21) -/

theorem streakLoop_le (now : Int) :
    ∀ (dates : List Int) (i acc : Nat), streakLoop now dates i acc ≤ acc + dates.length := by
  intro dates
  induction dates with
  | nil =>
    intro i acc
    simp [streakLoop]
  | cons d rest ih =>
    intro i acc
    unfold streakLoop
    simp only
    split_ifs
    · have := ih (i + 1) (acc + 1)
      simp only [List.length_cons]
      omega
    · omega

theorem plus_ne_zero (v : JsValue) (count : Nat) (hc : 1 ≤ count) :
    v.plus count ≠ JsValue.number 0 := by
  cases v with
  | undefined => simp [JsValue.plus]
  | number n =>
    simp only [JsValue.plus, ne_eq, JsValue.number.injEq]
    omega
  | nan => simp [JsValue.plus]
  | other => simp [JsValue.plus]

theorem tallyStep_no_zero (st : JsObject × JsObject) (item : SubjectEmotionStat)
    (hc : 1 ≤ item.count) (h : ∀ k, st.1.lookup k ≠ some (JsValue.number 0)) :
    ∀ k, (tallyStep st item).1.lookup k ≠ some (JsValue.number 0) := by
  intro k
  unfold tallyStep
  simp only
  by_cases hproto : item.subject = "__proto__"
  · have hinit : (if (getProp st.1 item.subject).falsy = true then
          (setProp st.1 item.subject (JsValue.number 0),
           setProp st.2 item.subject (JsValue.number 0))
        else st).1 = st.1 := by
      split_ifs
      · simp [setProp, hproto]
      · rfl
    rw [setProp, if_pos hproto, hinit]
    exact h k
  · rw [setProp, if_neg hproto, putOwn_lookup]
    by_cases hk : k = item.subject
    · rw [if_pos hk]
      intro e
      exact plus_ne_zero _ _ hc (Option.some.inj e)
    · rw [if_neg hk]
      split_ifs
      · show (setProp st.1 item.subject (JsValue.number 0)).lookup k ≠ _
        rw [setProp, if_neg hproto, putOwn_lookup, if_neg hk]
        exact h k
      · exact h k

theorem tally_no_zero (rows : List SubjectEmotionStat) (hc : ∀ r ∈ rows, 1 ≤ r.count) :
    ∀ (st : JsObject × JsObject), (∀ k, st.1.lookup k ≠ some (JsValue.number 0)) →
      ∀ k, (rows.foldl tallyStep st).1.lookup k ≠ some (JsValue.number 0) := by
  induction rows with
  | nil =>
    intro st h
    exact h
  | cons r rs ih =>
    intro st h
    exact ih (fun x hx => hc x (List.mem_cons_of_mem _ hx)) (tallyStep st r)
      (tallyStep_no_zero st r (hc r (List.mem_cons_self _ _)) h)

theorem getProp_toNumber_ne_zero (obj : JsObject) (key : String)
    (h : ∀ k, obj.lookup k ≠ some (JsValue.number 0)) :
    (getProp obj key).toNumber ≠ JsNumber.finite 0 := by
  unfold getProp
  cases hl : obj.lookup key with
  | none =>
    simp only
    split_ifs <;> simp [JsValue.toNumber]
  | some v =>
    simp only
    cases v with
    | undefined => simp [JsValue.toNumber]
    | number n =>
      have hn : n ≠ 0 := by
        intro e
        rw [e] at hl
        exact h key hl
      simp only [JsValue.toNumber, ne_eq, JsNumber.finite.injEq, Nat.cast_eq_zero]
      exact hn
    | nan => simp [JsValue.toNumber]
    | other => simp [JsValue.toNumber]

theorem stressRun_divisors (a : AnalyticsReport) (l : List Suggestion)
    (hc : ∀ r ∈ a.subjectEmotions, 1 ≤ r.count) :
    ∀ d ∈ (stressRun a l).2, d ≠ JsNumber.finite 0 := by
  intro d hd
  rw [stressRun_eq] at hd
  split_ifs at hd
  · simp only [List.mem_map] at hd
    obtain ⟨subject, _, rfl⟩ := hd
    exact getProp_toNumber_ne_zero _ _
      (tally_no_zero a.subjectEmotions hc ([], []) (by simp))
  · simp at hd

theorem morningFocusRun_divisors (a : AnalyticsReport) (l : List Suggestion) :
    ∀ d ∈ (morningFocusRun a l).2, d ≠ JsNumber.finite 0 := by
  intro d hd
  unfold morningFocusRun at hd
  simp only at hd
  split_ifs at hd with h1 h2
  all_goals first
    | (rw [List.mem_singleton] at hd
       rw [hd, ne_eq, JsNumber.finite.injEq]
       exact ne_of_gt h2)
    | simp at hd

theorem lateNightRun_divisors (gh : Int → Int) (logs : List StudyLog) (l : List Suggestion) :
    ∀ d ∈ (lateNightRun gh logs l).2, d ≠ JsNumber.finite 0 := by
  intro d hd
  unfold lateNightRun at hd
  simp only at hd
  split_ifs at hd with h1 h2
  all_goals first
    | (rw [List.mem_singleton] at hd
       rw [hd, ne_eq, JsNumber.finite.injEq, Nat.cast_eq_zero]
       exact Nat.pos_iff_ne_zero.1 h2)
    | simp at hd

theorem balanceRun_divisors (a : AnalyticsReport) (l : List Suggestion) :
    ∀ d ∈ (balanceRun a l).2, d ≠ JsNumber.finite 0 := by
  intro d hd
  unfold balanceRun at hd
  simp only at hd
  split_ifs at hd with h1 h2
  all_goals first
    | (have hd' : d = JsNumber.finite (a.totalSessions : ℚ) := by simpa using hd
       rw [hd', ne_eq, JsNumber.finite.injEq, Nat.cast_eq_zero]
       exact Nat.pos_iff_ne_zero.1 h2)
    | simp at hd

theorem divisorsReached_eq (gh : Int → Int) (a : AnalyticsReport) (logs : List StudyLog)
    (hl : logs ≠ []) :
    divisorsReached gh (some a) (some logs) =
      (stressRun a []).2 ++ (morningFocusRun a (stressRun a []).1).2 ++
        (lateNightRun gh logs (morningFocusRun a (stressRun a []).1).1).2 ++
        (balanceRun a (lateNightRun gh logs (morningFocusRun a (stressRun a []).1).1).1).2 := by
  have hlen : logs.length ≠ 0 := fun h => hl (List.length_eq_zero.1 h)
  show (generateSuggestionsRun gh (some a) (some logs)).2 = _
  unfold generateSuggestionsRun
  simp only [hlen, if_false]

theorem divisorsReached_ne_zero (gh : Int → Int) (a : AnalyticsReport)
    (logs : Option (List StudyLog)) (hc : ∀ r ∈ a.subjectEmotions, 1 ≤ r.count) :
    ∀ d ∈ divisorsReached gh (some a) logs, d ≠ JsNumber.finite 0 := by
  intro d hd
  cases logs with
  | none => simp [divisorsReached, generateSuggestionsRun] at hd
  | some logs =>
    by_cases hl : logs = []
    · simp [divisorsReached, generateSuggestionsRun, hl] at hd
    · rw [divisorsReached_eq gh a logs hl] at hd
      simp only [List.mem_append] at hd
      rcases hd with ((hd | hd) | hd) | hd
      · exact stressRun_divisors a _ hc d hd
      · exact morningFocusRun_divisors a _ d hd
      · exact lateNightRun_divisors gh logs _ d hd
      · exact balanceRun_divisors a _ d hd

theorem getAnalytics_of_dates_defined (docs : List StudyLog) (userId : Nat) (now : Int)
    (hdates : ∀ l ∈ matchUser docs userId, dateToStringDefined l.study_time = true) :
    getAnalytics { documents := docs, reachable := true } userId now =
      Response.json 200
        { totalSessions := countDocuments docs userId
          subjectEmotions := subjectEmotionsAggregation docs userId
          weeklyTrend := weeklyTrendAggregation docs userId now
          timeAnalysis := timeAnalysisAggregation docs userId
          streak := streak docs userId now } := by
  have h3 : weeklyTrendQuery docs userId now =
      Except.ok (weeklyTrendAggregation docs userId now) := by
    unfold weeklyTrendQuery
    rw [if_pos]
    rw [List.all_eq_true]
    intro d hd
    rw [mem_unwindEmotions] at hd
    exact hdates d.1 (List.mem_filter.1 hd.1).1
  have h5 : streakQuery docs userId = Except.ok (uniqueDates docs userId) := by
    unfold streakQuery
    rw [if_pos]
    rw [List.all_eq_true]
    exact hdates
  unfold getAnalytics analyticsBody StudyLogStore.run StudyLogStore.runChecked
  simp only [if_true, h3, h5]
  rfl

/-- C21, counterexample. A log that meets every condition of a valid record, with
its `study_time` on 10000-01-01, makes the analytics route fail: `$dateToString`
is not defined in the year 10000, the `aggregate` calls that use it throw, and
the answer is status 500 instead of a report. -/
theorem analytics_fails_beyond_year_9999 :
    (∀ l ∈ farFutureLogs, l.subject ≠ "" ∧ l.emotions ≠ [] ∧
        ∀ e ∈ l.emotions, e.emotion ∈ validEmotions ∧ 0 ≤ e.score ∧ e.score ≤ 10) ∧
      farFutureLogs.map (fun l => civilFromDays (utcDate l.study_time)) = [(10000, 1, 1)] ∧
      weeklyTrendQuery farFutureLogs 1 mayNow =
        Except.error "date component was outside the supported range of 0-9999" ∧
      streakQuery farFutureLogs 1 =
        Except.error "date component was outside the supported range of 0-9999" ∧
      getAnalytics { documents := farFutureLogs, reachable := true } 1 mayNow =
        Response.error 500 "Internal server error" := by
  refine ⟨by decide!, by decide!, ?_, ?_, by decide!⟩
  · unfold weeklyTrendQuery
    rw [if_neg (by decide!)]
  · unfold streakQuery
    rw [if_neg (by decide!)]

/-- C21, amended. For every stored sequence of logs, the empty one included,
whose `study_time` values of the user lie in the years 0000 to 9999: the
analytics route of a reachable store does not fail, it answers with status 200
and the report made of the count, the three summaries and the streak; the streak
loop ends within the array of distinct dates; and for that report and any array
of logs, missing or not, the generator returns a list of suggestions that is
not empty, and no division it executes, in the stress percentage, the morning
share, the tired fraction and the two balance averages, has the divisor 0. -/
theorem aggregation_and_suggestions_total (docs : List StudyLog) (userId : Nat) (now : Int)
    (getHours : Int → Int) (logs : Option (List StudyLog))
    (hdates : ∀ l ∈ matchUser docs userId, dateToStringDefined l.study_time = true) :
    ∃ report : AnalyticsReport,
      getAnalytics { documents := docs, reachable := true } userId now =
        Response.json 200 report ∧
      report.totalSessions = countDocuments docs userId ∧
      report.subjectEmotions = subjectEmotionsAggregation docs userId ∧
      report.weeklyTrend = weeklyTrendAggregation docs userId now ∧
      report.timeAnalysis = timeAnalysisAggregation docs userId ∧
      report.streak = streak docs userId now ∧
      report.streak ≤ (uniqueDates docs userId).length ∧
      generateSuggestions getHours (some report) logs ≠ [] ∧
      ∀ d ∈ divisorsReached getHours (some report) logs, d ≠ JsNumber.finite 0 := by
  refine ⟨_, getAnalytics_of_dates_defined docs userId now hdates, rfl, rfl, rfl, rfl, rfl,
    ?_, ?_, ?_⟩
  · have := streakLoop_le now (uniqueDates docs userId) 0 0
    simpa [streak] using this
  · cases logs with
    | none => simp [generateSuggestions, generateSuggestionsRun]
    | some logs =>
      by_cases hl : logs = []
      · simp [generateSuggestions, generateSuggestionsRun, hl]
      · rw [generateSuggestions_eq getHours _ logs hl]
        split_ifs with he
        · simp
        · exact he
  · refine divisorsReached_ne_zero getHours _ logs ?_
    intro r hr
    have hrow := subjectEmotions_row docs userId r hr
    rw [hrow.2.1]
    exact Nat.succ_le_of_lt (List.length_pos.2 hrow.1)

/-- C21, amended, at a concrete input: the logs `busyLogs` of 2024-05-10 and the
user's log list as the page passes it; the run of the generator divides six
times, by the tallies 9 and 3 of the two subjects, by the total focus score 9,
by the one late-night session and twice by the five sessions. -/
theorem aggregation_and_suggestions_total_witness :
    (∀ l ∈ matchUser busyLogs 1, dateToStringDefined l.study_time = true) ∧
      divisorsReached utcHour
        (fetchedAnalytics (getAnalytics { documents := busyLogs, reachable := true } 1
          (utcInstant may10 23 45)))
        (some (listStudyLogs busyLogs 1)) =
        [JsNumber.finite 9, JsNumber.finite 3, JsNumber.finite 9, JsNumber.finite 1,
         JsNumber.finite 5, JsNumber.finite 5] ∧
      ∃ report : AnalyticsReport,
        getAnalytics { documents := busyLogs, reachable := true } 1 (utcInstant may10 23 45) =
          Response.json 200 report ∧
        ∀ d ∈ divisorsReached utcHour (some report) (some (listStudyLogs busyLogs 1)),
          d ≠ JsNumber.finite 0 :=
  ⟨by decide!, by decide!,
    match aggregation_and_suggestions_total busyLogs 1 (utcInstant may10 23 45) utcHour
        (some (listStudyLogs busyLogs 1)) (by decide!) with
    | ⟨report, h, _, _, _, _, _, _, _, hd⟩ => ⟨report, h, hd⟩⟩

end StudyMoodTracer
